import Mathlib

/-!
# The player thread of MPD (`src/player_thread.c`)

A shallow embedding of the playback state machine of `player_thread.c`.

* The global control blocks `pc` and `dc` and the local `struct player` of
  `do_play` become fields of one `State`; every C function becomes a state
  transformer.
* Calls into other translation units (decoder control, audio outputs,
  notifications, the event pipe) are recorded, in call order, in the ghost
  field `State.trace`.  Results that depend on the decoder thread or on the
  audio hardware are read from an `Env` record with one field per call site,
  so that a statement quantified over `Env` covers every outcome.
* `assert` is kept: a failing assertion and a dereference of `NULL` end the
  run with a `Fault`.
* `float` / `double` quantities are rationals.  An arithmetic operation on
  `double`s yields its exact result rounded to the nearest `double`
  (`to_double`); the conversion of a `double` on a store to `pc.elapsed_time`
  or `pc.total_play_time`, whose types `player_control.h` declares, is a
  parameter (`Env.to_elapsed_time`, `Env.to_total_play_time`).
-/

namespace PlayerThread

/-! ## Data model -/

/-- Address of a `struct song`; the `NULL` pointer is `none` in `Option SongPtr`. -/
abbrev SongPtr := Nat

/-- Abnormal termination of the C program. -/
inductive Fault where
  | assertion
  | null_deref
  | division_by_zero
  deriving DecidableEq, Repr

/-- The values of `enum player_command` used by `player_thread.c`. -/
inductive player_command where
  | NONE | EXIT | STOP | PLAY | PAUSE | SEEK | CLOSE_AUDIO | QUEUE | CANCEL
  deriving DecidableEq, Repr

/-- The values of `enum player_state`. -/
inductive player_state where
  | STOP | PAUSE | PLAY
  deriving DecidableEq, Repr

/-- The values of `enum player_error` used by `player_thread.c`. -/
inductive player_error where
  | NONE | FILE | AUDIO
  deriving DecidableEq, Repr

/-- The local `enum xfade_state`. -/
inductive xfade_state where
  | XFADE_DISABLED | XFADE_UNKNOWN | XFADE_ENABLED
  deriving DecidableEq, Repr

/-- The fields of `struct audio_format`. -/
structure audio_format where
  sample_rate : Nat
  bits : Nat
  channels : Nat
  deriving DecidableEq, Repr

/-- The effect of `audio_format_clear`, also the zero initialiser of
`player.play_audio_format` in `do_play`. -/
def audio_format.cleared : audio_format := ⟨0, 0, 0⟩

/-- The part of `struct tag` read by the player: the song duration in seconds
and the text items, kept as one value. -/
structure tag where
  time : Int
  items : List String
  deriving DecidableEq, Repr

/-- The part of `struct song` read by the player.  `is_file` is the result of
`song_is_file` for this song. -/
structure song where
  url : Option String
  tag : Option tag
  is_file : Bool
  deriving DecidableEq, Repr

/-- A `struct music_chunk`.  `slot` identifies the chunk inside its
`music_buffer`; the PCM payload itself is not modelled, only its `length`. -/
structure music_chunk where
  slot : Nat
  length : Nat
  bit_rate : Nat
  times : ℚ
  tag : Option tag
  audio_format : audio_format
  deriving DecidableEq, Repr

/-- A `struct music_buffer`: `num_chunks` chunks, of which `free` are currently
not lent out. -/
structure music_buffer where
  num_chunks : Nat
  free : List music_chunk
  deriving DecidableEq, Repr

/-- What `dc.pipe` points to.  The source only ever assigns `NULL`
(`player_dc_stop`), `player.pipe` (`do_play`, `player_seek_decoder`) or a
fresh `music_pipe_new()` (queue handoff) to it, and only ever compares it with
`NULL` and `player.pipe`; the three constructors are these three cases, the
last one carrying the content of the separate pipe. -/
inductive dc_pipe where
  | null
  | player_pipe
  | other (chunks : List music_chunk)
  deriving DecidableEq, Repr

/-- The fields of the global `pc` (`struct player_control`) used by the player
thread. -/
structure player_control where
  buffer_chunks : Nat
  buffered_before_play : Nat
  command : player_command
  state : player_state
  error : player_error
  bit_rate : Nat
  audio_format : audio_format
  total_time : ℚ
  elapsed_time : ℚ
  next_song : Option SongPtr
  errored_song : Option SongPtr
  seek_where : ℚ
  cross_fade_seconds : ℚ
  total_play_time : ℚ
  software_volume : Nat

/-- The fields of the global `dc` (`struct decoder_control`) used by the player
thread.  The decoder status behind `decoder_has_failed`, `decoder_is_idle`,
`decoder_is_starting` and `decoder_current_song` is owned by the decoder
thread and read through `Env`. -/
structure decoder_control where
  pipe : dc_pipe
  next_song : Option SongPtr
  current_song : Option SongPtr
  in_audio_format : audio_format
  out_audio_format : audio_format
  total_time : ℚ

/-- The local `struct player` of `do_play`.  `pipe` is the content of the pipe
`player.pipe` points to, head first. -/
structure player where
  buffer : music_buffer
  pipe : List music_chunk
  buffering : Bool
  decoder_starting : Bool
  paused : Bool
  queued : Bool
  song : Option SongPtr
  xfade : xfade_state
  play_audio_format : audio_format
  size_to_time : ℚ

/-- Which pipe a `music_pipe_shift` call reads. -/
inductive pipe_ref where
  | player_pipe | dc_pipe
  deriving DecidableEq, Repr

/-- The two events `player_thread.c` sends through `event_pipe_emit`. -/
inductive pipe_event where
  | PIPE_EVENT_PLAYLIST | PIPE_EVENT_TAG
  deriving DecidableEq, Repr

/-- One call into another translation unit, as recorded in `State.trace`. -/
inductive Event where
  | notify_signal_main
  | notify_signal_dc
  | notify_wait_pc
  | dc_start (s : Option SongPtr)
  | dc_start_async (s : Option SongPtr)
  | dc_stop
  | dc_seek (pos : ℚ)
  | dc_command_wait
  | audio_output_all_open (fmt : Option audio_format)
  | audio_output_all_close
  | audio_output_all_pause
  | audio_output_all_cancel
  | audio_output_all_tag (t : tag)
  | audio_output_all_play (length : Nat)
  | pcm_volume (length : Nat)
  | cross_fade_apply (position total : Nat)
  | music_pipe_shift (p : pipe_ref)
  | event_pipe_emit (e : pipe_event)
  | idle_add_player
  deriving DecidableEq, Repr

/-- The whole state seen by `do_play`: the two control blocks, the local
`player`, the locals `crossFadeChunks` and `cross_fading`, the songs in memory
and the trace of external calls made so far. -/
structure State where
  pc : player_control
  dc : decoder_control
  player : player
  crossFadeChunks : Nat
  cross_fading : Bool
  songs : SongPtr → song
  trace : List Event

/-- Answers of the environment, one field per call site of one pass through
the loop body of `do_play` (command dispatch included).  The function-valued
fields stand for the library functions `audioFormatSizeToTime`,
`audio_format_frame_size`, `cross_fade_calc` and for the length
`cross_fade_apply` leaves in the mixed chunk. -/
structure Env where
  /-- Value of `decoder_current_song()` in `player_seek_decoder` -/
  seek_current_song : Option SongPtr
  /-- Value of `decoder_has_failed()` in the `player_wait_for_decoder` of a seek restart -/
  seek_has_failed : Bool
  /-- Result of `dc_seek` -/
  dc_seek : Bool
  /-- Result of `audio_output_all_open(NULL)` when leaving pause -/
  pause_open : Bool
  /-- Value of `decoder_is_idle()` in the buffering test -/
  buffering_is_idle : Bool
  /-- Value of `decoder_has_failed()` in `player_check_decoder_startup` -/
  startup_has_failed : Bool
  /-- Value of `decoder_is_starting()` in `player_check_decoder_startup` -/
  startup_is_starting : Bool
  /-- Result of `audio_output_all_open(&dc.out_audio_format)` -/
  startup_open : Bool
  audioFormatSizeToTime : audio_format → ℚ
  /-- Value of `decoder_is_idle()` in the queue handoff test -/
  queue_is_idle : Bool
  /-- Value of `decoder_is_starting()` in the cross-fade decision -/
  xfade_is_starting : Bool
  cross_fade_calc : ℚ → ℚ → audio_format → audio_format → Nat → Nat
  cross_fade_length : music_chunk → music_chunk → Nat → Nat → Nat
  /-- Value of `decoder_is_idle()` when the next song has no chunk for the cross-fade -/
  underrun_is_idle : Bool
  /-- Result of `pcm_volume` -/
  pcm_volume : Bool
  /-- Result of `audio_output_all_play` -/
  play : Bool
  /-- Value of `decoder_is_idle()` in the refill test after a chunk was played -/
  refill_is_idle : Bool
  /-- Value of `decoder_has_failed()` in the `player_wait_for_decoder` of a song boundary -/
  boundary_has_failed : Bool
  /-- Value of `decoder_is_idle()` in the end-of-playlist test -/
  end_is_idle : Bool
  audio_format_frame_size : audio_format → Nat
  /-- Conversion of a `double` to the type of `pc.elapsed_time` -/
  to_elapsed_time : ℚ → ℚ
  /-- Conversion of a `double` to the type of `pc.total_play_time` -/
  to_total_play_time : ℚ → ℚ

/-- The constant `CHUNK_SIZE` of `chunk.h` is not part of the sources at hand; it is the
value of the end-to-end scenario of the specification. -/
def CHUNK_SIZE : Nat := 4096

/-- Modulus of `unsigned int` arithmetic. -/
def UINT_MOD : Nat := 2 ^ 32

/-! ## Floating point -/

/-- The position of the leading bit of `n`: `2 ^ bit_position n n ≤ n` and
`n < 2 ^ (bit_position n n + 1)` for positive `n`.  The first argument bounds
the number of steps. -/
def bit_position : Nat → Nat → Nat
  | 0, _ => 0
  | fuel + 1, n => if n < 2 then 0 else bit_position fuel (n / 2) + 1

/-- A rational rounded to the nearest binary floating-point number with a
significand of `p` bits, ties to even, as IEEE 754 arithmetic rounds the exact
result of an operation.  The exponent is not bounded: the times handled here
are far from overflow and from the subnormal numbers. -/
def round_nearest_even (p : Nat) (x : ℚ) : ℚ :=
  if x = 0 then 0
  else
    let n := x.num.natAbs
    let d := x.den
    -- the exponent `l` of the leading bit: `2 ^ l ≤ n / d < 2 ^ (l + 1)`
    let k : Int := (bit_position n n : Int) - (bit_position d d : Int)
    let l : Int := if d * 2 ^ k.toNat ≤ n * 2 ^ (-k).toNat then k else k - 1
    -- the unit in the last place is `2 ^ e`
    let e : Int := l + 1 - (p : Int)
    let num := n * 2 ^ (-e).toNat
    let den := d * 2 ^ e.toNat
    let q := num / den
    let r := num % den
    let m := if 2 * r < den then q else if den < 2 * r then q + 1
      else if q % 2 = 0 then q else q + 1
    let v : ℚ := ((m * 2 ^ e.toNat : Nat) : ℚ) / ((2 ^ (-e).toNat : Nat) : ℚ)
    if x < 0 then -v else v

/-- The nearest C `double` (IEEE 754 binary64, 53 bits of significand). -/
def to_double (x : ℚ) : ℚ := round_nearest_even 53 x

/-- The nearest C `float` (IEEE 754 binary32, 24 bits of significand). -/
def to_float (x : ℚ) : ℚ := round_nearest_even 24 x

/-- The constant `0.1` of the source, a `double`. -/
def double_tenth : ℚ := to_double (1 / 10)

/-- Record one external call. -/
def State.emit (s : State) (e : Event) : State :=
  { s with trace := s.trace ++ [e] }

/-! ## Chunk buffer and music pipe (`buffer.c`, `pipe.c`) -/

/-- Modelled from the spec: `music_buffer_new` of `buffer.c` is not among the
sources; a chunk buffer holds `N` chunks, all of them free at first. -/
def music_buffer_new (n : Nat) : music_buffer :=
  { num_chunks := n
    free := (List.range n).map fun i => ⟨i, 0, 0, 0, none, audio_format.cleared⟩ }

/-- Modelled from the spec: `music_buffer_size` of `buffer.c` is not among the
sources; it is the capacity `N` of the buffer. -/
def music_buffer_size (b : music_buffer) : Nat := b.num_chunks

/-- Modelled from the spec: `music_buffer_return` of `buffer.c` is not among
the sources; `return(chunk)` hands the chunk back to the free list. -/
def music_buffer_return (b : music_buffer) (c : music_chunk) : music_buffer :=
  { b with free := c :: b.free }

/-- Modelled from the spec: `music_pipe_size` of `pipe.c` is not among the
sources; `size()` is the number of chunks in the pipe. -/
def music_pipe_size (p : List music_chunk) : Nat := p.length

/-- Modelled from the spec: `music_pipe_shift` of `pipe.c` is not among the
sources; `shift()` removes the oldest chunk, or yields nothing on an empty
pipe.  The result is the chunk (if any) and the remaining pipe. -/
def music_pipe_shift (p : List music_chunk) : Option music_chunk × List music_chunk :=
  match p with
  | [] => (none, [])
  | c :: rest => (some c, rest)

/-- Modelled from the spec: `music_pipe_clear` of `pipe.c` is not among the
sources; `clear(buffer)` returns every contained chunk to the given buffer.
The result is the buffer; the pipe is empty afterwards. -/
def music_pipe_clear (p : List music_chunk) (b : music_buffer) : music_buffer :=
  p.foldl music_buffer_return b

/-- Modelled from the spec: `music_chunk_check_format` of `chunk.c` is not
among the sources; the precondition of `play_chunk` is that the chunk's format
matches the `format` argument. -/
def music_chunk_check_format (c : music_chunk) (fmt : audio_format) : Bool :=
  decide (c.audio_format = fmt)

/-! ## Decoder control (`decoder_control.c`) -/

/-- Modelled from the spec: `dc_start` of `decoder_control.c` is not among the
sources; `dc_start(notify, song)` is the synchronous start of the first decode.
The song is handed over in `dc.next_song`, the field `player_thread.c` reads
back as the song in error ("decoder fails on start: `errored_song` = that
song"). -/
def dc_start (song : Option SongPtr) (s : State) : State :=
  { s with dc := { s.dc with next_song := song } }.emit (.dc_start song)

/-- Modelled from the spec: `dc_start_async` of `decoder_control.c` is not
among the sources; it hands the queued song to the decoder through
`dc.next_song` without waiting. -/
def dc_start_async (song : Option SongPtr) (s : State) : State :=
  { s with dc := { s.dc with next_song := song } }.emit (.dc_start_async song)

/-! ## The functions of `player_thread.c` -/

/-- The condition `song == NULL || song->url != NULL` for a song pointer. -/
def song_url_ok (songs : SongPtr → song) (p : Option SongPtr) : Bool :=
  match p with
  | none => true
  | some p => (songs p).url.isSome

/-- The assertion `dc.next_song == NULL || dc.next_song->url != NULL`. -/
def dc_next_song_url_ok (s : State) : Bool :=
  song_url_ok s.songs s.dc.next_song

/-- Function `player_command_finished`: acknowledge the current command. -/
def player_command_finished (s : State) : Except Fault State :=
  if s.pc.command = .NONE then .error .assertion
  else .ok ({ s with pc := { s.pc with command := .NONE } }.emit .notify_signal_main)

/-- Function `player_dc_stop`: stop the decoder and give up its pipe. -/
def player_dc_stop (s : State) : State :=
  let s := s.emit .dc_stop
  match s.dc.pipe with
  | .null => s
  | .player_pipe =>
    { s with
      player := { s.player with
        buffer := music_pipe_clear s.player.pipe s.player.buffer, pipe := [] }
      dc := { s.dc with pipe := .null } }
  | .other q =>
    { s with
      player := { s.player with buffer := music_pipe_clear q s.player.buffer }
      dc := { s.dc with pipe := .null } }

/-- Function `player_stop_decoder`. -/
def player_stop_decoder (s : State) : State :=
  ({ s.emit .dc_stop with pc := { s.pc with state := .STOP } }).emit
    (.event_pipe_emit .PIPE_EVENT_PLAYLIST)

/-- Function `player_wait_for_decoder`; `failed` is the value of
`decoder_has_failed()` after `dc_command_wait` returned. -/
def player_wait_for_decoder (failed : Bool) (s : State) : Except Fault (State × Bool) :=
  let s := s.emit .dc_command_wait
  if failed then
    if dc_next_song_url_ok s then
      .ok ({ s with pc := { s.pc with
              errored_song := s.dc.next_song, error := .FILE, next_song := none } }, false)
    else .error .assertion
  else
    match s.pc.next_song with
    | none => .error .null_deref
    | some p =>
      let total : ℚ := match (s.songs p).tag with
        | some t => (t.time : ℚ)
        | none => 0
      .ok (({ s with
          pc := { s.pc with
            total_time := total, bit_rate := 0, audio_format := audio_format.cleared,
            next_song := none, elapsed_time := 0 }
          player := { s.player with
            song := some p, queued := false, decoder_starting := true } }).emit
          (.event_pipe_emit .PIPE_EVENT_PLAYLIST), true)

/-- Function `player_check_decoder_startup`. -/
def player_check_decoder_startup (env : Env) (s : State) : Except Fault (State × Bool) :=
  if s.player.decoder_starting = false then .error .assertion
  else if env.startup_has_failed then
    if dc_next_song_url_ok s then
      .ok ({ s with pc := { s.pc with errored_song := s.dc.next_song, error := .FILE } }, false)
    else .error .assertion
  else if env.startup_is_starting = false then
    let s := { s with player := { s.player with decoder_starting := false } }
    let s := s.emit (.audio_output_all_open (some s.dc.out_audio_format))
    if env.startup_open = false then
      -- song_get_uri(dc.next_song) reads through the pointer
      match s.dc.next_song with
      | none => .error .null_deref
      | some _ =>
        if dc_next_song_url_ok s then
          .ok ({ s with pc := { s.pc with errored_song := s.dc.next_song, error := player_error.AUDIO } },
            false)
        else .error .assertion
    else
      let s := if s.player.paused then s.emit .audio_output_all_close else s
      .ok ({ s with
          pc := { s.pc with
            total_time := s.dc.total_time, audio_format := s.dc.in_audio_format }
          player := { s.player with
            play_audio_format := s.dc.out_audio_format
            size_to_time := env.audioFormatSizeToTime s.dc.out_audio_format } }, true)
  else
    .ok (s.emit .notify_wait_pc, true)

/-- The position `player_seek_decoder` computes in its local `double where`
from `pc.seek_where` and `pc.total_time`; the difference `pc.total_time - 0.1`
is taken in `double`. -/
def seek_position (seek_where total_time : ℚ) : ℚ :=
  let pos := if seek_where > total_time then to_double (total_time - double_tenth)
    else seek_where
  if pos < 0 then 0 else pos

/-- Function `player_seek_decoder`. -/
def player_seek_decoder (env : Env) (s : State) : Except Fault (State × Bool) :=
  let restarted : Except Fault (State × Bool) :=
    if env.seek_current_song ≠ s.pc.next_song then
      let s := player_dc_stop s
      let s := { s with
        player := { s.player with
          buffer := music_pipe_clear s.player.pipe s.player.buffer, pipe := [] }
        dc := { s.dc with pipe := .player_pipe } }
      let s := dc_start_async s.pc.next_song s
      player_wait_for_decoder env.seek_has_failed s
    else
      .ok ({ s with
        pc := { s.pc with next_song := none }
        player := { s.player with queued := false } }, true)
  match restarted with
  | .error f => .error f
  | .ok (s, false) => .ok (s, false)
  | .ok (s, true) =>
    let pos := seek_position s.pc.seek_where s.pc.total_time
    let s := s.emit (.dc_seek pos)
    let s := if env.dc_seek then
        { s with pc := { s.pc with elapsed_time := env.to_elapsed_time pos } }
      else s
    match player_command_finished s with
    | .error f => .error f
    | .ok s => .ok (s, env.dc_seek)

/-- Function `player_process_command`. -/
def player_process_command (env : Env) (s : State) : Except Fault State :=
  match s.pc.command with
  | .NONE | .PLAY | .STOP | .EXIT | player_command.CLOSE_AUDIO => .ok s
  | .QUEUE =>
    if s.pc.next_song = none then .error .assertion
    else if s.player.queued then .error .assertion
    else if s.dc.pipe ≠ .null ∧ s.dc.pipe ≠ .player_pipe then .error .assertion
    else player_command_finished { s with player := { s.player with queued := true } }
  | .PAUSE =>
    let s := { s with player := { s.player with paused := !s.player.paused } }
    if s.player.paused then
      let s := s.emit .audio_output_all_pause
      player_command_finished { s with pc := { s.pc with state := .PAUSE } }
    else
      let s := s.emit (.audio_output_all_open none)
      if env.pause_open then
        player_command_finished { s with pc := { s.pc with state := .PLAY } }
      else if dc_next_song_url_ok s then
        player_command_finished { s with
          pc := { s.pc with errored_song := s.dc.next_song, error := player_error.AUDIO }
          player := { s.player with paused := true } }
      else .error .assertion
  | .SEEK =>
    match player_seek_decoder env s with
    | .error f => .error f
    | .ok (s, true) =>
      .ok ({ s with player := { s.player with xfade := .XFADE_UNKNOWN, buffering := false } }.emit
        .audio_output_all_cancel)
    | .ok (s, false) => .ok s
  | .CANCEL =>
    if s.pc.next_song = none then
      .ok { s with pc := { s.pc with command := .STOP } }
    else
      let s := if s.dc.pipe ≠ .null ∧ s.dc.pipe ≠ .player_pipe then
          (player_dc_stop s).emit .dc_stop
        else s
      player_command_finished { s with
        pc := { s.pc with next_song := none }
        player := { s.player with queued := false } }

/-- Function `play_chunk`, called with `player.song`, the chunk to play,
`player.play_audio_format` and `player.size_to_time`.  The parameter
`sizeToTime` is a `double`: the product with the length and the sum with
`pc.total_play_time` are taken in `double`. -/
def play_chunk (env : Env) (song_ptr : Option SongPtr) (chunk : music_chunk)
    (format : audio_format) (sizeToTime : ℚ) (s : State) : Except Fault (State × Bool) :=
  if music_chunk_check_format chunk format = false then .error .assertion
  else
    let s := { s with pc := { s.pc with elapsed_time := chunk.times, bit_rate := chunk.bit_rate } }
    let tagged : Except Fault State :=
      match chunk.tag with
      | none => .ok s
      | some t =>
        let s := s.emit (.audio_output_all_tag t)
        match song_ptr with
        | none => .error .null_deref
        | some p =>
          if (s.songs p).is_file then .ok s
          else
            -- always update the tag of remote streams
            let s := { s with
              songs := fun q => if q = p then { s.songs p with tag := some t } else s.songs q }
            .ok ((s.emit (.event_pipe_emit .PIPE_EVENT_TAG)).emit .idle_add_player)
    match tagged with
    | .error f => .error f
    | .ok s =>
      if chunk.length = 0 then .ok (s, true)
      else
        let s := s.emit (.pcm_volume chunk.length)
        if env.pcm_volume = false then
          .ok ({ s with pc := { s.pc with
            errored_song := s.dc.current_song, error := player_error.AUDIO } }, false)
        else
          let s := s.emit (.audio_output_all_play chunk.length)
          if env.play = false then
            .ok ({ s with pc := { s.pc with
              errored_song := s.dc.current_song, error := player_error.AUDIO } }, false)
          else
            .ok ({ s with pc := { s.pc with
              total_play_time := env.to_total_play_time
                (to_double (s.pc.total_play_time + to_double (sizeToTime * chunk.length))) } },
              true)

/-! ## The loop of `do_play` -/

/-- How one pass through the body of `while (true)` in `do_play` ends. -/
inductive loop_ctl where
  | continue_loop
  | break_loop
  deriving DecidableEq, Repr

/-- Size of the pipe `dc.pipe` points to; `NULL` cannot be read. -/
def dc_pipe_size (s : State) : Except Fault Nat :=
  match s.dc.pipe with
  | .null => .error .null_deref
  | .player_pipe => .ok (music_pipe_size s.player.pipe)
  | .other q => .ok (music_pipe_size q)

/-- The queue handoff of `do_play`: `if (decoder_is_idle() && player.queued)`. -/
def do_play_queue_handoff (env : Env) (s : State) : Except Fault State :=
  if env.queue_is_idle ∧ s.player.queued then
    if s.pc.next_song = none then .error .assertion
    else if s.dc.pipe ≠ .null ∧ s.dc.pipe ≠ .player_pipe then .error .assertion
    else
      .ok (dc_start_async s.pc.next_song { s with
        player := { s.player with queued := false }
        dc := { s.dc with pipe := .other [] } })
  else .ok s

/-- The cross-fade decision of `do_play`. -/
def do_play_xfade_decision (env : Env) (s : State) : State :=
  if (s.dc.pipe ≠ .null ∧ s.dc.pipe ≠ .player_pipe) ∧
      s.player.xfade = .XFADE_UNKNOWN ∧ env.xfade_is_starting = false then
    let n := env.cross_fade_calc s.pc.cross_fade_seconds s.dc.total_time
      s.dc.out_audio_format s.player.play_audio_format
      ((music_buffer_size s.player.buffer + UINT_MOD
          - s.pc.buffered_before_play % UINT_MOD) % UINT_MOD)
    if n > 0 then
      { s with crossFadeChunks := n, cross_fading := false
               player := { s.player with xfade := .XFADE_ENABLED } }
    else
      { s with crossFadeChunks := n
               player := { s.player with xfade := .XFADE_DISABLED } }
  else s

/-- The cross-fade block inside the "pipe not empty" branch of `do_play`.  The
result is the new state together with `none` when the block ends in
`continue`, and otherwise `some chunk` with the value of the local `chunk`
(`NULL` being `none`). -/
def do_play_cross_fade (env : Env) (s : State) :
    Except Fault (State × Option (Option music_chunk)) :=
  match s.player.xfade, s.dc.pipe with
  | .XFADE_ENABLED, .other q =>
    let fadePosition := music_pipe_size s.player.pipe
    if fadePosition ≤ s.crossFadeChunks then
      -- perform cross fade
      let s := s.emit (.music_pipe_shift .dc_pipe)
      let other_chunk := (music_pipe_shift q).1
      let s := { s with dc := { s.dc with pipe := .other (music_pipe_shift q).2 } }
      let s := if s.cross_fading = false then
          { s with crossFadeChunks := fadePosition, cross_fading := true }
        else s
      match other_chunk with
      | some oc =>
        let s := s.emit (.music_pipe_shift .player_pipe)
        match music_pipe_shift s.player.pipe with
        | (none, _) => .error .null_deref
        | (some c, rest) =>
          let s := { s with player := { s.player with pipe := rest } }
          let s := s.emit (.cross_fade_apply fadePosition s.crossFadeChunks)
          let mixed := { c with
            length := env.cross_fade_length c oc fadePosition s.crossFadeChunks }
          .ok ({ s with player := { s.player with
                  buffer := music_buffer_return s.player.buffer oc } }, some (some mixed))
      | none =>
        -- there are not enough decoded chunks yet
        if env.underrun_is_idle then
          .ok ({ s with player := { s.player with xfade := .XFADE_DISABLED } }, some none)
        else
          .ok ((s.emit .notify_signal_dc).emit .notify_wait_pc, none)
    else .ok (s, some none)
  | _, _ => .ok (s, some none)

/-- The refill test of `do_play` after a chunk has been played:
`if (!decoder_is_idle() && music_pipe_size(dc.pipe) <= ...) notify_signal(&dc.notify)`. -/
def do_play_refill (env : Env) (s : State) : Except Fault State :=
  if env.refill_is_idle then .ok s
  else
    match dc_pipe_size s with
    | .error f => .error f
    | .ok n =>
      if n ≤ ((s.pc.buffered_before_play
          + music_buffer_size s.player.buffer * 3) % UINT_MOD) / 4 then
        .ok (s.emit .notify_signal_dc)
      else .ok s

/-- The "pipe not empty" branch of the output step of `do_play`. -/
def do_play_chunk (env : Env) (s : State) : Except Fault (State × loop_ctl) :=
  match do_play_cross_fade env s with
  | .error f => .error f
  | .ok (s, none) => .ok (s, .continue_loop)
  | .ok (s, some chunk0) =>
    let shifted : Except Fault (State × music_chunk) :=
      match chunk0 with
      | some c => .ok (s, c)
      | none =>
        let s := s.emit (.music_pipe_shift .player_pipe)
        match music_pipe_shift s.player.pipe with
        | (none, _) => .error .null_deref
        | (some c, rest) => .ok ({ s with player := { s.player with pipe := rest } }, c)
    match shifted with
    | .error f => .error f
    | .ok (s, chunk) =>
      -- play the current chunk
      match play_chunk env s.player.song chunk s.player.play_audio_format
          s.player.size_to_time s with
      | .error f => .error f
      | .ok (s, success) =>
        let s := { s with player := { s.player with
          buffer := music_buffer_return s.player.buffer chunk } }
        if success = false then .ok (s, .break_loop)
        else
          match do_play_refill env s with
          | .error f => .error f
          | .ok s => .ok (s, .continue_loop)

/-- The output step of `do_play`: the `if (player.paused) ... else ...` chain
that ends the loop body. -/
def do_play_output (env : Env) (s : State) : Except Fault (State × loop_ctl) :=
  if s.player.paused then .ok (s.emit .notify_wait_pc, .continue_loop)
  else if music_pipe_size s.player.pipe > 0 then do_play_chunk env s
  else
    match s.dc.pipe with
    | .other q =>
      -- at the beginning of a new song
      let s := { s with
        player := { s.player with xfade := .XFADE_UNKNOWN, pipe := q }
        dc := { s.dc with pipe := .player_pipe } }
      match player_wait_for_decoder env.boundary_has_failed s with
      | .error f => .error f
      | .ok (s, ok) => .ok (s, if ok then .continue_loop else .break_loop)
    | _ =>
      if env.end_is_idle then .ok (s, .break_loop)
      else
        let frame_size := env.audio_format_frame_size s.player.play_audio_format
        if frame_size = 0 then .error .division_by_zero
        else
          -- this formula ensures that we don't send partial frames
          let num_frames := CHUNK_SIZE / frame_size
          let s := s.emit (.audio_output_all_play (num_frames * frame_size))
          .ok (s, if env.play then .continue_loop else .break_loop)

/-- The loop body of `do_play` from the `if (player.decoder_starting)` test
on, reached once the buffering test has been passed. -/
def do_play_after_buffering (env : Env) (s : State) : Except Fault (State × loop_ctl) :=
  if s.player.decoder_starting then
    match player_check_decoder_startup env s with
    | .error f => .error f
    | .ok (s, success) => .ok (s, if success then .continue_loop else .break_loop)
  else
    match do_play_queue_handoff env s with
    | .error f => .error f
    | .ok s => do_play_output env (do_play_xfade_decision env s)

/-- One pass through the body of `while (true)` in `do_play`. -/
def do_play_iteration (env : Env) (s : State) : Except Fault (State × loop_ctl) :=
  match player_process_command env s with
  | .error f => .error f
  | .ok s =>
    if s.pc.command = .STOP ∨ s.pc.command = .EXIT ∨
        s.pc.command = player_command.CLOSE_AUDIO then
      .ok (s.emit .audio_output_all_cancel, .break_loop)
    else if s.player.buffering ∧
        music_pipe_size s.player.pipe < s.pc.buffered_before_play ∧
        env.buffering_is_idle = false then
      -- not enough decoded buffer space yet
      .ok (s.emit .notify_wait_pc, .continue_loop)
    else
      -- buffering is complete
      do_play_after_buffering env
        (if s.player.buffering then
          { s with player := { s.player with buffering := false } }
        else s)

/-- The part of `do_play` before the loop.  `failed` is the value of
`decoder_has_failed()` in the first `player_wait_for_decoder`.  The boolean of
the result tells whether the loop is entered; when it is `false`, `do_play`
has returned. -/
def do_play_init (failed : Bool) (s : State) : Except Fault (State × Bool) :=
  let s := { s with
    player :=
      { buffer := music_buffer_new s.pc.buffer_chunks
        pipe := []
        buffering := true
        decoder_starting := false
        paused := false
        queued := false
        song := none
        xfade := .XFADE_UNKNOWN
        play_audio_format := audio_format.cleared
        size_to_time := 0 }
    crossFadeChunks := 0
    cross_fading := false
    dc := { s.dc with pipe := .player_pipe } }
  let s := dc_start s.pc.next_song s
  match player_wait_for_decoder failed s with
  | .error f => .error f
  | .ok (s, false) =>
    match player_command_finished (player_stop_decoder s) with
    | .error f => .error f
    | .ok s => .ok (s, false)
  | .ok (s, true) =>
    match player_command_finished
        { s with pc := { s.pc with elapsed_time := 0, state := .PLAY } } with
    | .error f => .error f
    | .ok s => .ok (s, true)

/-- The part of `do_play` after the loop.  The pipes are empty afterwards; the
buffer of the result is the one handed to `music_buffer_free`. -/
def do_play_teardown (s : State) : Except Fault State :=
  let cleared : Except Fault State :=
    if s.player.queued then
      if s.pc.next_song = none then .error .assertion
      else .ok { s with pc := { s.pc with next_song := none } }
    else .ok s
  match cleared with
  | .error f => .error f
  | .ok s =>
    let s := player_stop_decoder s
    let s := match s.dc.pipe with
      | .other q =>
        { s with
          player := { s.player with buffer := music_pipe_clear q s.player.buffer }
          dc := { s.dc with pipe := .other [] } }
      | _ => s
    .ok { s with player := { s.player with
      buffer := music_pipe_clear s.player.pipe s.player.buffer, pipe := [] } }

/-- What the other threads did between two passes through the loop. -/
structure Interference where
  pc_command : player_command
  pc_next_song : Option SongPtr
  pc_seek_where : ℚ
  dc_current_song : Option SongPtr
  dc_in_audio_format : audio_format
  dc_out_audio_format : audio_format
  dc_total_time : ℚ
  /-- Content of the chunks the decoder appended to its pipe. -/
  decoded : List music_chunk

/-- Modelled from the spec: the decoder thread (`decoder_thread.c`, not among
the sources) takes a chunk from the chunk buffer with `allocate()` and adds it
to `dc.pipe` with `push(chunk)`; without a free chunk or without a pipe it
appends nothing. -/
def decoder_push (s : State) (c : music_chunk) : State :=
  match s.player.buffer.free, s.dc.pipe with
  | f :: rest, .player_pipe =>
    { s with player := { s.player with
        buffer := { s.player.buffer with free := rest }
        pipe := s.player.pipe ++ [{ c with slot := f.slot }] } }
  | f :: rest, .other q =>
    { s with
      player := { s.player with buffer := { s.player.buffer with free := rest } }
      dc := { s.dc with pipe := .other (q ++ [{ c with slot := f.slot }]) } }
  | _, _ => s

/-- Modelled from the spec: `player_control.c` and the decoder thread are not
among the sources.  Foreground threads write `pc.command` and its parameters
`pc.next_song` and `pc.seek_where`; the decoder thread writes the format,
duration and current song of `dc` and appends chunks to its pipe.  Nothing
else of the state changes behind the back of the player thread. -/
def interfere (i : Interference) (s : State) : State :=
  i.decoded.foldl decoder_push
    { s with
      pc := { s.pc with
        command := i.pc_command, next_song := i.pc_next_song, seek_where := i.pc_seek_where }
      dc := { s.dc with
        current_song := i.dc_current_song
        in_audio_format := i.dc_in_audio_format
        out_audio_format := i.dc_out_audio_format
        total_time := i.dc_total_time } }

/-- The loop of `do_play` under a schedule: before each pass the other threads
act (`Interference`), then the body runs with the answers of `Env`.  The
boolean of the result tells whether the loop was left by `break`; it is
`false` when the schedule ended first. -/
def do_play_loop : List (Interference × Env) → State → Except Fault (State × Bool)
  | [], s => .ok (s, false)
  | (i, env) :: rest, s =>
    match do_play_iteration env (interfere i s) with
    | .error f => .error f
    | .ok (s, .break_loop) => .ok (s, true)
    | .ok (s, .continue_loop) => do_play_loop rest s

/-- Function `do_play` under a schedule.  The boolean of the result tells
whether `do_play` returned; it is `false` when the schedule ended while the
loop was still running. -/
def do_play (failed : Bool) (sched : List (Interference × Env)) (s : State) :
    Except Fault (State × Bool) :=
  match do_play_init failed s with
  | .error f => .error f
  | .ok (s, false) => .ok (s, true)
  | .ok (s, true) =>
    match do_play_loop sched s with
    | .error f => .error f
    | .ok (s, false) => .ok (s, false)
    | .ok (s, true) =>
      match do_play_teardown s with
      | .error f => .error f
      | .ok s => .ok (s, true)

/-- The states in which `do_play`, called on `s0`, is about to call
`player_process_command`. -/
inductive loop_top (s0 : State) : State → Prop where
  | first (i : Interference) (s : State) :
      do_play_init false s0 = .ok (s, true) → loop_top s0 (interfere i s)
  | next (i : Interference) (env : Env) (s s1 : State) :
      loop_top s0 s → do_play_iteration env s = .ok (s1, .continue_loop) →
      loop_top s0 (interfere i s1)

/-! ## Concrete inputs -/

/-- The format of the end-to-end scenarios: 44100 Hz, 16 bit, stereo. -/
def cd_format : audio_format := ⟨44100, 16, 2⟩

/-- Three songs in memory: song 1 and song 2 are five-second files, every
other address holds a ten-second file. -/
def demo_songs : SongPtr → song := fun p =>
  if p = 1 then ⟨some "a.ogg", some ⟨5, []⟩, true⟩
  else if p = 2 then ⟨some "b.ogg", some ⟨5, []⟩, true⟩
  else ⟨some "c.ogg", some ⟨10, []⟩, true⟩

/-- An environment in which the decoder runs without failure and has data,
the outputs work, and no cross-fade is configured. -/
def demo_env : Env :=
  { seek_current_song := some 1
    seek_has_failed := false
    dc_seek := true
    pause_open := true
    buffering_is_idle := false
    startup_has_failed := false
    startup_is_starting := false
    startup_open := true
    audioFormatSizeToTime := fun f =>
      to_double (1 / ((f.sample_rate * (f.bits / 8 * f.channels) : Nat) : ℚ))
    queue_is_idle := false
    xfade_is_starting := false
    cross_fade_calc := fun _ _ _ _ _ => 0
    cross_fade_length := fun a _ _ _ => a.length
    underrun_is_idle := false
    pcm_volume := true
    play := true
    refill_is_idle := false
    boundary_has_failed := false
    end_is_idle := false
    audio_format_frame_size := fun f => f.bits / 8 * f.channels
    to_elapsed_time := to_float
    to_total_play_time := to_double }

/-- The state in which `player_task` calls `do_play` for song 1 after a PLAY
command: player stopped, no error, 64 buffer chunks. -/
def demo_start : State :=
  { pc :=
      { buffer_chunks := 64
        buffered_before_play := 4
        command := .PLAY
        state := .STOP
        error := .NONE
        bit_rate := 0
        audio_format := audio_format.cleared
        total_time := 0
        elapsed_time := 0
        next_song := some 1
        errored_song := none
        seek_where := 0
        cross_fade_seconds := 0
        total_play_time := 0
        software_volume := 1000 }
    dc :=
      { pipe := .null
        next_song := none
        current_song := none
        in_audio_format := audio_format.cleared
        out_audio_format := audio_format.cleared
        total_time := 0 }
    player :=
      { buffer := music_buffer_new 0
        pipe := []
        buffering := false
        decoder_starting := false
        paused := false
        queued := false
        song := none
        xfade := .XFADE_UNKNOWN
        play_audio_format := audio_format.cleared
        size_to_time := 0 }
    crossFadeChunks := 0
    cross_fading := false
    songs := demo_songs
    trace := [] }

/-- A state in the middle of playing song 1 (five seconds long, three seconds
played, two decoded chunks waiting in the player's pipe, which is also the
decoder's pipe). -/
def demo_playing : State :=
  { demo_start with
    pc := { demo_start.pc with
      command := .NONE, state := .PLAY, total_time := 5, elapsed_time := 3
      next_song := none, audio_format := cd_format }
    dc := { demo_start.dc with
      pipe := .player_pipe, next_song := some 1, current_song := some 1
      in_audio_format := cd_format, out_audio_format := cd_format, total_time := 5 }
    player := { demo_start.player with
      buffer := { num_chunks := 64, free := [] }
      pipe := [⟨0, 4096, 128, 3, none, cd_format⟩, ⟨1, 4096, 128, 3, none, cd_format⟩]
      song := some 1
      play_audio_format := cd_format
      size_to_time := to_double (1 / 176400) } }

/-- A SEEK to position 5 in song 1, which is five seconds long and is the song
the decoder is decoding. -/
def seek_at_end : State :=
  { demo_playing with
    pc := { demo_playing.pc with command := .SEEK, next_song := some 1, seek_where := 5 } }

/-- A SEEK to position 1000000 in the five-second song 1. -/
def seek_far : State :=
  { demo_playing with
    pc := { demo_playing.pc with
      command := .SEEK, next_song := some 1, seek_where := 1000000 } }

/-- A SEEK into song 2 while the decoder is decoding song 1. -/
def seek_other_song : State :=
  { demo_playing with
    pc := { demo_playing.pc with command := .SEEK, next_song := some 2, seek_where := 1 } }

/-- The duration `player_wait_for_decoder` stores for the song at `p`. -/
def song_total_time (s : State) (p : SongPtr) : ℚ :=
  match (s.songs p).tag with
  | some t => (t.time : ℚ)
  | none => 0

/-- The decoder cannot open the song it is restarted on. -/
def restart_fails_env : Env := { demo_env with seek_has_failed := true }

/-- The decoder rejects the seek. -/
def seek_rejected_env : Env := { demo_env with dc_seek := false }

/-- A SEEK into song 2 arrives while song 1 is playing and a song is queued
(`player.queued` is true and `pc.next_song` is set). -/
def queued_seek : State :=
  { demo_playing with
    pc := { demo_playing.pc with command := .SEEK, next_song := some 2, seek_where := 1 }
    player := { demo_playing.player with queued := true } }

/-- The decoder cannot open the song it is restarted on and is idle and failed
from then on. -/
def decoder_failed_env : Env :=
  { demo_env with
    seek_has_failed := true
    buffering_is_idle := true
    startup_has_failed := true
    queue_is_idle := true
    underrun_is_idle := true
    refill_is_idle := true
    boundary_has_failed := true
    end_is_idle := true }

/-- The main thread queues song 2 while the decoder works on song 1. -/
def post_queue_song_2 : Interference :=
  { pc_command := .QUEUE
    pc_next_song := some 2
    pc_seek_where := 0
    dc_current_song := some 1
    dc_in_audio_format := cd_format
    dc_out_audio_format := cd_format
    dc_total_time := 5
    decoded := [] }

/-- The main thread asks for a seek into song 3 while the decoder works on
song 1. -/
def post_seek_song_3 : Interference :=
  { pc_command := .SEEK
    pc_next_song := some 3
    pc_seek_where := 1
    dc_current_song := some 1
    dc_in_audio_format := cd_format
    dc_out_audio_format := cd_format
    dc_total_time := 5
    decoded := [] }

/-- The pause invariant of the loop of `do_play`: `pc.state` is PAUSE exactly
when `player.paused` is set. -/
def pause_inv (s : State) : Prop :=
  s.pc.state = .PAUSE ↔ s.player.paused = true

/-- Two states agree on `pc.state` and `player.paused`. -/
def same_pause (s s1 : State) : Prop :=
  s1.pc.state = s.pc.state ∧ s1.player.paused = s.player.paused

/-- The state in which the loop of `do_play` is entered after a PLAY of song 1
with a working decoder. -/
def demo_started : State :=
  match do_play_init false demo_start with
  | .ok (s, _) => s
  | .error _ => demo_start

/-- The main thread sends PAUSE while the decoder works on song 1. -/
def post_pause : Interference :=
  { pc_command := .PAUSE
    pc_next_song := none
    pc_seek_where := 0
    dc_current_song := some 1
    dc_in_audio_format := cd_format
    dc_out_audio_format := cd_format
    dc_total_time := 5
    decoded := [] }

/-- The state after the first pass of the loop when PAUSE arrived right after
the start of song 1. -/
def demo_paused : State :=
  match do_play_iteration demo_env (interfere post_pause demo_started) with
  | .ok (s, _) => s
  | .error _ => demo_start

/-- The calls that hand audio data on or take a chunk out of a pipe:
`audio_output_all_play` and `music_pipe_shift`. -/
def is_submission : Event → Bool
  | .audio_output_all_play _ => true
  | .music_pipe_shift _ => true
  | _ => false

/-- From `s` to `s1` the trace only grew, and by no `audio_output_all_play` and
no `music_pipe_shift`. -/
def quiet_step (s s1 : State) : Prop :=
  ∃ evs, s1.trace = s.trace ++ evs ∧ ∀ e ∈ evs, is_submission e = false

/-- The main thread writes a command into `pc.command`, leaving its parameters
as they are. -/
def post_command (cmd : player_command) (s : State) : State :=
  { s with pc := { s.pc with command := cmd } }

/-- Song 1 is playing and a PAUSE command is pending. -/
def pause_pending : State := post_command .PAUSE demo_playing

/-- Song 1 is playing, the decoder writes into the player's pipe, and a QUEUE
command for song 2 is pending. -/
def queue_pending : State :=
  { demo_playing with
    pc := { demo_playing.pc with command := .QUEUE, next_song := some 2 } }

/-- The chunks of a pipe of the decoder that is not the player's pipe. -/
def dc_pipe_chunks : dc_pipe → List music_chunk
  | .other q => q
  | _ => []

/-- A CANCEL arrives after the queued song 2 has become the decoder's song:
`pc.next_song` is already NULL, the player's pipe holds two chunks of song 1
and the decoder's own pipe one chunk of song 2. -/
def cancel_too_late : State :=
  { demo_playing with
    pc := { demo_playing.pc with command := .CANCEL, next_song := none }
    dc := { demo_playing.dc with
      pipe := .other [⟨2, 4096, 128, 0, none, cd_format⟩]
      next_song := some 2, current_song := some 2 } }

/-- An empty chunk of song 1 that carries a tag. -/
def empty_tagged_chunk : music_chunk :=
  ⟨0, 0, 96, 2, some ⟨5, ["title"]⟩, cd_format⟩

/-- A full chunk without a tag. -/
def full_chunk : music_chunk :=
  ⟨0, 4096, 128, 3, none, cd_format⟩

/-- A full chunk of a stream that carries a new tag. -/
def tagged_chunk : music_chunk :=
  ⟨0, 4096, 128, 3, some ⟨0, ["now playing"]⟩, cd_format⟩

/-- Song 1 is a remote stream without a tag and is playing. -/
def demo_streaming : State :=
  { demo_playing with
    songs := fun p => if p = 1 then ⟨some "http://radio", none, false⟩ else demo_songs p }

/-- The end of song 1 with song 2 already being decoded: the player's pipe is
empty, the decoder fills its own pipe, buffering was completed long ago. -/
def song_boundary : State :=
  { demo_playing with
    pc := { demo_playing.pc with next_song := some 2 }
    dc := { demo_playing.dc with
      pipe := .other [⟨2, 4096, 128, 0, none, cd_format⟩]
      next_song := some 2, current_song := some 2 }
    player := { demo_playing.player with pipe := [] } }

/-- Song 1 is playing, the player's pipe has run empty and the decoder, still
running, has not delivered the next chunk yet. -/
def pipe_empty : State :=
  { demo_playing with player := { demo_playing.player with pipe := [] } }

/-- A `cross_fade_apply` call whose position lies between 1 and the total;
every other call counts as in range. -/
def apply_in_range : Event → Bool
  | .cross_fade_apply position total => decide (1 ≤ position ∧ position ≤ total)
  | _ => true

/-- The calls that mark a new song for the play format: the PLAYLIST event of a
successful `player_wait_for_decoder` and the `audio_output_all_open` of
`player_check_decoder_startup`. -/
def is_format_marker : Event → Bool
  | .event_pipe_emit .PIPE_EVENT_PLAYLIST => true
  | .audio_output_all_open (some _) => true
  | _ => false

/-- Two states agree on `player.decoder_starting`, `player.play_audio_format`
and `player.size_to_time`. -/
def same_format (s s1 : State) : Prop :=
  s1.player.decoder_starting = s.player.decoder_starting ∧
  s1.player.play_audio_format = s.player.play_audio_format ∧
  s1.player.size_to_time = s.player.size_to_time

/-- From `s` to `s1` the trace grew by calls with every `cross_fade_apply` in
range, and either the decoder is starting in `s1`, or the play format is that
of `s` and no format marker was emitted. -/
def pass_step (s s1 : State) : Prop :=
  ∃ evs, s1.trace = s.trace ++ evs ∧ (∀ e ∈ evs, apply_in_range e = true) ∧
    (s1.player.decoder_starting = true ∨
      (same_format s s1 ∧ ∀ e ∈ evs, is_format_marker e = false))

/-- The value of `crossFadeChunks` after the cross-fade block was entered:
lowered to the fade position when the cross-fade begins, unchanged later. -/
def cross_fade_total (s : State) : Nat :=
  if s.cross_fading = false then music_pipe_size s.player.pipe else s.crossFadeChunks

/-- From `s` to `s1` the trace grew by calls in which every `cross_fade_apply`
has a position between 1 and its total. -/
def calls_in_range (s s1 : State) : Prop :=
  ∃ evs, s1.trace = s.trace ++ evs ∧ ∀ e ∈ evs, apply_in_range e = true

/-- Song 1 is about to end with cross-fading into song 2 enabled: two chunks of
song 1 are left in the player's pipe, the decoder has put one chunk of song 2
into its own pipe, five chunks were planned for the cross-fade, and no chunk
has been mixed yet. -/
def fading : State :=
  { demo_playing with
    pc := { demo_playing.pc with next_song := some 2 }
    dc := { demo_playing.dc with
      pipe := .other [⟨2, 4096, 128, 0, none, cd_format⟩]
      next_song := some 2, current_song := some 2 }
    player := { demo_playing.player with xfade := .XFADE_ENABLED }
    crossFadeChunks := 5
    cross_fading := false }

/-- The result of the cross-fade block in the state `fading`. -/
def demo_faded : State × Option (Option music_chunk) :=
  match do_play_cross_fade demo_env fading with
  | .ok r => r
  | .error _ => (fading, none)

/-- The start of song 1 as in `demo_start`, with a cross-fade of one second
configured. -/
def xfade_start : State :=
  { demo_start with pc := { demo_start.pc with cross_fade_seconds := 1 } }

/-- The decoder runs without failure; `cross_fade_calc` answers with the 43
chunks that one second of 44100 Hz 16 bit stereo takes, capped by the chunks
it is given as maximum. -/
def xfade_env : Env :=
  { demo_env with cross_fade_calc := fun _ _ _ _ max_chunks => min 43 max_chunks }

/-- What the other threads do between two passes while the decoder works on
song `cur`: the main thread leaves `command` and `next` in the player control,
the decoder appends the chunks `decoded`. -/
def between (command : player_command) (next cur : Option SongPtr)
    (decoded : List music_chunk) : Interference :=
  { pc_command := command
    pc_next_song := next
    pc_seek_where := 0
    dc_current_song := cur
    dc_in_audio_format := cd_format
    dc_out_audio_format := cd_format
    dc_total_time := 5
    decoded := decoded }

/-- A run of six passes through the loop of `do_play` with a cross-fade of one
second: song 1 is decoded into four chunks and opened; song 2 is queued and
the decoder is started on it while one chunk of song 1 is played; the
cross-fade into song 2 is decided (43 chunks) and entered with three chunks
left, the decoder having produced nothing yet; CANCEL takes song 2 back and
one more chunk of song 1 is played; song 3 is queued and the decoder started
on it; the decoder delivers the first chunk of song 3, which is mixed. -/
def cancel_requeue_run : List (Interference × Env) :=
  [ (between .NONE none (some 1) [full_chunk, full_chunk, full_chunk, full_chunk], xfade_env),
    (between .QUEUE (some 2) (some 1) [],
      { xfade_env with queue_is_idle := true, xfade_is_starting := true }),
    (between .NONE (some 2) (some 2) [], xfade_env),
    (between .CANCEL (some 2) (some 2) [],
      { xfade_env with queue_is_idle := true, refill_is_idle := true }),
    (between .QUEUE (some 3) (some 2) [],
      { xfade_env with queue_is_idle := true, xfade_is_starting := true }),
    (between .NONE (some 3) (some 3) [full_chunk], xfade_env) ]

/-- The state in which the run `cancel_requeue_run` leaves `do_play`. -/
def cancel_requeue_end : State :=
  match do_play false cancel_requeue_run xfade_start with
  | .ok (s, _) => s
  | .error _ => xfade_start

/-- The calls of `cross_fade_apply` among the events of a trace. -/
def cross_fade_calls (t : List Event) : List Event :=
  t.filter fun e => match e with
    | .cross_fade_apply _ _ => true
    | _ => false

/-- Song 1 is paused while the player's pipe is empty and the decoder is still
running. -/
def paused_empty : State :=
  { pipe_empty with
    pc := { pipe_empty.pc with state := .PAUSE }
    player := { pipe_empty.player with paused := true } }

/-- From `s` to `s1` the only call made is one `audio_output_all_play` that is
not preceded by the shift of a chunk: silence was handed to the outputs. -/
def silence_submitted (s s1 : State) : Prop :=
  ∃ n, s1.trace = s.trace ++ [.audio_output_all_play n]

/-- The state in which the output step of `do_play` calls
`player_wait_for_decoder` at a song boundary: the decoder's pipe `q` has
become the player's pipe. -/
def boundary_handoff (s : State) (q : List music_chunk) : State :=
  { s with
    player := { s.player with xfade := .XFADE_UNKNOWN, pipe := q }
    dc := { s.dc with pipe := .player_pipe } }

/-- The `audio_output_all_open` call with a format; in this file only
`player_check_decoder_startup` makes it. -/
def is_startup_open : Event → Bool
  | .audio_output_all_open (some _) => true
  | _ => false

/-- Unless the decoder is starting, the last format marker of the trace is the
`audio_output_all_open` of `player.play_audio_format`, and
`player.size_to_time` is the value `f` of `audioFormatSizeToTime` for it. -/
def format_assigned (f : audio_format → ℚ) (s : State) : Prop :=
  s.player.decoder_starting = false →
    (∃ pre post,
      s.trace = pre ++ .audio_output_all_open (some s.player.play_audio_format) :: post ∧
      ∀ e ∈ post, is_format_marker e = false) ∧
    s.player.size_to_time = f s.player.play_audio_format

/-- From `s` to `s1` the trace grew by no submission, and the decoder is
starting in `s1` unless an `audio_output_all_open` with a format was made. -/
def starting_step (s s1 : State) : Prop :=
  ∃ evs, s1.trace = s.trace ++ evs ∧ (∀ e ∈ evs, is_submission e = false) ∧
    (s1.player.decoder_starting = true ∨ ∃ e ∈ evs, is_startup_open e = true)

/-- Since `s0` nothing was submitted before the first `audio_output_all_open`
with a format, and the decoder is starting as long as there was none. -/
def quiet_until_open (s0 s : State) : Prop :=
  ∃ evs, s.trace = s0.trace ++ evs ∧
    (∀ e ∈ evs.takeWhile (fun e => !is_startup_open e), is_submission e = false) ∧
    ((∀ e ∈ evs, is_startup_open e = false) → s.player.decoder_starting = true)

/-- The loop-tops of `do_play` called on `s0`, as `loop_top`, when the answers
of the environment satisfy `P` in every pass. -/
inductive loop_top_with (P : Env → Prop) (s0 : State) : State → Prop where
  | first (i : Interference) (s : State) :
      do_play_init false s0 = .ok (s, true) → loop_top_with P s0 (interfere i s)
  | next (i : Interference) (env : Env) (s s1 : State) :
      loop_top_with P s0 s → P env → do_play_iteration env s = .ok (s1, .continue_loop) →
      loop_top_with P s0 (interfere i s1)

/-- The state in which the body of the loop goes on after the buffering test
has been passed. -/
def buffering_done (s : State) : State :=
  if s.player.buffering then { s with player := { s.player with buffering := false } } else s

/-- The state after the first pass of the loop when the decoder has delivered
four chunks of song 1 and is ready: buffering is over and the outputs have
been opened with the format of the decoder. -/
def demo_opened : State :=
  match do_play_iteration demo_env
      (interfere (between .NONE none (some 1)
        [full_chunk, full_chunk, full_chunk, full_chunk]) demo_started) with
  | .ok (s, _) => s
  | .error _ => demo_start

/-- The second loop-top of the run that leads to `demo_opened`: nothing
happened behind the back of the player thread after the first pass. -/
def demo_opened_top : State :=
  interfere (between .NONE none (some 1) []) demo_opened

/-- The slots of the chunks of a list, as a multiset. -/
def slots (l : List music_chunk) : Multiset Nat :=
  Multiset.ofList (l.map fun c => c.slot)

/-- The slots of all chunks the state knows: the free chunks of the buffer,
the chunks in the player's pipe, and the chunks in the decoder's pipe when
that is a pipe of its own. -/
def chunk_slots (s : State) : Multiset Nat :=
  slots s.player.buffer.free + slots s.player.pipe + slots (dc_pipe_chunks s.dc.pipe)

/-- Chunk conservation: the free chunks and the chunks in the pipes are
together exactly the `N` chunks of the buffer, each one once. -/
def conserved (s : State) : Prop :=
  chunk_slots s = Multiset.range s.player.buffer.num_chunks

/-- From `s` to `s1` the buffer kept its capacity and the chunks only moved
between the free list and the pipes. -/
def same_chunks (s s1 : State) : Prop :=
  s1.player.buffer.num_chunks = s.player.buffer.num_chunks ∧ chunk_slots s1 = chunk_slots s

/-- Song 1 is playing as in `demo_playing`, and three seconds of audio have
been played since the player thread started. -/
def played_three : State :=
  { demo_playing with pc := { demo_playing.pc with total_play_time := 3 } }

/-- A chunk of 4096 bytes in the all-zero format. -/
def zero_chunk : music_chunk := ⟨0, 4096, 128, 0, none, audio_format.cleared⟩

/-- What the other threads do between two passes when the decoder, working on
song 1, reports the all-zero audio format: the main thread sends nothing, the
decoder appends the chunks `decoded`. -/
def zero_format_between (decoded : List music_chunk) : Interference :=
  { pc_command := .NONE
    pc_next_song := none
    pc_seek_where := 0
    dc_current_song := some 1
    dc_in_audio_format := audio_format.cleared
    dc_out_audio_format := audio_format.cleared
    dc_total_time := 5
    decoded := decoded }

/-- A run of six passes through the loop of `do_play` in which the decoder
reports the all-zero audio format: it delivers four chunks and the outputs are
opened; the four chunks are played one per pass; then the player's pipe is
empty while the decoder is still running. -/
def zero_format_run : List (Interference × Env) :=
  [ (zero_format_between [zero_chunk, zero_chunk, zero_chunk, zero_chunk], demo_env),
    (zero_format_between [], demo_env),
    (zero_format_between [], demo_env),
    (zero_format_between [], demo_env),
    (zero_format_between [], demo_env),
    (zero_format_between [], demo_env) ]

/-! ## Theorems -/

/-! ### Frame lemmas for `player_dc_stop` -/

@[simp] theorem player_dc_stop_pc (s : State) : (player_dc_stop s).pc = s.pc := by
  unfold player_dc_stop; simp only [State.emit]; split <;> rfl

@[simp] theorem player_dc_stop_songs (s : State) : (player_dc_stop s).songs = s.songs := by
  unfold player_dc_stop; simp only [State.emit]; split <;> rfl

@[simp] theorem player_dc_stop_trace (s : State) :
    (player_dc_stop s).trace = s.trace ++ [.dc_stop] := by
  unfold player_dc_stop; simp only [State.emit]; split <;> rfl

@[simp] theorem player_dc_stop_dc_pipe (s : State) : (player_dc_stop s).dc.pipe = .null := by
  unfold player_dc_stop; simp only [State.emit]; split <;> first | rfl | assumption

@[simp] theorem player_dc_stop_dc_next_song (s : State) :
    (player_dc_stop s).dc.next_song = s.dc.next_song := by
  unfold player_dc_stop; simp only [State.emit]; split <;> rfl

@[simp] theorem player_dc_stop_queued (s : State) :
    (player_dc_stop s).player.queued = s.player.queued := by
  unfold player_dc_stop; simp only [State.emit]; split <;> rfl

@[simp] theorem player_dc_stop_paused (s : State) :
    (player_dc_stop s).player.paused = s.player.paused := by
  unfold player_dc_stop; simp only [State.emit]; split <;> rfl

/-! ### `player_seek_decoder` -/

/-- Seeking inside the song the decoder is decoding: the whole result. -/
theorem player_seek_decoder_same_song (env : Env) (s : State)
    (hsame : env.seek_current_song = s.pc.next_song) (hcmd : s.pc.command ≠ .NONE) :
    player_seek_decoder env s =
      .ok ({ s with
        pc := { s.pc with
          next_song := none
          elapsed_time := if env.dc_seek then
              env.to_elapsed_time (seek_position s.pc.seek_where s.pc.total_time)
            else s.pc.elapsed_time
          command := .NONE }
        player := { s.player with queued := false }
        trace := s.trace ++ [.dc_seek (seek_position s.pc.seek_where s.pc.total_time),
          .notify_signal_main] }, env.dc_seek) := by
  unfold player_seek_decoder
  simp only [hsame, ne_eq, not_true_eq_false, if_false]
  cases hd : env.dc_seek <;>
    simp [player_command_finished, State.emit, hcmd]

/-- Seeking into another song when the restarted decoder does not fail. -/
theorem player_seek_decoder_restart (env : Env) (s : State) (p : SongPtr)
    (hdiff : env.seek_current_song ≠ s.pc.next_song) (hnext : s.pc.next_song = some p)
    (hok : env.seek_has_failed = false) (hcmd : s.pc.command ≠ .NONE) :
    ∃ s1, player_seek_decoder env s = .ok (s1, env.dc_seek) ∧
      s1.pc.command = .NONE ∧
      s1.pc.total_time = song_total_time s p ∧
      s1.pc.elapsed_time =
        (if env.dc_seek then
          env.to_elapsed_time (seek_position s.pc.seek_where (song_total_time s p))
        else 0) ∧
      s1.trace = s.trace ++ [.dc_stop, .dc_start_async (some p), .dc_command_wait,
        .event_pipe_emit .PIPE_EVENT_PLAYLIST,
        .dc_seek (seek_position s.pc.seek_where (song_total_time s p)),
        .notify_signal_main] := by
  unfold player_seek_decoder
  simp only [hdiff, ne_eq, not_false_eq_true, if_true]
  cases hd : env.dc_seek <;>
    simp [player_wait_for_decoder, dc_start_async, hok, hnext,
      player_command_finished, State.emit, hcmd, song_total_time]

/-- Rounding keeps the sign of a number that is not negative. -/
theorem round_nearest_even_nonneg (p : Nat) (x : ℚ) (hx : 0 ≤ x) :
    0 ≤ round_nearest_even p x := by
  unfold round_nearest_even
  split
  · exact le_refl _
  · simp only
    split
    · rename_i hneg
      exact absurd hx (not_le.mpr hneg)
    · exact div_nonneg (Nat.cast_nonneg _) (Nat.cast_nonneg _)

/-- The `double` nearest to 0.1 lies above 0.1. -/
theorem double_tenth_eq : double_tenth = 3602879701896397 / 36028797018963968 := by
  decide!

/-- The position computed by the code, by cases, for a song that lasts at
least as long as the `double` 0.1. -/
theorem seek_position_eq (p t : ℚ) (ht : double_tenth ≤ t) :
    seek_position p t =
      if p < 0 then 0 else if p ≤ t then p else to_double (t - double_tenth) := by
  have hpos : (0 : ℚ) < double_tenth := by rw [double_tenth_eq]; norm_num
  unfold seek_position
  by_cases h1 : p > t
  · have h2 : ¬ p < 0 := by linarith
    have h3 : ¬ p ≤ t := by linarith
    have h4 : ¬ to_double (t - double_tenth) < 0 :=
      not_lt.mpr (round_nearest_even_nonneg 53 _ (by linarith))
    rw [if_pos h1, if_neg h2, if_neg h3]
    exact if_neg h4
  · have h3 : p ≤ t := by linarith
    rw [if_neg h1]
    by_cases h2 : p < 0
    · rw [if_pos h2, if_pos h2]
    · rw [if_neg h2, if_neg h2, if_pos h3]

/-- C1, as stated, fails: a successful seek to position 5 in a five-second song
hands 5 to `dc_seek` and stores 5 in `pc.elapsed_time`, not the clamped value
`max 0 (min 5 (5 - 0.1)) = 4.9`. -/
theorem seek_clamp_counterexample :
    (1 / 10 : ℚ) ≤ seek_at_end.pc.total_time ∧
    ∃ s1, player_seek_decoder demo_env seek_at_end = .ok (s1, true) ∧
      s1.trace = seek_at_end.trace ++ [.dc_seek 5, .notify_signal_main] ∧
      s1.pc.elapsed_time = 5 ∧
      s1.pc.elapsed_time ≠
        max 0 (min seek_at_end.pc.seek_where (seek_at_end.pc.total_time - 1 / 10)) := by
  have hrun := player_seek_decoder_same_song demo_env seek_at_end rfl (by decide)
  have hel : demo_env.to_elapsed_time
      (seek_position seek_at_end.pc.seek_where seek_at_end.pc.total_time) = 5 := by
    decide!
  have hpos : seek_position seek_at_end.pc.seek_where seek_at_end.pc.total_time = 5 := by
    decide!
  refine ⟨by norm_num [seek_at_end, demo_playing], _, hrun, ?_, ?_, ?_⟩
  · simp only [hpos]
  · simp only [demo_env, if_true]
    exact hel
  · simp only [demo_env, if_true]
    rw [show to_float (seek_position seek_at_end.pc.seek_where seek_at_end.pc.total_time)
      = 5 from hel]
    norm_num [seek_at_end, demo_playing]

/-- C1, amended: when `dc_seek` reports success, `player_seek_decoder` returns
true, the position `where` handed to `dc_seek` is the one stored, after
conversion to its type, in `pc.elapsed_time`, and for `pc.total_time` not below
the `double` 0.1 that position is 0 for a negative `seek_where`, `seek_where`
itself for `0 <= seek_where <= total_time`, and the `double` difference
`total_time - 0.1` for `seek_where > total_time`.  `pc.total_time` is the value
at the time of the comparison: unchanged when the seek stays in the decoder's
song, the duration of the new song after a restart. -/
theorem player_seek_decoder_position (env : Env) (s : State)
    (hcmd : s.pc.command = .SEEK) (hseek : env.dc_seek = true)
    (hpath : env.seek_current_song = s.pc.next_song ∨
      (env.seek_has_failed = false ∧ s.pc.next_song ≠ none)) :
    ∃ s1 pre pos, player_seek_decoder env s = .ok (s1, true) ∧
      s1.trace = pre ++ [.dc_seek pos, .notify_signal_main] ∧
      s1.pc.elapsed_time = env.to_elapsed_time pos ∧
      (env.seek_current_song = s.pc.next_song → s1.pc.total_time = s.pc.total_time) ∧
      (double_tenth ≤ s1.pc.total_time →
        pos =
          if s.pc.seek_where < 0 then 0
          else if s.pc.seek_where ≤ s1.pc.total_time then s.pc.seek_where
          else to_double (s1.pc.total_time - double_tenth)) := by
  have hne : s.pc.command ≠ .NONE := by rw [hcmd]; decide
  by_cases hsame : env.seek_current_song = s.pc.next_song
  · have hrun := player_seek_decoder_same_song env s hsame hne
    rw [hseek] at hrun
    refine ⟨_, s.trace, seek_position s.pc.seek_where s.pc.total_time, hrun, ?_, ?_, ?_, ?_⟩
    · rfl
    · simp
    · intro _; rfl
    · intro ht
      exact seek_position_eq _ _ ht
  · rcases hpath with h | ⟨hok, hnext⟩
    · exact absurd h hsame
    · obtain ⟨p, hp⟩ := Option.ne_none_iff_exists'.mp hnext
      obtain ⟨s1, hrun, _, htot, hel, htr⟩ := player_seek_decoder_restart env s p hsame hp hok hne
      rw [hseek] at hrun
      simp only [hseek, if_true] at hel
      refine ⟨s1, s.trace ++ [.dc_stop, .dc_start_async (some p), .dc_command_wait,
          .event_pipe_emit .PIPE_EVENT_PLAYLIST],
          seek_position s.pc.seek_where (song_total_time s p), hrun, ?_, hel, ?_, ?_⟩
      · rw [htr]
        simp
      · intro h; exact absurd h hsame
      · intro ht
        rw [htot]
        rw [htot] at ht
        exact seek_position_eq _ _ ht

/-- Witness for `player_seek_decoder_position`: seeking to 1000000 in the
five-second song 1. -/
theorem player_seek_decoder_position_witness :
    seek_far.pc.command = .SEEK ∧ demo_env.dc_seek = true ∧
    ∃ s1 pre pos, player_seek_decoder demo_env seek_far = .ok (s1, true) ∧
      s1.trace = pre ++ [.dc_seek pos, .notify_signal_main] ∧
      s1.pc.elapsed_time = demo_env.to_elapsed_time pos ∧
      (demo_env.seek_current_song = seek_far.pc.next_song →
        s1.pc.total_time = seek_far.pc.total_time) ∧
      (double_tenth ≤ s1.pc.total_time →
        pos =
          if seek_far.pc.seek_where < 0 then 0
          else if seek_far.pc.seek_where ≤ s1.pc.total_time then seek_far.pc.seek_where
          else to_double (s1.pc.total_time - double_tenth)) :=
  ⟨rfl, rfl, player_seek_decoder_position demo_env seek_far rfl rfl (Or.inl rfl)⟩

/-- The values in the scenario of the specification, seeking to 1000000 in a
song of 5 seconds: `dc_seek` gets the `double` 4.9000000000000004, and a
`float` field stores 4.9000000953674316. -/
theorem seek_far_values :
    seek_position seek_far.pc.seek_where seek_far.pc.total_time
      = 2758454771764429 / 562949953421312 ∧
    demo_env.to_elapsed_time (seek_position seek_far.pc.seek_where seek_far.pc.total_time)
      = 10276045 / 2097152 := by
  constructor <;> decide!

/-- A SEEK whose `player_seek_decoder` returns false leaves the state as
`player_seek_decoder` left it. -/
theorem player_process_command_seek_false (env : Env) (s s1 : State)
    (hcmd : s.pc.command = .SEEK) (h : player_seek_decoder env s = .ok (s1, false)) :
    player_process_command env s = .ok s1 := by
  unfold player_process_command
  rw [hcmd]
  simp only [h]

/-- C2: the code at the failing input.  A SEEK into song 2 while the decoder
decodes song 1, with a decoder that fails on song 2: `player_seek_decoder`
returns false through the early `return` after `player_wait_for_decoder`,
`pc.command` is still SEEK afterwards and `main_notify` was never signalled;
`player_process_command` hands this state back to the loop. -/
theorem seek_restart_failure_not_acknowledged :
    seek_other_song.pc.command = .SEEK ∧
    restart_fails_env.seek_current_song ≠ seek_other_song.pc.next_song ∧
    restart_fails_env.seek_has_failed = true ∧
    ∃ s1, player_seek_decoder restart_fails_env seek_other_song = .ok (s1, false) ∧
      player_process_command restart_fails_env seek_other_song = .ok s1 ∧
      s1.pc.command = .SEEK ∧
      Event.notify_signal_main ∉ s1.trace := by
  refine ⟨rfl, by decide, rfl, _, rfl, rfl, rfl, ?_⟩
  decide

/-- C3, as stated, fails: a SEEK into another song restarts the decoder, which
sets `pc.elapsed_time` to 0; when `dc_seek` then returns false the elapsed
time is 0 and not the 3 seconds it was before the command. -/
theorem seek_rejected_counterexample :
    seek_other_song.pc.command = .SEEK ∧
    seek_rejected_env.dc_seek = false ∧
    ∃ s1, player_process_command seek_rejected_env seek_other_song = .ok s1 ∧
      seek_other_song.pc.elapsed_time = 3 ∧
      s1.pc.elapsed_time = 0 ∧
      s1.pc.elapsed_time ≠ seek_other_song.pc.elapsed_time := by
  refine ⟨rfl, rfl, _, rfl, rfl, rfl, ?_⟩
  show (0 : ℚ) ≠ 3
  norm_num

/-- C3, amended: if `dc_seek` returns false while a SEEK command is processed,
the command is processed to the end, and `pc.elapsed_time` afterwards equals
the value before the command when the seek targets the song the decoder is
decoding, and is 0, the value set by the decoder restart, when it targets a
different song. -/
theorem seek_rejected_elapsed_time (env : Env) (s : State)
    (hcmd : s.pc.command = .SEEK) (hrej : env.dc_seek = false)
    (hpath : env.seek_current_song = s.pc.next_song ∨
      (env.seek_has_failed = false ∧ s.pc.next_song ≠ none)) :
    ∃ s1, player_process_command env s = .ok s1 ∧
      s1.pc.elapsed_time =
        if env.seek_current_song = s.pc.next_song then s.pc.elapsed_time else 0 := by
  have hne : s.pc.command ≠ .NONE := by rw [hcmd]; decide
  by_cases hsame : env.seek_current_song = s.pc.next_song
  · have hrun := player_seek_decoder_same_song env s hsame hne
    rw [hrej] at hrun
    exact ⟨_, player_process_command_seek_false env s _ hcmd hrun, by simp [hsame]⟩
  · rcases hpath with h | ⟨hok, hnext⟩
    · exact absurd h hsame
    · obtain ⟨p, hp⟩ := Option.ne_none_iff_exists'.mp hnext
      obtain ⟨s1, hrun, _, _, hel, _⟩ := player_seek_decoder_restart env s p hsame hp hok hne
      rw [hrej] at hrun
      refine ⟨s1, player_process_command_seek_false env s s1 hcmd hrun, ?_⟩
      rw [hel, if_neg hsame]
      simp [hrej]

/-- Witness for `seek_rejected_elapsed_time`: the rejected seek into song 2. -/
theorem seek_rejected_elapsed_time_witness :
    seek_other_song.pc.command = .SEEK ∧ seek_rejected_env.dc_seek = false ∧
    ∃ s1, player_process_command seek_rejected_env seek_other_song = .ok s1 ∧
      s1.pc.elapsed_time =
        if seek_rejected_env.seek_current_song = seek_other_song.pc.next_song
        then seek_other_song.pc.elapsed_time else 0 :=
  ⟨rfl, rfl, seek_rejected_elapsed_time seek_rejected_env seek_other_song rfl rfl
    (Or.inr ⟨rfl, by decide⟩)⟩

/-! ### `do_play`: the decoder fails on the first song -/

/-- C4: if the decoder has failed when the first `player_wait_for_decoder`
runs, `do_play` returns (whatever the schedule) with `pc.error = FILE`,
`pc.errored_song` the song that was being started, `pc.next_song = NULL`,
`pc.state = STOP` and `pc.command = NONE`; the calls it made are exactly
`dc_start`, `dc_command_wait`, `dc_stop`, the PLAYLIST event and the
acknowledgement, so neither `audio_output_all_open` nor
`audio_output_all_play` was called.  `do_play` is entered with a command
pending and a song whose `url` is set, as its assertions require. -/
theorem do_play_decoder_fails_on_start (sched : List (Interference × Env)) (s : State)
    (hcmd : s.pc.command ≠ .NONE)
    (hurl : song_url_ok s.songs s.pc.next_song = true) :
    ∃ s1 evs, do_play true sched s = .ok (s1, true) ∧
      s1.pc.error = .FILE ∧
      s1.pc.errored_song = s.pc.next_song ∧
      s1.pc.next_song = none ∧
      s1.pc.state = .STOP ∧
      s1.pc.command = .NONE ∧
      s1.trace = s.trace ++ evs ∧
      evs = [.dc_start s.pc.next_song, .dc_command_wait, .dc_stop,
        .event_pipe_emit .PIPE_EVENT_PLAYLIST, .notify_signal_main] ∧
      (∀ fmt, Event.audio_output_all_open fmt ∉ evs) ∧
      (∀ n, Event.audio_output_all_play n ∉ evs) := by
  have hu : dc_next_song_url_ok
      ((dc_start s.pc.next_song { s with
        player :=
          { buffer := music_buffer_new s.pc.buffer_chunks
            pipe := []
            buffering := true
            decoder_starting := false
            paused := false
            queued := false
            song := none
            xfade := .XFADE_UNKNOWN
            play_audio_format := audio_format.cleared
            size_to_time := 0 }
        crossFadeChunks := 0
        cross_fading := false
        dc := { s.dc with pipe := .player_pipe } }).emit .dc_command_wait) = true := hurl
  unfold do_play do_play_init player_wait_for_decoder
  simp only [if_true, hu]
  simp [player_command_finished, player_stop_decoder, State.emit, dc_start, hcmd]

/-- Witness for `do_play_decoder_fails_on_start`: PLAY of song 1 with a
decoder that cannot open it. -/
theorem do_play_decoder_fails_on_start_witness :
    demo_start.pc.command ≠ .NONE ∧
    song_url_ok demo_start.songs demo_start.pc.next_song = true ∧
    ∃ s1 evs, do_play true [] demo_start = .ok (s1, true) ∧
      s1.pc.error = .FILE ∧
      s1.pc.errored_song = demo_start.pc.next_song ∧
      s1.pc.next_song = none ∧
      s1.pc.state = .STOP ∧
      s1.pc.command = .NONE ∧
      s1.trace = demo_start.trace ++ evs ∧
      evs = [.dc_start demo_start.pc.next_song, .dc_command_wait, .dc_stop,
        .event_pipe_emit .PIPE_EVENT_PLAYLIST, .notify_signal_main] ∧
      (∀ fmt, Event.audio_output_all_open fmt ∉ evs) ∧
      (∀ n, Event.audio_output_all_play n ∉ evs) :=
  ⟨by decide, rfl, do_play_decoder_fails_on_start [] demo_start (by decide) rfl⟩

/-! ### `player.queued` and `pc.next_song` -/

/-- C5: the code at the failing input.  With a song queued (`player.queued`
true, `pc.next_song` set), a SEEK into another song whose decoder restart
fails leaves `player.queued` true and `pc.next_song = NULL`: the early
`return false` of `player_seek_decoder` skips what both other paths do.  In the
same pass the queue handoff then fails its `assert(pc.next_song != NULL)`.  In
a run of `do_play` from a PLAY command (QUEUE of song 2 in the first pass, SEEK
into song 3 with a failing decoder in the second) the loop is left with
`player.queued` true and `pc.next_song = NULL`, and the same assertion fails
in the teardown. -/
theorem queued_seek_restart_failure :
    (queued_seek.pc.command = .SEEK ∧ queued_seek.player.queued = true ∧
      queued_seek.pc.next_song = some 2) ∧
    (∃ s1, player_process_command decoder_failed_env queued_seek = .ok s1 ∧
      s1.player.queued = true ∧ s1.pc.next_song = none ∧
      do_play_queue_handoff decoder_failed_env s1 = .error .assertion) ∧
    do_play_iteration decoder_failed_env queued_seek = .error .assertion ∧
    (∃ s0 s1 s2, do_play_init false demo_start = .ok (s0, true) ∧
      do_play_iteration demo_env (interfere post_queue_song_2 s0) = .ok (s1, .continue_loop) ∧
      s1.player.queued = true ∧ s1.pc.next_song = some 2 ∧
      do_play_iteration decoder_failed_env (interfere post_seek_song_3 s1)
        = .ok (s2, .break_loop) ∧
      s2.player.queued = true ∧ s2.pc.next_song = none ∧
      do_play_teardown s2 = .error .assertion) ∧
    do_play false [(post_queue_song_2, demo_env), (post_seek_song_3, decoder_failed_env)]
      demo_start = .error .assertion := by
  refine ⟨⟨rfl, rfl, rfl⟩, ⟨_, rfl, rfl, rfl, rfl⟩, rfl, ⟨_, _, _, rfl, rfl, rfl, rfl, rfl, rfl,
    rfl, rfl⟩, rfl⟩

/-! ### The pause invariant -/

theorem same_pause_refl (s : State) : same_pause s s := ⟨rfl, rfl⟩

theorem same_pause_trans {s s1 s2 : State} (h1 : same_pause s s1) (h2 : same_pause s1 s2) :
    same_pause s s2 := ⟨h2.1.trans h1.1, h2.2.trans h1.2⟩

theorem same_pause_emit (s : State) (e : Event) : same_pause s (s.emit e) := ⟨rfl, rfl⟩

theorem same_pause_inv {s s1 : State} (h : same_pause s s1) (hi : pause_inv s) :
    pause_inv s1 := by
  unfold pause_inv at *
  rw [h.1, h.2]
  exact hi

theorem player_command_finished_same_pause {s s1 : State}
    (h : player_command_finished s = .ok s1) : same_pause s s1 := by
  unfold player_command_finished at h
  split at h
  · cases h
  · cases h; exact ⟨rfl, rfl⟩

theorem player_dc_stop_same_pause (s : State) : same_pause s (player_dc_stop s) :=
  ⟨by simp, by simp⟩

theorem same_pause_ite (s a b : State) (c : Prop) [Decidable c]
    (ha : same_pause s a) (hb : same_pause s b) : same_pause s (if c then a else b) := by
  split
  · exact ha
  · exact hb

theorem player_wait_for_decoder_same_pause {failed : Bool} {s s1 : State} {b : Bool}
    (h : player_wait_for_decoder failed s = .ok (s1, b)) : same_pause s s1 := by
  unfold player_wait_for_decoder at h
  simp only at h
  split at h
  · split at h
    · cases h; exact ⟨rfl, rfl⟩
    · cases h
  · split at h
    · cases h
    · cases h; exact ⟨rfl, rfl⟩

theorem player_seek_decoder_same_pause {env : Env} {s s1 : State} {b : Bool}
    (h : player_seek_decoder env s = .ok (s1, b)) : same_pause s s1 := by
  unfold player_seek_decoder at h
  simp only at h
  split at h
  · cases h
  · rename_i s2 heq
    cases h
    split at heq
    · have h1 := player_wait_for_decoder_same_pause heq
      exact same_pause_trans (same_pause_trans (player_dc_stop_same_pause s) ⟨rfl, rfl⟩) h1
    · cases heq
  · rename_i s2 heq
    have h2 : same_pause s s2 := by
      split at heq
      · have h1 := player_wait_for_decoder_same_pause heq
        exact same_pause_trans (same_pause_trans (player_dc_stop_same_pause s) ⟨rfl, rfl⟩) h1
      · cases heq; exact ⟨rfl, rfl⟩
    split at h
    · cases h
    · rename_i s3 hfin
      cases h
      refine same_pause_trans (same_pause_trans h2 ?_) (player_command_finished_same_pause hfin)
      exact same_pause_ite _ _ _ _ ⟨rfl, rfl⟩ ⟨rfl, rfl⟩

theorem player_process_command_pause_inv {env : Env} {s s1 : State}
    (h : player_process_command env s = .ok s1) (hi : pause_inv s) : pause_inv s1 := by
  unfold player_process_command at h
  split at h
  · cases h; exact hi
  · cases h; exact hi
  · cases h; exact hi
  · cases h; exact hi
  · cases h; exact hi
  · -- QUEUE
    split at h
    · cases h
    · split at h
      · cases h
      · split at h
        · cases h
        · exact same_pause_inv (same_pause_trans ⟨rfl, rfl⟩
            (player_command_finished_same_pause h)) hi
  · -- PAUSE
    simp only at h
    cases hp : s.player.paused
    · -- entering pause
      simp only [hp, Bool.not_false, if_true] at h
      have h1 := player_command_finished_same_pause h
      unfold pause_inv
      rw [h1.1, h1.2]
      simp [State.emit]
    · -- leaving pause
      have hst : s.pc.state = .PAUSE := hi.mpr hp
      simp only [hp, Bool.not_true, Bool.false_eq_true, if_false] at h
      split at h
      · have h1 := player_command_finished_same_pause h
        unfold pause_inv
        rw [h1.1, h1.2]
        simp [State.emit]
      · split at h
        · have h1 := player_command_finished_same_pause h
          unfold pause_inv
          rw [h1.1, h1.2]
          simp [State.emit, hst]
        · cases h
  · -- SEEK
    split at h
    · cases h
    · rename_i s2 heq
      cases h
      exact same_pause_inv (same_pause_trans (player_seek_decoder_same_pause heq) ⟨rfl, rfl⟩) hi
    · rename_i s2 heq
      cases h
      exact same_pause_inv (player_seek_decoder_same_pause heq) hi
  · -- CANCEL
    split at h
    · cases h; exact same_pause_inv ⟨rfl, rfl⟩ hi
    · have h1 := player_command_finished_same_pause h
      refine same_pause_inv (same_pause_trans ?_ h1) hi
      refine @same_pause_trans _ (if s.dc.pipe ≠ .null ∧ s.dc.pipe ≠ .player_pipe then
          (player_dc_stop s).emit .dc_stop else s) _ ?_ ⟨rfl, rfl⟩
      exact same_pause_ite _ _ _ _
        (same_pause_trans (player_dc_stop_same_pause s) ⟨rfl, rfl⟩) ⟨rfl, rfl⟩

theorem play_chunk_same_pause {env : Env} {song_ptr : Option SongPtr} {chunk : music_chunk}
    {format : audio_format} {sizeToTime : ℚ} {s s1 : State} {b : Bool}
    (h : play_chunk env song_ptr chunk format sizeToTime s = .ok (s1, b)) :
    same_pause s s1 := by
  unfold play_chunk at h
  simp only at h
  split at h
  · cases h
  · split at h
    · cases h
    · rename_i s2 heq
      have h2 : same_pause s s2 := by
        split at heq
        · cases heq; exact ⟨rfl, rfl⟩
        · split at heq
          · cases heq
          · split at heq
            · cases heq; exact ⟨rfl, rfl⟩
            · cases heq; exact ⟨rfl, rfl⟩
      split at h
      · cases h; exact h2
      · split at h
        · cases h; exact same_pause_trans h2 ⟨rfl, rfl⟩
        · split at h
          · cases h; exact same_pause_trans h2 ⟨rfl, rfl⟩
          · cases h; exact same_pause_trans h2 ⟨rfl, rfl⟩

theorem do_play_cross_fade_same_pause {env : Env} {s s1 : State}
    {r : Option (Option music_chunk)}
    (h : do_play_cross_fade env s = .ok (s1, r)) : same_pause s s1 := by
  unfold do_play_cross_fade at h
  split at h
  · simp only at h
    split at h
    · split at h
      · split at h
        · cases h
        · cases h
          exact ⟨by simp only [State.emit]; split <;> rfl, by simp only [State.emit]; split <;> rfl⟩
      · split at h
        · cases h
          exact ⟨by simp only [State.emit]; split <;> rfl, by simp only [State.emit]; split <;> rfl⟩
        · cases h
          exact ⟨by simp only [State.emit]; split <;> rfl, by simp only [State.emit]; split <;> rfl⟩
    · cases h; exact ⟨rfl, rfl⟩
  · cases h; exact ⟨rfl, rfl⟩

theorem do_play_refill_same_pause {env : Env} {s s1 : State}
    (h : do_play_refill env s = .ok s1) : same_pause s s1 := by
  unfold do_play_refill at h
  split at h
  · cases h; exact ⟨rfl, rfl⟩
  · split at h
    · cases h
    · split at h
      · cases h; exact ⟨rfl, rfl⟩
      · cases h; exact ⟨rfl, rfl⟩

theorem do_play_chunk_same_pause {env : Env} {s s1 : State} {c : loop_ctl}
    (h : do_play_chunk env s = .ok (s1, c)) : same_pause s s1 := by
  unfold do_play_chunk at h
  split at h
  · cases h
  · rename_i s2 hx
    cases h
    exact do_play_cross_fade_same_pause hx
  · rename_i s2 chunk0 hx
    have h2 := do_play_cross_fade_same_pause hx
    simp only at h
    split at h
    · cases h
    · rename_i s3 chunk hs
      have h3 : same_pause s2 s3 := by
        split at hs
        · cases hs; exact ⟨rfl, rfl⟩
        · split at hs
          · cases hs
          · cases hs; exact ⟨rfl, rfl⟩
      split at h
      · cases h
      · rename_i s4 success hp
        have h4 := same_pause_trans (same_pause_trans h2 h3) (play_chunk_same_pause hp)
        split at h
        · cases h; exact same_pause_trans h4 ⟨rfl, rfl⟩
        · split at h
          · cases h
          · rename_i s5 hr
            cases h
            have h5 := do_play_refill_same_pause hr
            exact same_pause_trans h4 (same_pause_trans ⟨rfl, rfl⟩ h5)

theorem do_play_output_same_pause {env : Env} {s s1 : State} {c : loop_ctl}
    (h : do_play_output env s = .ok (s1, c)) : same_pause s s1 := by
  unfold do_play_output at h
  split at h
  · cases h; exact ⟨rfl, rfl⟩
  · split at h
    · exact do_play_chunk_same_pause h
    · split at h
      · simp only at h
        split at h
        · cases h
        · rename_i s2 ok hw
          cases h
          have hw2 := player_wait_for_decoder_same_pause hw
          exact same_pause_trans ⟨rfl, rfl⟩ hw2
      · split at h
        · cases h; exact ⟨rfl, rfl⟩
        · simp only at h
          split at h
          · cases h
          · cases h; exact ⟨rfl, rfl⟩

theorem player_check_decoder_startup_same_pause {env : Env} {s s1 : State} {b : Bool}
    (h : player_check_decoder_startup env s = .ok (s1, b)) : same_pause s s1 := by
  unfold player_check_decoder_startup at h
  split at h
  · cases h
  · split at h
    · split at h
      · cases h; exact ⟨rfl, rfl⟩
      · cases h
    · split at h
      · simp only at h
        split at h
        · split at h
          · cases h
          · split at h
            · cases h; exact ⟨rfl, rfl⟩
            · cases h
        · cases h
          exact ⟨by simp only [State.emit]; split <;> rfl, by simp only [State.emit]; split <;> rfl⟩
      · cases h; exact ⟨rfl, rfl⟩

theorem do_play_queue_handoff_same_pause {env : Env} {s s1 : State}
    (h : do_play_queue_handoff env s = .ok s1) : same_pause s s1 := by
  unfold do_play_queue_handoff at h
  split at h
  · split at h
    · cases h
    · split at h
      · cases h
      · cases h; exact ⟨rfl, rfl⟩
  · cases h; exact ⟨rfl, rfl⟩

theorem do_play_xfade_decision_same_pause (env : Env) (s : State) :
    same_pause s (do_play_xfade_decision env s) := by
  unfold do_play_xfade_decision
  split
  · simp only
    split
    · exact ⟨rfl, rfl⟩
    · exact ⟨rfl, rfl⟩
  · exact ⟨rfl, rfl⟩

theorem do_play_after_buffering_same_pause {env : Env} {s s1 : State} {c : loop_ctl}
    (h : do_play_after_buffering env s = .ok (s1, c)) : same_pause s s1 := by
  unfold do_play_after_buffering at h
  split at h
  · split at h
    · cases h
    · rename_i s3 success hc
      cases h
      exact player_check_decoder_startup_same_pause hc
  · split at h
    · cases h
    · rename_i s3 hq
      exact same_pause_trans (do_play_queue_handoff_same_pause hq)
        (same_pause_trans (do_play_xfade_decision_same_pause env s3)
          (do_play_output_same_pause h))

theorem do_play_iteration_pause_inv {env : Env} {s s1 : State} {c : loop_ctl}
    (h : do_play_iteration env s = .ok (s1, c)) (hi : pause_inv s) : pause_inv s1 := by
  unfold do_play_iteration at h
  split at h
  · cases h
  · rename_i s2 hp
    have h2 := player_process_command_pause_inv hp hi
    split at h
    · cases h; exact same_pause_inv ⟨rfl, rfl⟩ h2
    · split at h
      · cases h; exact same_pause_inv ⟨rfl, rfl⟩ h2
      · have h3 : same_pause s2 (if s2.player.buffering = true then
            { s2 with player := { s2.player with buffering := false } } else s2) :=
          same_pause_ite _ _ _ _ ⟨rfl, rfl⟩ ⟨rfl, rfl⟩
        exact same_pause_inv
          (same_pause_trans h3 (do_play_after_buffering_same_pause h)) h2

theorem decoder_push_same_pause (s : State) (c : music_chunk) :
    same_pause s (decoder_push s c) := by
  unfold decoder_push
  split
  · exact ⟨rfl, rfl⟩
  · exact ⟨rfl, rfl⟩
  · exact ⟨rfl, rfl⟩

theorem foldl_decoder_push_same_pause (l : List music_chunk) (s : State) :
    same_pause s (l.foldl decoder_push s) := by
  induction l generalizing s with
  | nil => exact ⟨rfl, rfl⟩
  | cons c rest ih =>
    exact same_pause_trans (decoder_push_same_pause s c) (ih (decoder_push s c))

theorem interfere_same_pause (i : Interference) (s : State) :
    same_pause s (interfere i s) := by
  unfold interfere
  exact same_pause_trans ⟨rfl, rfl⟩ (foldl_decoder_push_same_pause _ _)

theorem do_play_init_playing {failed : Bool} {s0 s : State}
    (h : do_play_init failed s0 = .ok (s, true)) :
    s.pc.state = .PLAY ∧ s.player.paused = false := by
  unfold do_play_init at h
  simp only at h
  split at h
  · cases h
  · split at h
    · cases h
    · cases h
  · rename_i s2 hw
    have h2 := player_wait_for_decoder_same_pause hw
    split at h
    · cases h
    · rename_i s3 hf
      cases h
      have h3 := player_command_finished_same_pause hf
      exact ⟨h3.1, h3.2.trans h2.2⟩

theorem loop_top_pause_inv {s0 s : State} (h : loop_top s0 s) : pause_inv s := by
  induction h with
  | first i s hinit =>
    have h1 := do_play_init_playing hinit
    refine same_pause_inv (interfere_same_pause i s) ?_
    unfold pause_inv
    rw [h1.1, h1.2]
    simp
  | next i env s s1 _ hstep ih =>
    exact same_pause_inv (interfere_same_pause i s1) (do_play_iteration_pause_inv hstep ih)

/-- C6: at every loop-top of `do_play`, `pc.state == PAUSE` holds exactly when
`player.paused` is set.  The loop is entered in state PLAY with `paused`
false; from any state with the equivalence, command dispatch and a whole pass
through the loop body (whatever the environment answers) lead to a state in
which it holds again; and a PAUSE that tries to resume while
`audio_output_all_open` fails stays paused in state PAUSE, records the AUDIO
error and acknowledges. -/
theorem pause_state_invariant (s0 s : State) (h : loop_top s0 s) :
    (s.pc.state = .PAUSE ↔ s.player.paused = true) ∧
    (∀ s1, do_play_init false s0 = .ok (s1, true) →
      s1.pc.state = .PLAY ∧ s1.player.paused = false) ∧
    (∀ env t t1, (t.pc.state = .PAUSE ↔ t.player.paused = true) →
      player_process_command env t = .ok t1 →
      (t1.pc.state = .PAUSE ↔ t1.player.paused = true)) ∧
    (∀ env t t1 c, (t.pc.state = .PAUSE ↔ t.player.paused = true) →
      do_play_iteration env t = .ok (t1, c) →
      (t1.pc.state = .PAUSE ↔ t1.player.paused = true)) ∧
    (∀ env : Env, s.pc.command = .PAUSE → s.player.paused = true →
      env.pause_open = false → song_url_ok s.songs s.dc.next_song = true →
      ∃ s1, player_process_command env s = .ok s1 ∧
        s1.player.paused = true ∧ s1.pc.state = .PAUSE ∧
        s1.pc.error = player_error.AUDIO ∧ s1.pc.errored_song = s.dc.next_song ∧
        s1.pc.command = .NONE) := by
  have hi := loop_top_pause_inv h
  refine ⟨hi, fun s1 h1 => do_play_init_playing h1,
    fun env t t1 ht hstep => player_process_command_pause_inv hstep ht,
    fun env t t1 c ht hstep => do_play_iteration_pause_inv hstep ht, ?_⟩
  intro env hcmd hp hopen hurl
  have hst : s.pc.state = .PAUSE := hi.mpr hp
  unfold player_process_command
  rw [hcmd]
  simp [hp, hopen, dc_next_song_url_ok, hurl, player_command_finished, State.emit, hcmd, hst]

/-- Witness for `pause_state_invariant`: PLAY of song 1, a PAUSE handled in
the first pass, and a second PAUSE pending at the second loop-top. -/
theorem pause_state_invariant_witness :
    loop_top demo_start (interfere post_pause demo_paused) ∧
    ((interfere post_pause demo_paused).pc.command = .PAUSE ∧
      (interfere post_pause demo_paused).player.paused = true ∧
      song_url_ok (interfere post_pause demo_paused).songs
        (interfere post_pause demo_paused).dc.next_song = true) ∧
    (((interfere post_pause demo_paused).pc.state = .PAUSE ↔
      (interfere post_pause demo_paused).player.paused = true) ∧
    (∀ s1, do_play_init false demo_start = .ok (s1, true) →
      s1.pc.state = .PLAY ∧ s1.player.paused = false) ∧
    (∀ env t t1, (t.pc.state = .PAUSE ↔ t.player.paused = true) →
      player_process_command env t = .ok t1 →
      (t1.pc.state = .PAUSE ↔ t1.player.paused = true)) ∧
    (∀ env t t1 c, (t.pc.state = .PAUSE ↔ t.player.paused = true) →
      do_play_iteration env t = .ok (t1, c) →
      (t1.pc.state = .PAUSE ↔ t1.player.paused = true)) ∧
    (∀ env : Env, (interfere post_pause demo_paused).pc.command = .PAUSE →
      (interfere post_pause demo_paused).player.paused = true →
      env.pause_open = false →
      song_url_ok (interfere post_pause demo_paused).songs
        (interfere post_pause demo_paused).dc.next_song = true →
      ∃ s1, player_process_command env (interfere post_pause demo_paused) = .ok s1 ∧
        s1.player.paused = true ∧ s1.pc.state = .PAUSE ∧
        s1.pc.error = player_error.AUDIO ∧
        s1.pc.errored_song = (interfere post_pause demo_paused).dc.next_song ∧
        s1.pc.command = .NONE)) :=
  ⟨loop_top.next post_pause demo_env (interfere post_pause demo_started) demo_paused
      (loop_top.first post_pause demo_started rfl) rfl,
    ⟨rfl, rfl, rfl⟩,
    pause_state_invariant demo_start (interfere post_pause demo_paused)
      (loop_top.next post_pause demo_env (interfere post_pause demo_started) demo_paused
        (loop_top.first post_pause demo_started rfl) rfl)⟩

/-! ### No audio is submitted while paused -/

theorem quiet_step_refl (s : State) : quiet_step s s :=
  ⟨[], by simp, by simp⟩

theorem quiet_step_trans {s s1 s2 : State} (h1 : quiet_step s s1) (h2 : quiet_step s1 s2) :
    quiet_step s s2 := by
  obtain ⟨e1, ht1, hq1⟩ := h1
  obtain ⟨e2, ht2, hq2⟩ := h2
  refine ⟨e1 ++ e2, by rw [ht2, ht1, List.append_assoc], ?_⟩
  intro e he
  rcases List.mem_append.mp he with h | h
  · exact hq1 e h
  · exact hq2 e h

theorem quiet_step_emit (s : State) (e : Event) (he : is_submission e = false) :
    quiet_step s (s.emit e) :=
  ⟨[e], rfl, by simpa using he⟩

theorem quiet_step_of_trace_eq {s s1 : State} (h : s1.trace = s.trace) : quiet_step s s1 :=
  ⟨[], by simp [h], by simp⟩

theorem quiet_step_one {s s1 : State} (e : Event) (he : is_submission e = false)
    (h : s1.trace = s.trace ++ [e]) : quiet_step s s1 :=
  ⟨[e], h, by simpa using he⟩

theorem quiet_step_ite (s a b : State) (c : Prop) [Decidable c]
    (ha : quiet_step s a) (hb : quiet_step s b) : quiet_step s (if c then a else b) := by
  split
  · exact ha
  · exact hb

theorem player_dc_stop_quiet (s : State) : quiet_step s (player_dc_stop s) :=
  ⟨[.dc_stop], by simp, by simp [is_submission]⟩

theorem player_command_finished_quiet {s s1 : State}
    (h : player_command_finished s = .ok s1) : quiet_step s s1 := by
  unfold player_command_finished at h
  split at h
  · cases h
  · cases h; exact quiet_step_emit _ _ rfl

theorem player_wait_for_decoder_quiet {failed : Bool} {s s1 : State} {b : Bool}
    (h : player_wait_for_decoder failed s = .ok (s1, b)) : quiet_step s s1 := by
  unfold player_wait_for_decoder at h
  simp only at h
  split at h
  · split at h
    · cases h
      exact quiet_step_trans (quiet_step_emit s .dc_command_wait rfl)
        (quiet_step_of_trace_eq rfl)
    · cases h
  · split at h
    · cases h
    · cases h
      exact quiet_step_trans (quiet_step_emit s .dc_command_wait rfl)
        (quiet_step_trans (quiet_step_of_trace_eq rfl)
          (quiet_step_emit _ (.event_pipe_emit .PIPE_EVENT_PLAYLIST) rfl))

theorem player_seek_decoder_quiet {env : Env} {s s1 : State} {b : Bool}
    (h : player_seek_decoder env s = .ok (s1, b)) : quiet_step s s1 := by
  unfold player_seek_decoder at h
  simp only at h
  have hrestart : ∀ s2 b2,
      player_wait_for_decoder env.seek_has_failed
        (dc_start_async (player_dc_stop s).pc.next_song
          { player_dc_stop s with
            player := { (player_dc_stop s).player with
              buffer := music_pipe_clear (player_dc_stop s).player.pipe
                (player_dc_stop s).player.buffer, pipe := [] }
            dc := { (player_dc_stop s).dc with pipe := .player_pipe } }) = .ok (s2, b2) →
      quiet_step s s2 := by
    intro s2 b2 hw
    have h1 := player_wait_for_decoder_quiet hw
    refine quiet_step_trans (quiet_step_trans (player_dc_stop_quiet s) ?_) h1
    exact quiet_step_trans (quiet_step_of_trace_eq rfl)
      (quiet_step_emit _ (.dc_start_async (player_dc_stop s).pc.next_song) rfl)
  split at h
  · cases h
  · rename_i s2 heq
    cases h
    split at heq
    · exact hrestart _ _ heq
    · cases heq
  · rename_i s2 heq
    have h2 : quiet_step s s2 := by
      split at heq
      · exact hrestart _ _ heq
      · cases heq; exact quiet_step_of_trace_eq rfl
    split at h
    · cases h
    · rename_i s3 hfin
      cases h
      refine quiet_step_trans (quiet_step_trans h2 ?_) (player_command_finished_quiet hfin)
      refine quiet_step_trans (quiet_step_emit s2
        (.dc_seek (seek_position s2.pc.seek_where s2.pc.total_time)) rfl) ?_
      exact quiet_step_ite _ _ _ _ (quiet_step_of_trace_eq rfl) (quiet_step_refl _)

theorem player_process_command_quiet {env : Env} {s s1 : State}
    (h : player_process_command env s = .ok s1) : quiet_step s s1 := by
  unfold player_process_command at h
  split at h
  · cases h; exact quiet_step_refl _
  · cases h; exact quiet_step_refl _
  · cases h; exact quiet_step_refl _
  · cases h; exact quiet_step_refl _
  · cases h; exact quiet_step_refl _
  · -- QUEUE
    split at h
    · cases h
    · split at h
      · cases h
      · split at h
        · cases h
        · have h1 := player_command_finished_quiet h
          exact quiet_step_trans (quiet_step_of_trace_eq rfl) h1
  · -- PAUSE
    simp only at h
    split at h
    · have h1 := player_command_finished_quiet h
      exact quiet_step_trans (quiet_step_one .audio_output_all_pause rfl rfl) h1
    · split at h
      · have h1 := player_command_finished_quiet h
        exact quiet_step_trans (quiet_step_one (.audio_output_all_open none) rfl rfl) h1
      · split at h
        · have h1 := player_command_finished_quiet h
          exact quiet_step_trans (quiet_step_one (.audio_output_all_open none) rfl rfl) h1
        · cases h
  · -- SEEK
    split at h
    · cases h
    · rename_i s2 heq
      cases h
      exact quiet_step_trans (player_seek_decoder_quiet heq)
        (quiet_step_trans (quiet_step_of_trace_eq rfl)
          (quiet_step_emit _ .audio_output_all_cancel rfl))
    · rename_i s2 heq
      cases h
      exact player_seek_decoder_quiet heq
  · -- CANCEL
    split at h
    · cases h; exact quiet_step_of_trace_eq rfl
    · have h1 := player_command_finished_quiet h
      refine quiet_step_trans ?_ h1
      refine @quiet_step_trans _ (if s.dc.pipe ≠ .null ∧ s.dc.pipe ≠ .player_pipe then
          (player_dc_stop s).emit .dc_stop else s) _ ?_ (quiet_step_of_trace_eq rfl)
      exact quiet_step_ite _ _ _ _
        (quiet_step_trans (player_dc_stop_quiet s) (quiet_step_emit _ .dc_stop rfl))
        (quiet_step_refl _)

theorem decoder_push_trace (s : State) (c : music_chunk) :
    (decoder_push s c).trace = s.trace := by
  unfold decoder_push
  split <;> rfl

theorem foldl_decoder_push_trace (l : List music_chunk) (s : State) :
    (l.foldl decoder_push s).trace = s.trace := by
  induction l generalizing s with
  | nil => rfl
  | cons c rest ih => exact (ih (decoder_push s c)).trans (decoder_push_trace s c)

theorem interfere_trace (i : Interference) (s : State) : (interfere i s).trace = s.trace := by
  unfold interfere
  exact foldl_decoder_push_trace _ _

/-- C8: with the outputs reopening, PAUSE followed by PAUSE is an involution on
the playback state.  From a playing state the first PAUSE leads to `paused`
and state PAUSE and is acknowledged; the second one leads back to `paused`
false and state PLAY, and leaves the whole `player` record (pipe content and
order, buffer, `xfade`, `queued`, `buffering`), `dc` (with `dc.pipe`), the
cross-fade locals and every field of `pc` other than `command` (so
`next_song`, `elapsed_time`, `error`) exactly as they were: the next chunk to
play is the same. -/
theorem pause_pause_involution (env1 env2 : Env) (s : State)
    (hp : s.player.paused = false) (hst : s.pc.state = .PLAY)
    (hcmd : s.pc.command = .PAUSE) (hopen : env2.pause_open = true) :
    ∃ s1 s2, player_process_command env1 s = .ok s1 ∧
      s1.player.paused = true ∧ s1.pc.state = .PAUSE ∧ s1.pc.command = .NONE ∧
      player_process_command env2 (post_command .PAUSE s1) = .ok s2 ∧
      s2.player.paused = false ∧ s2.pc.state = .PLAY ∧
      s2.player = s.player ∧ s2.dc = s.dc ∧
      s2.pc = { s.pc with command := .NONE } ∧
      s2.crossFadeChunks = s.crossFadeChunks ∧ s2.cross_fading = s.cross_fading ∧
      s2.songs = s.songs ∧
      s2.player.pipe.head? = s.player.pipe.head? ∧
      s2.trace = s.trace ++ [.audio_output_all_pause, .notify_signal_main,
        .audio_output_all_open none, .notify_signal_main] := by
  obtain ⟨pc, dc, player, x, y, songs, trace⟩ := s
  obtain ⟨b1, b2, cmd, st, err, br, af, tt, et, ns, es, sw, cf, tp, sv⟩ := pc
  obtain ⟨buf, pipe, bu, ds, pa, qu, so, xf, paf, stt⟩ := player
  simp only at hp hst hcmd
  subst hp hst hcmd
  simp [player_process_command, player_command_finished, State.emit, post_command, hopen]

/-- Witness for `pause_pause_involution`: PAUSE twice while song 1 plays. -/
theorem pause_pause_involution_witness :
    pause_pending.player.paused = false ∧ pause_pending.pc.state = .PLAY ∧
    pause_pending.pc.command = .PAUSE ∧ demo_env.pause_open = true ∧
    ∃ s1 s2, player_process_command demo_env pause_pending = .ok s1 ∧
      s1.player.paused = true ∧ s1.pc.state = .PAUSE ∧ s1.pc.command = .NONE ∧
      player_process_command demo_env (post_command .PAUSE s1) = .ok s2 ∧
      s2.player.paused = false ∧ s2.pc.state = .PLAY ∧
      s2.player = pause_pending.player ∧ s2.dc = pause_pending.dc ∧
      s2.pc = { pause_pending.pc with command := .NONE } ∧
      s2.crossFadeChunks = pause_pending.crossFadeChunks ∧
      s2.cross_fading = pause_pending.cross_fading ∧
      s2.songs = pause_pending.songs ∧
      s2.player.pipe.head? = pause_pending.player.pipe.head? ∧
      s2.trace = pause_pending.trace ++ [.audio_output_all_pause, .notify_signal_main,
        .audio_output_all_open none, .notify_signal_main] :=
  ⟨rfl, rfl, rfl, rfl, pause_pause_involution demo_env demo_env pause_pending rfl rfl rfl rfl⟩

/-- C9: QUEUE followed by CANCEL while the song is still queued undoes the
queueing.  In a state in which QUEUE is accepted (`pc.next_song` set,
`queued` false, `dc.pipe` NULL or the player's pipe) QUEUE sets `queued` and
is acknowledged; the CANCEL that follows leaves `pc.next_song = NULL`,
`queued` false and `pc.command = NONE`; the only calls made are the two
acknowledgements, so `dc_start_async` is not called; `player.pipe`, `dc.pipe`
and the chunk buffer are unchanged. -/
theorem queue_cancel_undo (env1 env2 : Env) (s : State) (p : SongPtr)
    (hcmd : s.pc.command = .QUEUE) (hnext : s.pc.next_song = some p)
    (hq : s.player.queued = false)
    (hpipe : s.dc.pipe = .null ∨ s.dc.pipe = .player_pipe) :
    ∃ s1 s2 evs, player_process_command env1 s = .ok s1 ∧
      s1.player.queued = true ∧ s1.pc.next_song = some p ∧ s1.pc.command = .NONE ∧
      player_process_command env2 (post_command .CANCEL s1) = .ok s2 ∧
      s2.pc.next_song = none ∧ s2.player.queued = false ∧ s2.pc.command = .NONE ∧
      s2.player.pipe = s.player.pipe ∧ s2.dc.pipe = s.dc.pipe ∧
      s2.player.buffer = s.player.buffer ∧
      s2.trace = s.trace ++ evs ∧
      evs = [.notify_signal_main, .notify_signal_main] ∧
      (∀ q, Event.dc_start_async q ∉ evs) := by
  obtain ⟨pc, dc, player, x, y, songs, trace⟩ := s
  obtain ⟨b1, b2, cmd, st, err, br, af, tt, et, ns, es, sw, cf, tp, sv⟩ := pc
  obtain ⟨buf, pipe, bu, ds, pa, qu, so, xf, paf, stt⟩ := player
  obtain ⟨dpipe, dn, dcur, din, dout, dtt⟩ := dc
  simp only at hcmd hnext hq hpipe
  subst hcmd hnext hq
  rcases hpipe with h | h <;> subst h <;>
    simp [player_process_command, player_command_finished, State.emit, post_command]

/-- Witness for `queue_cancel_undo`: song 2 is queued behind song 1 and
cancelled again. -/
theorem queue_cancel_undo_witness :
    queue_pending.pc.command = .QUEUE ∧ queue_pending.pc.next_song = some 2 ∧
    queue_pending.player.queued = false ∧
    (queue_pending.dc.pipe = .null ∨ queue_pending.dc.pipe = .player_pipe) ∧
    ∃ s1 s2 evs, player_process_command demo_env queue_pending = .ok s1 ∧
      s1.player.queued = true ∧ s1.pc.next_song = some 2 ∧ s1.pc.command = .NONE ∧
      player_process_command demo_env (post_command .CANCEL s1) = .ok s2 ∧
      s2.pc.next_song = none ∧ s2.player.queued = false ∧ s2.pc.command = .NONE ∧
      s2.player.pipe = queue_pending.player.pipe ∧ s2.dc.pipe = queue_pending.dc.pipe ∧
      s2.player.buffer = queue_pending.player.buffer ∧
      s2.trace = queue_pending.trace ++ evs ∧
      evs = [.notify_signal_main, .notify_signal_main] ∧
      (∀ q, Event.dc_start_async q ∉ evs) :=
  ⟨rfl, rfl, rfl, Or.inr rfl,
    queue_cancel_undo demo_env demo_env queue_pending 2 rfl rfl rfl (Or.inr rfl)⟩

/-! ### A CANCEL that comes too late -/

theorem music_pipe_clear_free (p : List music_chunk) (b : music_buffer) :
    (music_pipe_clear p b).free = p.reverse ++ b.free := by
  unfold music_pipe_clear
  induction p generalizing b with
  | nil => rfl
  | cons c rest ih =>
    rw [List.foldl_cons, ih]
    simp [music_buffer_return]

/-- C10: a CANCEL that finds `pc.next_song == NULL` is turned into STOP.
Command dispatch rewrites `pc.command` to STOP and does nothing else (no
acknowledgement); the loop is left in that same pass, the only call being
`audio_output_all_cancel`, with both pipes untouched; the teardown then ends
with `pc.state = STOP`, `pc.next_song = NULL`, both pipes empty and every chunk
of `player.pipe` and of a distinct `dc.pipe` back in the free list of the
buffer.  The state satisfies `player.queued => pc.next_song != NULL`, as the
teardown asserts. -/
theorem cancel_too_late_becomes_stop (env : Env) (s : State)
    (hcmd : s.pc.command = .CANCEL) (hnext : s.pc.next_song = none)
    (hinv : s.player.queued = true → s.pc.next_song ≠ none) :
    player_process_command env s = .ok (post_command .STOP s) ∧
    ∃ s2 s3, do_play_iteration env s = .ok (s2, .break_loop) ∧
      s2.pc.command = .STOP ∧
      s2.trace = s.trace ++ [.audio_output_all_cancel] ∧
      s2.player.pipe = s.player.pipe ∧ s2.dc.pipe = s.dc.pipe ∧
      do_play_teardown s2 = .ok s3 ∧
      s3.pc.state = .STOP ∧ s3.pc.next_song = none ∧
      s3.player.pipe = [] ∧ dc_pipe_chunks s3.dc.pipe = [] ∧
      s3.player.buffer.free =
        s.player.pipe.reverse ++ ((dc_pipe_chunks s.dc.pipe).reverse ++ s.player.buffer.free) ∧
      (∀ c, c ∈ s.player.pipe ∨ c ∈ dc_pipe_chunks s.dc.pipe → c ∈ s3.player.buffer.free) ∧
      s3.trace = s.trace ++ [.audio_output_all_cancel, .dc_stop,
        .event_pipe_emit .PIPE_EVENT_PLAYLIST] := by
  have hq : s.player.queued = false := by
    cases h : s.player.queued
    · rfl
    · exact absurd hnext (hinv h)
  have hd : player_process_command env s = .ok (post_command .STOP s) := by
    unfold player_process_command
    rw [hcmd]
    simp [hnext, post_command]
  refine ⟨hd, ?_⟩
  have hit : do_play_iteration env s =
      .ok ((post_command .STOP s).emit .audio_output_all_cancel, .break_loop) := by
    unfold do_play_iteration
    rw [hd]
    simp [post_command]
  refine ⟨(post_command .STOP s).emit .audio_output_all_cancel, ?_⟩
  cases hpipe : s.dc.pipe with
  | null =>
    simp [hit, do_play_teardown, player_stop_decoder, State.emit, post_command, hq, hpipe,
      hnext, dc_pipe_chunks, music_pipe_clear_free]
    exact fun c hc => Or.inl hc
  | player_pipe =>
    simp [hit, do_play_teardown, player_stop_decoder, State.emit, post_command, hq, hpipe,
      hnext, dc_pipe_chunks, music_pipe_clear_free]
    exact fun c hc => Or.inl hc
  | other q =>
    simp [hit, do_play_teardown, player_stop_decoder, State.emit, post_command, hq, hpipe,
      hnext, dc_pipe_chunks, music_pipe_clear_free]
    intro c hc
    rcases hc with h | h
    · exact Or.inl h
    · exact Or.inr (Or.inl h)

/-- Witness for `cancel_too_late_becomes_stop`: the CANCEL for song 2 arrives
when the decoder is already decoding it into its own pipe. -/
theorem cancel_too_late_becomes_stop_witness :
    cancel_too_late.pc.command = .CANCEL ∧ cancel_too_late.pc.next_song = none ∧
    (cancel_too_late.player.queued = true → cancel_too_late.pc.next_song ≠ none) ∧
    (player_process_command demo_env cancel_too_late
      = .ok (post_command .STOP cancel_too_late) ∧
    ∃ s2 s3, do_play_iteration demo_env cancel_too_late = .ok (s2, .break_loop) ∧
      s2.pc.command = .STOP ∧
      s2.trace = cancel_too_late.trace ++ [.audio_output_all_cancel] ∧
      s2.player.pipe = cancel_too_late.player.pipe ∧ s2.dc.pipe = cancel_too_late.dc.pipe ∧
      do_play_teardown s2 = .ok s3 ∧
      s3.pc.state = .STOP ∧ s3.pc.next_song = none ∧
      s3.player.pipe = [] ∧ dc_pipe_chunks s3.dc.pipe = [] ∧
      s3.player.buffer.free =
        cancel_too_late.player.pipe.reverse ++
          ((dc_pipe_chunks cancel_too_late.dc.pipe).reverse ++
            cancel_too_late.player.buffer.free) ∧
      (∀ c, c ∈ cancel_too_late.player.pipe ∨ c ∈ dc_pipe_chunks cancel_too_late.dc.pipe →
        c ∈ s3.player.buffer.free) ∧
      s3.trace = cancel_too_late.trace ++ [.audio_output_all_cancel, .dc_stop,
        .event_pipe_emit .PIPE_EVENT_PLAYLIST]) :=
  ⟨rfl, rfl, (fun h => absurd h (by decide)),
    cancel_too_late_becomes_stop demo_env cancel_too_late rfl rfl
      (fun h => absurd h (by decide))⟩

/-! ### `play_chunk` -/

/-- C12: `play_chunk` accepts an empty chunk without touching volume or
output.  For a chunk with `length == 0` whose format matches (and, when the
chunk carries a tag, a song to attach it to) `play_chunk` returns true, makes
no `pcm_volume` and no `audio_output_all_play` call, leaves
`pc.total_play_time`, `pc.error` and `pc.errored_song` as they were, sets
`pc.elapsed_time` and `pc.bit_rate` from the chunk, and still broadcasts the
tag of the chunk and stores it in a song that is not a file. -/
theorem play_chunk_empty (env : Env) (song_ptr : Option SongPtr) (chunk : music_chunk)
    (format : audio_format) (sizeToTime : ℚ) (s : State)
    (hfmt : chunk.audio_format = format) (hlen : chunk.length = 0)
    (hsong : chunk.tag = none ∨ song_ptr ≠ none) :
    ∃ s1 evs, play_chunk env song_ptr chunk format sizeToTime s = .ok (s1, true) ∧
      s1.trace = s.trace ++ evs ∧
      (∀ n, Event.pcm_volume n ∉ evs) ∧ (∀ n, Event.audio_output_all_play n ∉ evs) ∧
      s1.pc.total_play_time = s.pc.total_play_time ∧
      s1.pc.error = s.pc.error ∧ s1.pc.errored_song = s.pc.errored_song ∧
      s1.pc.elapsed_time = chunk.times ∧ s1.pc.bit_rate = chunk.bit_rate ∧
      (∀ t, chunk.tag = some t → Event.audio_output_all_tag t ∈ evs ∧
        ∀ p, song_ptr = some p → (s.songs p).is_file = false →
          (s1.songs p).tag = some t) := by
  cases ht : chunk.tag with
  | none =>
    simp [play_chunk, music_chunk_check_format, hfmt, ht, hlen]
  | some t =>
    rcases hsong with h | h
    · rw [ht] at h; cases h
    · obtain ⟨p, hp⟩ := Option.ne_none_iff_exists'.mp h
      subst hp
      cases hf : (s.songs p).is_file with
      | true =>
        simp [play_chunk, music_chunk_check_format, hfmt, ht, hlen, State.emit, hf]
      | false =>
        simp [play_chunk, music_chunk_check_format, hfmt, ht, hlen, State.emit, hf]

/-- Witness for `play_chunk_empty`: an empty chunk with a tag on a stream. -/
theorem play_chunk_empty_witness :
    empty_tagged_chunk.audio_format = cd_format ∧ empty_tagged_chunk.length = 0 ∧
    (empty_tagged_chunk.tag = none ∨ (some 1 : Option SongPtr) ≠ none) ∧
    ∃ s1 evs, play_chunk demo_env (some 1) empty_tagged_chunk cd_format (1 / 176400)
        demo_streaming = .ok (s1, true) ∧
      s1.trace = demo_streaming.trace ++ evs ∧
      (∀ n, Event.pcm_volume n ∉ evs) ∧ (∀ n, Event.audio_output_all_play n ∉ evs) ∧
      s1.pc.total_play_time = demo_streaming.pc.total_play_time ∧
      s1.pc.error = demo_streaming.pc.error ∧
      s1.pc.errored_song = demo_streaming.pc.errored_song ∧
      s1.pc.elapsed_time = empty_tagged_chunk.times ∧
      s1.pc.bit_rate = empty_tagged_chunk.bit_rate ∧
      (∀ t, empty_tagged_chunk.tag = some t → Event.audio_output_all_tag t ∈ evs ∧
        ∀ p, (some 1 : Option SongPtr) = some p → (demo_streaming.songs p).is_file = false →
          (s1.songs p).tag = some t) :=
  ⟨rfl, rfl, Or.inr (by decide),
    play_chunk_empty demo_env (some 1) empty_tagged_chunk cd_format (1 / 176400)
      demo_streaming rfl rfl (Or.inr (by decide))⟩

/-- C13, as stated, fails: playing a full chunk of 4096 bytes after three
seconds of play time, with `sizeToTime` the `double` nearest to `1 / 176400`,
succeeds, but `pc.total_play_time` does not grow by exactly
`sizeToTime * chunk.length`: the sum is rounded to the nearest `double`,
`6807686130607075 / 2 ^ 51`, which is above the exact sum. -/
theorem total_play_time_counterexample :
    played_three.player.size_to_time = 6692696262570359 / 1180591620717411303424 ∧
    ∃ s1, play_chunk demo_env (some 1) full_chunk cd_format played_three.player.size_to_time
        played_three = .ok (s1, true) ∧
      s1.pc.total_play_time = demo_env.to_total_play_time (6807686130607075 / 2251799813685248) ∧
      s1.pc.total_play_time ≠
        played_three.pc.total_play_time
          + played_three.player.size_to_time * full_chunk.length ∧
      played_three.pc.total_play_time + played_three.player.size_to_time * full_chunk.length
        < s1.pc.total_play_time := by
  refine ⟨by decide!, _, rfl, by decide!, by decide!, by decide!⟩

/-- C13, amended: accounting and failure contract of `play_chunk` for a
non-empty chunk.  If `pcm_volume` and `audio_output_all_play` both succeed it
returns true, `pc.total_play_time` becomes the `double` sum of its old value
and the `double` product `sizeToTime * chunk.length`, converted to the type of
the field (so it grows by exactly `sizeToTime * chunk.length` when product, sum
and conversion are exact), and the error fields are unchanged.  If `pcm_volume`
fails it returns false with `pc.error = AUDIO` and
`pc.errored_song = dc.current_song`, and `audio_output_all_play` is not called.
If the output fails it returns false with `pc.error = AUDIO` and
`pc.errored_song = dc.current_song`.  In both failure cases
`pc.total_play_time` is unchanged. -/
theorem play_chunk_accounting (env : Env) (song_ptr : Option SongPtr) (chunk : music_chunk)
    (format : audio_format) (sizeToTime : ℚ) (s : State)
    (hfmt : chunk.audio_format = format) (hlen : chunk.length ≠ 0)
    (hsong : chunk.tag = none ∨ song_ptr ≠ none) :
    ∃ s1 b evs, play_chunk env song_ptr chunk format sizeToTime s = .ok (s1, b) ∧
      s1.trace = s.trace ++ evs ∧
      (env.pcm_volume = true → env.play = true →
        b = true ∧
        s1.pc.total_play_time = env.to_total_play_time
          (to_double (s.pc.total_play_time + to_double (sizeToTime * chunk.length))) ∧
        (to_double (sizeToTime * chunk.length) = sizeToTime * chunk.length →
          to_double (s.pc.total_play_time + sizeToTime * chunk.length)
            = s.pc.total_play_time + sizeToTime * chunk.length →
          env.to_total_play_time (s.pc.total_play_time + sizeToTime * chunk.length)
            = s.pc.total_play_time + sizeToTime * chunk.length →
          s1.pc.total_play_time = s.pc.total_play_time + sizeToTime * chunk.length) ∧
        s1.pc.error = s.pc.error ∧ s1.pc.errored_song = s.pc.errored_song) ∧
      (env.pcm_volume = false →
        b = false ∧ s1.pc.error = player_error.AUDIO ∧
        s1.pc.errored_song = s.dc.current_song ∧
        (∀ n, Event.audio_output_all_play n ∉ evs) ∧
        s1.pc.total_play_time = s.pc.total_play_time) ∧
      (env.pcm_volume = true → env.play = false →
        b = false ∧ s1.pc.error = player_error.AUDIO ∧
        s1.pc.errored_song = s.dc.current_song ∧
        Event.audio_output_all_play chunk.length ∈ evs ∧
        s1.pc.total_play_time = s.pc.total_play_time) := by
  have hexact : to_double (sizeToTime * chunk.length) = sizeToTime * chunk.length →
      to_double (s.pc.total_play_time + sizeToTime * chunk.length)
        = s.pc.total_play_time + sizeToTime * chunk.length →
      env.to_total_play_time (s.pc.total_play_time + sizeToTime * chunk.length)
        = s.pc.total_play_time + sizeToTime * chunk.length →
      env.to_total_play_time
          (to_double (s.pc.total_play_time + to_double (sizeToTime * chunk.length)))
        = s.pc.total_play_time + sizeToTime * chunk.length := by
    intro h1 h2 h3
    rw [h1, h2, h3]
  cases hv : env.pcm_volume <;> cases hp : env.play <;> cases ht : chunk.tag with
  | none =>
    simp [play_chunk, music_chunk_check_format, hfmt, ht, hlen, hv, hp, State.emit]
    try exact hexact
  | some t =>
    rcases hsong with h | h
    · rw [ht] at h; cases h
    · obtain ⟨p, hq⟩ := Option.ne_none_iff_exists'.mp h
      subst hq
      cases hf : (s.songs p).is_file <;>
        simp [play_chunk, music_chunk_check_format, hfmt, ht, hlen, hv, hp, State.emit, hf] <;>
        try exact hexact

/-- Witness for `play_chunk_accounting`: the first full chunk of song 1, with
`sizeToTime` the `double` nearest to `1 / 176400`; here product and sum are
exact. -/
theorem play_chunk_accounting_witness :
    full_chunk.audio_format = cd_format ∧ full_chunk.length ≠ 0 ∧
    (full_chunk.tag = none ∨ (some 1 : Option SongPtr) ≠ none) ∧
    ∃ s1 b evs, play_chunk demo_env (some 1) full_chunk cd_format
        demo_playing.player.size_to_time demo_playing = .ok (s1, b) ∧
      s1.trace = demo_playing.trace ++ evs ∧
      (demo_env.pcm_volume = true → demo_env.play = true →
        b = true ∧
        s1.pc.total_play_time = demo_env.to_total_play_time
          (to_double (demo_playing.pc.total_play_time
            + to_double (demo_playing.player.size_to_time * full_chunk.length))) ∧
        (to_double (demo_playing.player.size_to_time * full_chunk.length)
            = demo_playing.player.size_to_time * full_chunk.length →
          to_double (demo_playing.pc.total_play_time
              + demo_playing.player.size_to_time * full_chunk.length)
            = demo_playing.pc.total_play_time
              + demo_playing.player.size_to_time * full_chunk.length →
          demo_env.to_total_play_time (demo_playing.pc.total_play_time
              + demo_playing.player.size_to_time * full_chunk.length)
            = demo_playing.pc.total_play_time
              + demo_playing.player.size_to_time * full_chunk.length →
          s1.pc.total_play_time = demo_playing.pc.total_play_time
            + demo_playing.player.size_to_time * full_chunk.length) ∧
        s1.pc.error = demo_playing.pc.error ∧
        s1.pc.errored_song = demo_playing.pc.errored_song) ∧
      (demo_env.pcm_volume = false →
        b = false ∧ s1.pc.error = player_error.AUDIO ∧
        s1.pc.errored_song = demo_playing.dc.current_song ∧
        (∀ n, Event.audio_output_all_play n ∉ evs) ∧
        s1.pc.total_play_time = demo_playing.pc.total_play_time) ∧
      (demo_env.pcm_volume = true → demo_env.play = false →
        b = false ∧ s1.pc.error = player_error.AUDIO ∧
        s1.pc.errored_song = demo_playing.dc.current_song ∧
        Event.audio_output_all_play full_chunk.length ∈ evs ∧
        s1.pc.total_play_time = demo_playing.pc.total_play_time) :=
  ⟨rfl, by decide, Or.inl rfl,
    play_chunk_accounting demo_env (some 1) full_chunk cd_format
      demo_playing.player.size_to_time demo_playing rfl (by decide) (Or.inl rfl)⟩

/-- The values of the witness of `play_chunk_accounting`: the play time of the
first full chunk is `4096 * sizeToTime`, about 23.2 ms, without rounding. -/
theorem first_chunk_play_time :
    to_double (demo_playing.pc.total_play_time
        + to_double (demo_playing.player.size_to_time * full_chunk.length))
      = 6692696262570359 / 288230376151711744 ∧
    demo_playing.pc.total_play_time + demo_playing.player.size_to_time * full_chunk.length
      = 6692696262570359 / 288230376151711744 := by
  constructor <;> decide!

/-- C14: tag propagation in `play_chunk`.  The calls of one `play_chunk` are the
tag calls followed by the data calls (`pcm_volume`, `audio_output_all_play`).
Without a tag in the chunk there is no tag call and no song changes; with a tag
and a file song the tag is broadcast only and no song changes; with a tag and
a song that is not a file the tag is broadcast, exactly one TAG event and one
IDLE_PLAYER flag follow, and the tag of that song, and of no other, becomes
the chunk's tag. -/
theorem play_chunk_tag_propagation (env : Env) (p : SongPtr) (chunk : music_chunk)
    (format : audio_format) (sizeToTime : ℚ) (s : State)
    (hfmt : chunk.audio_format = format) :
    ∃ s1 b tags data, play_chunk env (some p) chunk format sizeToTime s = .ok (s1, b) ∧
      s1.trace = s.trace ++ (tags ++ data) ∧
      (∀ e ∈ data, e = .pcm_volume chunk.length ∨ e = .audio_output_all_play chunk.length) ∧
      (∀ q, q ≠ p → s1.songs q = s.songs q) ∧
      (chunk.tag = none → tags = [] ∧ s1.songs = s.songs) ∧
      (∀ t, chunk.tag = some t → (s.songs p).is_file = true →
        tags = [.audio_output_all_tag t] ∧ s1.songs = s.songs) ∧
      (∀ t, chunk.tag = some t → (s.songs p).is_file = false →
        tags = [.audio_output_all_tag t, .event_pipe_emit .PIPE_EVENT_TAG,
          .idle_add_player] ∧
        s1.songs p = { s.songs p with tag := some t }) := by
  have hdata : ∀ e ∈ (if chunk.length = 0 then ([] : List Event)
      else if env.pcm_volume = true then
        [.pcm_volume chunk.length, .audio_output_all_play chunk.length]
      else [.pcm_volume chunk.length]),
      e = .pcm_volume chunk.length ∨ e = .audio_output_all_play chunk.length := by
    intro e he
    split at he
    · cases he
    · split at he
      · simpa using he
      · simp at he
        exact Or.inl he
  cases ht : chunk.tag with
  | none =>
    have h : ∃ s1 b, play_chunk env (some p) chunk format sizeToTime s = .ok (s1, b) ∧
        s1.trace = s.trace ++ ([] ++ (if chunk.length = 0 then ([] : List Event)
          else if env.pcm_volume = true then
            [.pcm_volume chunk.length, .audio_output_all_play chunk.length]
          else [.pcm_volume chunk.length])) ∧
        s1.songs = s.songs := by
      by_cases hl : chunk.length = 0 <;> cases hv : env.pcm_volume <;> cases hp : env.play <;>
        simp [play_chunk, music_chunk_check_format, hfmt, ht, hl, hv, hp, State.emit]
    obtain ⟨s1, b, h1, h2, h3⟩ := h
    refine ⟨s1, b, [], _, h1, h2, hdata, fun q _ => by rw [h3], fun _ => ⟨rfl, h3⟩, ?_, ?_⟩
    · intro t h; cases h
    · intro t h; cases h
  | some t =>
    cases hf : (s.songs p).is_file with
    | true =>
      have h : ∃ s1 b, play_chunk env (some p) chunk format sizeToTime s = .ok (s1, b) ∧
          s1.trace = s.trace ++ ([.audio_output_all_tag t] ++
            (if chunk.length = 0 then ([] : List Event)
            else if env.pcm_volume = true then
              [.pcm_volume chunk.length, .audio_output_all_play chunk.length]
            else [.pcm_volume chunk.length])) ∧
          s1.songs = s.songs := by
        by_cases hl : chunk.length = 0 <;> cases hv : env.pcm_volume <;>
          cases hp : env.play <;>
          simp [play_chunk, music_chunk_check_format, hfmt, ht, hl, hv, hp, State.emit, hf]
      obtain ⟨s1, b, h1, h2, h3⟩ := h
      refine ⟨s1, b, [.audio_output_all_tag t], _, h1, h2, hdata, fun q _ => by rw [h3],
        ?_, ?_, ?_⟩
      · intro h; cases h
      · intro t2 h _
        cases h
        exact ⟨rfl, h3⟩
      · intro t2 _ h; cases h
    | false =>
      have h : ∃ s1 b, play_chunk env (some p) chunk format sizeToTime s = .ok (s1, b) ∧
          s1.trace = s.trace ++ ([.audio_output_all_tag t,
              .event_pipe_emit .PIPE_EVENT_TAG, .idle_add_player] ++
            (if chunk.length = 0 then ([] : List Event)
            else if env.pcm_volume = true then
              [.pcm_volume chunk.length, .audio_output_all_play chunk.length]
            else [.pcm_volume chunk.length])) ∧
          s1.songs = fun q => if q = p then { s.songs p with tag := some t } else s.songs q := by
        by_cases hl : chunk.length = 0 <;> cases hv : env.pcm_volume <;>
          cases hp : env.play <;>
          simp [play_chunk, music_chunk_check_format, hfmt, ht, hl, hv, hp, State.emit, hf]
      obtain ⟨s1, b, h1, h2, h3⟩ := h
      refine ⟨s1, b, [.audio_output_all_tag t, .event_pipe_emit .PIPE_EVENT_TAG,
        .idle_add_player], _, h1, h2, hdata, ?_, ?_, ?_, ?_⟩
      · intro q hq
        rw [h3]
        simp [hq]
      · intro h; cases h
      · intro t2 _ h; cases h
      · intro t2 h _
        cases h
        refine ⟨rfl, ?_⟩
        rw [h3]
        simp

/-- Witness for `play_chunk_tag_propagation`: a chunk with a new tag on the
stream behind song 1. -/
theorem play_chunk_tag_propagation_witness :
    tagged_chunk.audio_format = cd_format ∧
    ∃ s1 b tags data, play_chunk demo_env (some 1) tagged_chunk cd_format (1 / 176400)
        demo_streaming = .ok (s1, b) ∧
      s1.trace = demo_streaming.trace ++ (tags ++ data) ∧
      (∀ e ∈ data, e = .pcm_volume tagged_chunk.length ∨
        e = .audio_output_all_play tagged_chunk.length) ∧
      (∀ q, q ≠ 1 → s1.songs q = demo_streaming.songs q) ∧
      (tagged_chunk.tag = none → tags = [] ∧ s1.songs = demo_streaming.songs) ∧
      (∀ t, tagged_chunk.tag = some t → (demo_streaming.songs 1).is_file = true →
        tags = [.audio_output_all_tag t] ∧ s1.songs = demo_streaming.songs) ∧
      (∀ t, tagged_chunk.tag = some t → (demo_streaming.songs 1).is_file = false →
        tags = [.audio_output_all_tag t, .event_pipe_emit .PIPE_EVENT_TAG,
          .idle_add_player] ∧
        s1.songs 1 = { demo_streaming.songs 1 with tag := some t }) :=
  ⟨rfl, play_chunk_tag_propagation demo_env 1 tagged_chunk cd_format (1 / 176400)
    demo_streaming rfl⟩

/-! ### `player_wait_for_decoder` -/

/-- C15, as stated, fails: at a song boundary `player.buffering` is false before
the successful `player_wait_for_decoder` and false after it, both for the call
itself and for the output step of `do_play` that makes it. -/
theorem wait_for_decoder_buffering_counterexample :
    song_boundary.pc.next_song = some 2 ∧
    (∃ s1, player_wait_for_decoder false song_boundary = .ok (s1, true) ∧
      s1.player.buffering = false) ∧
    (∃ s1, do_play_output demo_env song_boundary = .ok (s1, .continue_loop) ∧
      s1.player.song = some 2 ∧ s1.player.decoder_starting = true ∧
      s1.player.buffering = false) :=
  ⟨rfl, ⟨_, rfl, rfl⟩, ⟨_, rfl, rfl, rfl, rfl⟩⟩

/-- C15, amended: for every state with `pc.next_song = s != NULL` and a decoder
that has not failed, `player_wait_for_decoder` returns true with
`pc.total_time` the tag time of `s` (0 without a tag), `pc.bit_rate = 0`,
`pc.audio_format` cleared, `player.song = s`, `pc.next_song = NULL`,
`pc.elapsed_time = 0`, `player.queued` false, `player.decoder_starting` true,
`player.buffering` left as it was, and exactly the calls `dc_command_wait` and
one PLAYLIST event; `buffering` is true at the initial start because `do_play`
initialises it so. -/
theorem player_wait_for_decoder_success (s : State) (p : SongPtr)
    (hnext : s.pc.next_song = some p) :
    (∃ s1, player_wait_for_decoder false s = .ok (s1, true) ∧
      s1.pc.total_time = song_total_time s p ∧
      s1.pc.bit_rate = 0 ∧
      s1.pc.audio_format = audio_format.cleared ∧
      s1.player.song = some p ∧
      s1.pc.next_song = none ∧
      s1.pc.elapsed_time = 0 ∧
      s1.player.queued = false ∧
      s1.player.decoder_starting = true ∧
      s1.player.buffering = s.player.buffering ∧
      s1.trace = s.trace ++ [.dc_command_wait, .event_pipe_emit .PIPE_EVENT_PLAYLIST]) ∧
    (∀ s0 t, do_play_init false s0 = .ok (t, true) →
      t.player.buffering = true ∧ t.player.decoder_starting = true) := by
  constructor
  · simp [player_wait_for_decoder, hnext, State.emit, song_total_time]
  · intro s0 t h
    unfold do_play_init at h
    simp only at h
    split at h
    · cases h
    · split at h
      · cases h
      · cases h
    · rename_i s2 hw
      have h2 : s2.player.buffering = true ∧ s2.player.decoder_starting = true := by
        unfold player_wait_for_decoder at hw
        simp only [Bool.false_eq_true, if_false] at hw
        split at hw
        · cases hw
        · cases hw
          exact ⟨rfl, rfl⟩
      split at h
      · cases h
      · rename_i s3 hf
        cases h
        unfold player_command_finished at hf
        split at hf
        · cases hf
        · cases hf
          exact h2

/-- Witness for `player_wait_for_decoder_success`: the wait at the boundary
between song 1 and song 2. -/
theorem player_wait_for_decoder_success_witness :
    song_boundary.pc.next_song = some 2 ∧
    ((∃ s1, player_wait_for_decoder false song_boundary = .ok (s1, true) ∧
      s1.pc.total_time = song_total_time song_boundary 2 ∧
      s1.pc.bit_rate = 0 ∧
      s1.pc.audio_format = audio_format.cleared ∧
      s1.player.song = some 2 ∧
      s1.pc.next_song = none ∧
      s1.pc.elapsed_time = 0 ∧
      s1.player.queued = false ∧
      s1.player.decoder_starting = true ∧
      s1.player.buffering = song_boundary.player.buffering ∧
      s1.trace = song_boundary.trace ++
        [.dc_command_wait, .event_pipe_emit .PIPE_EVENT_PLAYLIST]) ∧
    (∀ s0 t, do_play_init false s0 = .ok (t, true) →
      t.player.buffering = true ∧ t.player.decoder_starting = true)) :=
  ⟨rfl, player_wait_for_decoder_success song_boundary 2 rfl⟩

/-! ### The output step: silence -/

/-- C16: the silence submitted while waiting for the decoder is a whole number
of frames.  When the output step reaches its last branch (not paused, pipe
empty, no separate decoder pipe, decoder not idle) with a frame size `f` of
the play format such that `0 < f <= CHUNK_SIZE`, the only call is
`audio_output_all_play` with length `(CHUNK_SIZE / f) * f`; this length is a
positive multiple of `f`, at most `CHUNK_SIZE` and greater than
`CHUNK_SIZE - f`. -/
theorem silence_whole_frames (env : Env) (s : State)
    (hp : s.player.paused = false) (hempty : s.player.pipe = [])
    (hpipe : s.dc.pipe = .null ∨ s.dc.pipe = .player_pipe)
    (hrun : env.end_is_idle = false)
    (hf0 : 0 < env.audio_format_frame_size s.player.play_audio_format)
    (hf1 : env.audio_format_frame_size s.player.play_audio_format ≤ CHUNK_SIZE) :
    ∃ n, do_play_output env s =
        .ok (s.emit (.audio_output_all_play n),
          if env.play then .continue_loop else .break_loop) ∧
      n = CHUNK_SIZE / env.audio_format_frame_size s.player.play_audio_format
        * env.audio_format_frame_size s.player.play_audio_format ∧
      env.audio_format_frame_size s.player.play_audio_format ∣ n ∧
      0 < n ∧ n ≤ CHUNK_SIZE ∧
      CHUNK_SIZE - env.audio_format_frame_size s.player.play_audio_format < n := by
  refine ⟨_, ?_, rfl, Nat.dvd_mul_left _ _, ?_, Nat.div_mul_le_self _ _, ?_⟩
  · have hne : env.audio_format_frame_size s.player.play_audio_format ≠ 0 :=
      Nat.pos_iff_ne_zero.mp hf0
    unfold do_play_output
    rcases hpipe with h | h <;>
      simp [hp, hempty, music_pipe_size, h, hrun, hne]
  · exact Nat.mul_pos (Nat.div_pos hf1 hf0) hf0
  · have h := Nat.lt_div_mul_add (a := CHUNK_SIZE) hf0
    omega

/-- Witness for `silence_whole_frames`: 16 bit stereo, frame size 4. -/
theorem silence_whole_frames_witness :
    pipe_empty.player.paused = false ∧ pipe_empty.player.pipe = [] ∧
    (pipe_empty.dc.pipe = .null ∨ pipe_empty.dc.pipe = .player_pipe) ∧
    demo_env.end_is_idle = false ∧
    0 < demo_env.audio_format_frame_size pipe_empty.player.play_audio_format ∧
    demo_env.audio_format_frame_size pipe_empty.player.play_audio_format ≤ CHUNK_SIZE ∧
    ∃ n, do_play_output demo_env pipe_empty =
        .ok (pipe_empty.emit (.audio_output_all_play n),
          if demo_env.play then .continue_loop else .break_loop) ∧
      n = CHUNK_SIZE / demo_env.audio_format_frame_size pipe_empty.player.play_audio_format
        * demo_env.audio_format_frame_size pipe_empty.player.play_audio_format ∧
      demo_env.audio_format_frame_size pipe_empty.player.play_audio_format ∣ n ∧
      0 < n ∧ n ≤ CHUNK_SIZE ∧
      CHUNK_SIZE - demo_env.audio_format_frame_size pipe_empty.player.play_audio_format < n :=
  ⟨rfl, rfl, Or.inr rfl, rfl, by decide, by decide,
    silence_whole_frames demo_env pipe_empty rfl rfl (Or.inr rfl) rfl (by decide)
      (by decide)⟩

/-! ### The refill rule -/

/-! ### Calls and play format along a pass -/

theorem pass_step_refl (s : State) : pass_step s s :=
  ⟨[], by simp, by simp, Or.inr ⟨⟨rfl, rfl, rfl⟩, by simp⟩⟩

theorem pass_step_trans {s s1 s2 : State} (h1 : pass_step s s1) (h2 : pass_step s1 s2) :
    pass_step s s2 := by
  obtain ⟨e1, ht1, ha1, hf1⟩ := h1
  obtain ⟨e2, ht2, ha2, hf2⟩ := h2
  refine ⟨e1 ++ e2, by rw [ht2, ht1, List.append_assoc], ?_, ?_⟩
  · intro e he
    rcases List.mem_append.mp he with h | h
    · exact ha1 e h
    · exact ha2 e h
  · rcases hf2 with hd | ⟨hs2, hm2⟩
    · exact Or.inl hd
    · rcases hf1 with hd | ⟨hs1, hm1⟩
      · exact Or.inl (hs2.1.trans hd)
      · refine Or.inr ⟨⟨hs2.1.trans hs1.1, hs2.2.1.trans hs1.2.1, hs2.2.2.trans hs1.2.2⟩, ?_⟩
        intro e he
        rcases List.mem_append.mp he with h | h
        · exact hm1 e h
        · exact hm2 e h

theorem pass_step_of_eq {s s1 : State} (ht : s1.trace = s.trace) (hf : same_format s s1) :
    pass_step s s1 :=
  ⟨[], by simp [ht], by simp, Or.inr ⟨hf, by simp⟩⟩

theorem pass_step_one {s s1 : State} (e : Event) (ha : apply_in_range e = true)
    (hm : is_format_marker e = false) (ht : s1.trace = s.trace ++ [e])
    (hf : same_format s s1) : pass_step s s1 :=
  ⟨[e], ht, by simpa using ha, Or.inr ⟨hf, by simpa using hm⟩⟩

theorem pass_step_ite (s a b : State) (c : Prop) [Decidable c]
    (ha : pass_step s a) (hb : pass_step s b) : pass_step s (if c then a else b) := by
  split
  · exact ha
  · exact hb

@[simp] theorem player_dc_stop_decoder_starting (s : State) :
    (player_dc_stop s).player.decoder_starting = s.player.decoder_starting := by
  unfold player_dc_stop; simp only [State.emit]; split <;> rfl

@[simp] theorem player_dc_stop_play_audio_format (s : State) :
    (player_dc_stop s).player.play_audio_format = s.player.play_audio_format := by
  unfold player_dc_stop; simp only [State.emit]; split <;> rfl

@[simp] theorem player_dc_stop_size_to_time (s : State) :
    (player_dc_stop s).player.size_to_time = s.player.size_to_time := by
  unfold player_dc_stop; simp only [State.emit]; split <;> rfl

theorem player_dc_stop_pass_step (s : State) : pass_step s (player_dc_stop s) :=
  pass_step_one .dc_stop rfl rfl (by simp) ⟨by simp, by simp, by simp⟩

theorem player_command_finished_pass_step {s s1 : State}
    (h : player_command_finished s = .ok s1) : pass_step s s1 := by
  unfold player_command_finished at h
  split at h
  · cases h
  · cases h; exact pass_step_one .notify_signal_main rfl rfl rfl ⟨rfl, rfl, rfl⟩

theorem player_wait_for_decoder_pass_step {failed : Bool} {s s1 : State} {b : Bool}
    (h : player_wait_for_decoder failed s = .ok (s1, b)) : pass_step s s1 := by
  unfold player_wait_for_decoder at h
  simp only at h
  split at h
  · split at h
    · cases h
      exact pass_step_one .dc_command_wait rfl rfl rfl ⟨rfl, rfl, rfl⟩
    · cases h
  · split at h
    · cases h
    · cases h
      exact ⟨[.dc_command_wait, .event_pipe_emit .PIPE_EVENT_PLAYLIST],
        by simp [State.emit], by simp [apply_in_range], Or.inl rfl⟩

theorem player_seek_decoder_pass_step {env : Env} {s s1 : State} {b : Bool}
    (h : player_seek_decoder env s = .ok (s1, b)) : pass_step s s1 := by
  unfold player_seek_decoder at h
  simp only at h
  have hrestart : ∀ s2 b2,
      player_wait_for_decoder env.seek_has_failed
        (dc_start_async (player_dc_stop s).pc.next_song
          { player_dc_stop s with
            player := { (player_dc_stop s).player with
              buffer := music_pipe_clear (player_dc_stop s).player.pipe
                (player_dc_stop s).player.buffer, pipe := [] }
            dc := { (player_dc_stop s).dc with pipe := .player_pipe } }) = .ok (s2, b2) →
      pass_step s s2 := by
    intro s2 b2 hw
    have h1 := player_wait_for_decoder_pass_step hw
    refine pass_step_trans (pass_step_trans (player_dc_stop_pass_step s) ?_) h1
    exact pass_step_one (.dc_start_async (player_dc_stop s).pc.next_song) rfl rfl rfl
      ⟨rfl, rfl, rfl⟩
  split at h
  · cases h
  · rename_i s2 heq
    cases h
    split at heq
    · exact hrestart _ _ heq
    · cases heq
  · rename_i s2 heq
    have h2 : pass_step s s2 := by
      split at heq
      · exact hrestart _ _ heq
      · cases heq; exact pass_step_of_eq rfl ⟨rfl, rfl, rfl⟩
    split at h
    · cases h
    · rename_i s3 hfin
      cases h
      have h3 := player_command_finished_pass_step hfin
      have hseek : pass_step s2
          (s2.emit (.dc_seek (seek_position s2.pc.seek_where s2.pc.total_time))) :=
        pass_step_one (.dc_seek (seek_position s2.pc.seek_where s2.pc.total_time)) rfl rfl
          rfl ⟨rfl, rfl, rfl⟩
      refine pass_step_trans (pass_step_trans h2 (pass_step_trans hseek ?_)) h3
      exact pass_step_ite _ _ _ _ (pass_step_of_eq rfl ⟨rfl, rfl, rfl⟩) (pass_step_refl _)

theorem player_process_command_pass_step {env : Env} {s s1 : State}
    (h : player_process_command env s = .ok s1) : pass_step s s1 := by
  unfold player_process_command at h
  split at h
  · cases h; exact pass_step_refl _
  · cases h; exact pass_step_refl _
  · cases h; exact pass_step_refl _
  · cases h; exact pass_step_refl _
  · cases h; exact pass_step_refl _
  · -- QUEUE
    split at h
    · cases h
    · split at h
      · cases h
      · split at h
        · cases h
        · have h1 := player_command_finished_pass_step h
          refine pass_step_trans ?_ h1
          exact pass_step_of_eq rfl ⟨rfl, rfl, rfl⟩
  · -- PAUSE
    simp only at h
    split at h
    · have h1 := player_command_finished_pass_step h
      refine pass_step_trans ?_ h1
      exact pass_step_one .audio_output_all_pause rfl rfl rfl ⟨rfl, rfl, rfl⟩
    · split at h
      · have h1 := player_command_finished_pass_step h
        refine pass_step_trans ?_ h1
        exact pass_step_one (.audio_output_all_open none) rfl rfl rfl ⟨rfl, rfl, rfl⟩
      · split at h
        · have h1 := player_command_finished_pass_step h
          refine pass_step_trans ?_ h1
          exact pass_step_one (.audio_output_all_open none) rfl rfl rfl ⟨rfl, rfl, rfl⟩
        · cases h
  · -- SEEK
    split at h
    · cases h
    · rename_i s2 heq
      cases h
      have h1 := player_seek_decoder_pass_step heq
      exact pass_step_trans h1
        (pass_step_one .audio_output_all_cancel rfl rfl rfl ⟨rfl, rfl, rfl⟩)
    · rename_i s2 heq
      cases h
      exact player_seek_decoder_pass_step heq
  · -- CANCEL
    split at h
    · cases h; exact pass_step_of_eq rfl ⟨rfl, rfl, rfl⟩
    · have h1 := player_command_finished_pass_step h
      refine pass_step_trans ?_ h1
      refine @pass_step_trans _ (if s.dc.pipe ≠ .null ∧ s.dc.pipe ≠ .player_pipe then
          (player_dc_stop s).emit .dc_stop else s) _ ?_ (pass_step_of_eq rfl ⟨rfl, rfl, rfl⟩)
      refine pass_step_ite _ _ _ _ ?_ (pass_step_refl _)
      exact pass_step_trans (player_dc_stop_pass_step s)
        (pass_step_one .dc_stop rfl rfl rfl ⟨rfl, rfl, rfl⟩)

theorem do_play_queue_handoff_pass_step {env : Env} {s s1 : State}
    (h : do_play_queue_handoff env s = .ok s1) : pass_step s s1 := by
  unfold do_play_queue_handoff at h
  split at h
  · split at h
    · cases h
    · split at h
      · cases h
      · cases h
        exact pass_step_one (.dc_start_async s.pc.next_song) rfl rfl rfl ⟨rfl, rfl, rfl⟩
  · cases h; exact pass_step_refl _

theorem do_play_xfade_decision_pass_step (env : Env) (s : State) :
    pass_step s (do_play_xfade_decision env s) := by
  unfold do_play_xfade_decision
  split
  · simp only
    split
    · exact pass_step_of_eq rfl ⟨rfl, rfl, rfl⟩
    · exact pass_step_of_eq rfl ⟨rfl, rfl, rfl⟩
  · exact pass_step_refl _

theorem play_chunk_pass_step {env : Env} {song_ptr : Option SongPtr} {chunk : music_chunk}
    {format : audio_format} {sizeToTime : ℚ} {s s1 : State} {b : Bool}
    (h : play_chunk env song_ptr chunk format sizeToTime s = .ok (s1, b)) :
    pass_step s s1 := by
  unfold play_chunk at h
  simp only at h
  split at h
  · cases h
  · split at h
    · cases h
    · rename_i s2 heq
      have h2 : pass_step s s2 := by
        split at heq
        · cases heq; exact pass_step_of_eq rfl ⟨rfl, rfl, rfl⟩
        · rename_i t ht
          split at heq
          · cases heq
          · split at heq
            · cases heq
              exact pass_step_one (.audio_output_all_tag t) rfl rfl rfl ⟨rfl, rfl, rfl⟩
            · cases heq
              exact ⟨[.audio_output_all_tag t, .event_pipe_emit .PIPE_EVENT_TAG,
                .idle_add_player], by simp [State.emit], by simp [apply_in_range],
                Or.inr ⟨⟨rfl, rfl, rfl⟩, by simp [is_format_marker]⟩⟩
      split at h
      · cases h; exact h2
      · split at h
        · cases h
          exact pass_step_trans h2
            (pass_step_one (.pcm_volume chunk.length) rfl rfl rfl ⟨rfl, rfl, rfl⟩)
        · split at h
          · cases h
            exact pass_step_trans h2 ⟨[.pcm_volume chunk.length,
              .audio_output_all_play chunk.length], by simp [State.emit],
              by simp [apply_in_range], Or.inr ⟨⟨rfl, rfl, rfl⟩, by simp [is_format_marker]⟩⟩
          · cases h
            exact pass_step_trans h2 ⟨[.pcm_volume chunk.length,
              .audio_output_all_play chunk.length], by simp [State.emit],
              by simp [apply_in_range], Or.inr ⟨⟨rfl, rfl, rfl⟩, by simp [is_format_marker]⟩⟩

theorem do_play_refill_pass_step {env : Env} {s s1 : State}
    (h : do_play_refill env s = .ok s1) : pass_step s s1 := by
  unfold do_play_refill at h
  split at h
  · cases h; exact pass_step_refl _
  · split at h
    · cases h
    · split at h
      · cases h; exact pass_step_one .notify_signal_dc rfl rfl rfl ⟨rfl, rfl, rfl⟩
      · cases h; exact pass_step_refl _

/-! ### The cross-fade block, case by case -/

/-- The four ways through the cross-fade block of `do_play`: not entered;
entered without a chunk of the next song and the decoder idle (cross-fading
is switched off); entered without such a chunk and the decoder running (signal,
wait, `continue`); entered with a chunk of the next song, which is mixed into
the oldest chunk of the player's pipe. -/
theorem do_play_cross_fade_inv {env : Env} {s s1 : State} {r : Option (Option music_chunk)}
    (h : do_play_cross_fade env s = .ok (s1, r)) :
    (r = some none ∧ s1 = s ∧
      ¬ (s.player.xfade = .XFADE_ENABLED ∧ (∃ q, s.dc.pipe = .other q) ∧
        music_pipe_size s.player.pipe ≤ s.crossFadeChunks)) ∨
    (s.player.xfade = .XFADE_ENABLED ∧
      music_pipe_size s.player.pipe ≤ s.crossFadeChunks ∧
      ((s.dc.pipe = .other [] ∧ env.underrun_is_idle = true ∧ r = some none ∧
          s1 = { s with
            trace := s.trace ++ [.music_pipe_shift .dc_pipe]
            crossFadeChunks := cross_fade_total s
            cross_fading := true
            player := { s.player with xfade := .XFADE_DISABLED } }) ∨
        (s.dc.pipe = .other [] ∧ env.underrun_is_idle = false ∧ r = none ∧
          s1 = { s with
            trace := s.trace ++ [.music_pipe_shift .dc_pipe, .notify_signal_dc,
              .notify_wait_pc]
            crossFadeChunks := cross_fade_total s
            cross_fading := true }) ∨
        (∃ oc qrest c rest, s.dc.pipe = .other (oc :: qrest) ∧ s.player.pipe = c :: rest ∧
          r = some (some { c with
            length := env.cross_fade_length c oc (music_pipe_size s.player.pipe)
              (cross_fade_total s) }) ∧
          s1 = { s with
            trace := s.trace ++ [.music_pipe_shift .dc_pipe, .music_pipe_shift .player_pipe,
              .cross_fade_apply (music_pipe_size s.player.pipe) (cross_fade_total s)]
            crossFadeChunks := cross_fade_total s
            cross_fading := true
            dc := { s.dc with pipe := .other qrest }
            player := { s.player with
              pipe := rest, buffer := music_buffer_return s.player.buffer oc } }))) := by
  obtain ⟨pc, dc, player, cfc, cf, songs, trace⟩ := s
  obtain ⟨dpipe, dn, dcur, din, dout, dtt⟩ := dc
  obtain ⟨buf, pipe, bu, ds, pa, qu, so, xf, paf, stt⟩ := player
  cases xf <;> cases dpipe <;>
    try (simp [do_play_cross_fade] at h; obtain ⟨rfl, rfl⟩ := h; simp)
  rename_i q
  by_cases hle : music_pipe_size pipe ≤ cfc
  · cases q with
    | nil =>
      cases hidle : env.underrun_is_idle <;> cases cf <;>
        simp [do_play_cross_fade, hle, music_pipe_shift, State.emit, hidle,
          cross_fade_total] at h ⊢ <;>
        obtain ⟨rfl, rfl⟩ := h <;> simp
    | cons oc qrest =>
      cases pipe with
      | nil => cases cf <;> simp [do_play_cross_fade, hle, music_pipe_shift, State.emit] at h
      | cons c rest =>
        cases cf <;>
          simp [do_play_cross_fade, hle, music_pipe_shift, State.emit,
            cross_fade_total] at h ⊢ <;>
          obtain ⟨rfl, rfl⟩ := h <;> simp [music_pipe_size] <;>
          exact ⟨_, _, ⟨rfl, rfl⟩, _, _, ⟨rfl, rfl⟩, ⟨rfl, rfl, rfl, rfl, rfl, rfl⟩,
            rfl, rfl, rfl⟩
  · simp [do_play_cross_fade, hle] at h
    obtain ⟨rfl, rfl⟩ := h
    simp [hle]

theorem size_le_cross_fade_total (s : State)
    (hle : music_pipe_size s.player.pipe ≤ s.crossFadeChunks) :
    music_pipe_size s.player.pipe ≤ cross_fade_total s := by
  unfold cross_fade_total
  split
  · exact Nat.le_refl _
  · exact hle

theorem cross_fade_total_le (s : State)
    (hle : music_pipe_size s.player.pipe ≤ s.crossFadeChunks) :
    cross_fade_total s ≤ s.crossFadeChunks := by
  unfold cross_fade_total
  split
  · exact hle
  · exact Nat.le_refl _

theorem do_play_cross_fade_pass_step {env : Env} {s s1 : State}
    {r : Option (Option music_chunk)}
    (h : do_play_cross_fade env s = .ok (s1, r)) : pass_step s s1 := by
  rcases do_play_cross_fade_inv h with ⟨_, rfl, _⟩ | ⟨_, hle, hcase⟩
  · exact pass_step_refl _
  · rcases hcase with ⟨_, _, _, rfl⟩ | ⟨_, _, _, rfl⟩ | ⟨oc, qrest, c, rest, _, hp, _, rfl⟩
    · exact pass_step_one (.music_pipe_shift .dc_pipe) rfl rfl rfl ⟨rfl, rfl, rfl⟩
    · exact ⟨[.music_pipe_shift .dc_pipe, .notify_signal_dc, .notify_wait_pc], rfl,
        by simp [apply_in_range], Or.inr ⟨⟨rfl, rfl, rfl⟩, by simp [is_format_marker]⟩⟩
    · have h1 : 1 ≤ music_pipe_size s.player.pipe := by
        rw [hp]; simp [music_pipe_size]
      have h2 := size_le_cross_fade_total s hle
      exact ⟨[.music_pipe_shift .dc_pipe, .music_pipe_shift .player_pipe,
          .cross_fade_apply (music_pipe_size s.player.pipe) (cross_fade_total s)], rfl,
        by simp [apply_in_range, h1, h2], Or.inr ⟨⟨rfl, rfl, rfl⟩, by simp [is_format_marker]⟩⟩

theorem do_play_chunk_pass_step {env : Env} {s s1 : State} {c : loop_ctl}
    (h : do_play_chunk env s = .ok (s1, c)) : pass_step s s1 := by
  unfold do_play_chunk at h
  split at h
  · cases h
  · rename_i s2 hx
    cases h
    exact do_play_cross_fade_pass_step hx
  · rename_i s2 chunk0 hx
    have h2 := do_play_cross_fade_pass_step hx
    simp only at h
    split at h
    · cases h
    · rename_i s3 chunk hs
      have h3 : pass_step s2 s3 := by
        split at hs
        · cases hs; exact pass_step_refl _
        · split at hs
          · cases hs
          · cases hs
            exact pass_step_one (.music_pipe_shift .player_pipe) rfl rfl rfl ⟨rfl, rfl, rfl⟩
      split at h
      · cases h
      · rename_i s4 success hp
        have h4 := pass_step_trans (pass_step_trans h2 h3) (play_chunk_pass_step hp)
        split at h
        · cases h; exact pass_step_trans h4 (pass_step_of_eq rfl ⟨rfl, rfl, rfl⟩)
        · split at h
          · cases h
          · rename_i s5 hr
            cases h
            have h5 := do_play_refill_pass_step hr
            exact pass_step_trans h4 (pass_step_trans (pass_step_of_eq rfl ⟨rfl, rfl, rfl⟩) h5)

theorem do_play_output_pass_step {env : Env} {s s1 : State} {c : loop_ctl}
    (h : do_play_output env s = .ok (s1, c)) : pass_step s s1 := by
  unfold do_play_output at h
  split at h
  · cases h; exact pass_step_one .notify_wait_pc rfl rfl rfl ⟨rfl, rfl, rfl⟩
  · split at h
    · exact do_play_chunk_pass_step h
    · split at h
      · simp only at h
        split at h
        · cases h
        · rename_i s2 ok hw
          cases h
          have hw2 := player_wait_for_decoder_pass_step hw
          exact pass_step_trans (pass_step_of_eq rfl ⟨rfl, rfl, rfl⟩) hw2
      · split at h
        · cases h; exact pass_step_refl _
        · simp only at h
          split at h
          · cases h
          · cases h
            exact pass_step_one (.audio_output_all_play (CHUNK_SIZE /
              env.audio_format_frame_size s.player.play_audio_format *
              env.audio_format_frame_size s.player.play_audio_format)) rfl rfl rfl
              ⟨rfl, rfl, rfl⟩

/-! ### `player_check_decoder_startup`, case by case -/

/-- The four results of `player_check_decoder_startup`: the decoder failed; the
decoder is still starting (wait); the decoder is ready and the audio outputs
cannot be opened; the decoder is ready and the outputs were opened, in which
case the play format and `size_to_time` are taken from `dc.out_audio_format`. -/
theorem player_check_decoder_startup_inv {env : Env} {s s1 : State} {b : Bool}
    (h : player_check_decoder_startup env s = .ok (s1, b)) :
    s.player.decoder_starting = true ∧
    ((env.startup_has_failed = true ∧ b = false ∧
        s1 = { s with pc := { s.pc with
          errored_song := s.dc.next_song, error := .FILE } }) ∨
      (env.startup_has_failed = false ∧ env.startup_is_starting = true ∧ b = true ∧
        s1 = s.emit .notify_wait_pc) ∨
      (env.startup_has_failed = false ∧ env.startup_is_starting = false ∧
        env.startup_open = false ∧ b = false ∧
        s1 = { s with
          trace := s.trace ++ [.audio_output_all_open (some s.dc.out_audio_format)]
          player := { s.player with decoder_starting := false }
          pc := { s.pc with
            errored_song := s.dc.next_song, error := player_error.AUDIO } }) ∨
      (env.startup_has_failed = false ∧ env.startup_is_starting = false ∧
        env.startup_open = true ∧ b = true ∧
        s1 = { s with
          trace := s.trace ++ (.audio_output_all_open (some s.dc.out_audio_format) ::
            if s.player.paused then [.audio_output_all_close] else [])
          player := { s.player with
            decoder_starting := false
            play_audio_format := s.dc.out_audio_format
            size_to_time := env.audioFormatSizeToTime s.dc.out_audio_format }
          pc := { s.pc with
            total_time := s.dc.total_time, audio_format := s.dc.in_audio_format } })) := by
  obtain ⟨pc, dc, player, cfc, cf, songs, trace⟩ := s
  obtain ⟨dpipe, dn, dcur, din, dout, dtt⟩ := dc
  obtain ⟨buf, pipe, bu, ds, pa, qu, so, xf, paf, stt⟩ := player
  cases ds
  · simp [player_check_decoder_startup] at h
  · cases hfail : env.startup_has_failed
    · cases hst : env.startup_is_starting
      · cases hopen : env.startup_open
        · cases dn with
          | none =>
            simp [player_check_decoder_startup, hfail, hst, hopen, State.emit] at h
          | some p =>
            by_cases hu : dc_next_song_url_ok
                { pc := pc, dc := ⟨dpipe, some p, dcur, din, dout, dtt⟩,
                  player := ⟨buf, pipe, bu, false, pa, qu, so, xf, paf, stt⟩,
                  crossFadeChunks := cfc, cross_fading := cf, songs := songs,
                  trace := trace ++ [.audio_output_all_open (some dout)] } = true
            · simp [player_check_decoder_startup, hfail, hst, hopen, State.emit, hu] at h
              obtain ⟨rfl, rfl⟩ := h
              simp
            · simp [player_check_decoder_startup, hfail, hst, hopen, State.emit, hu] at h
        · cases pa <;>
            simp [player_check_decoder_startup, hfail, hst, hopen, State.emit] at h <;>
            obtain ⟨rfl, rfl⟩ := h <;> simp
      · simp [player_check_decoder_startup, hfail, hst, State.emit] at h
        obtain ⟨rfl, rfl⟩ := h
        simp [State.emit]
    · by_cases hu : dc_next_song_url_ok
          { pc := pc, dc := ⟨dpipe, dn, dcur, din, dout, dtt⟩,
            player := ⟨buf, pipe, bu, true, pa, qu, so, xf, paf, stt⟩,
            crossFadeChunks := cfc, cross_fading := cf, songs := songs,
            trace := trace } = true
      · simp [player_check_decoder_startup, hfail, hu] at h
        obtain ⟨rfl, rfl⟩ := h
        simp
      · simp [player_check_decoder_startup, hfail, hu] at h

/-! ### Every `cross_fade_apply` call is in range -/

theorem calls_in_range_refl (s : State) : calls_in_range s s :=
  ⟨[], by simp, by simp⟩

theorem calls_in_range_trans {s s1 s2 : State} (h1 : calls_in_range s s1)
    (h2 : calls_in_range s1 s2) : calls_in_range s s2 := by
  obtain ⟨e1, ht1, ha1⟩ := h1
  obtain ⟨e2, ht2, ha2⟩ := h2
  refine ⟨e1 ++ e2, by rw [ht2, ht1, List.append_assoc], ?_⟩
  intro e he
  rcases List.mem_append.mp he with h | h
  · exact ha1 e h
  · exact ha2 e h

theorem calls_in_range_of_pass_step {s s1 : State} (h : pass_step s s1) :
    calls_in_range s s1 := by
  obtain ⟨evs, ht, ha, _⟩ := h
  exact ⟨evs, ht, ha⟩

theorem calls_in_range_of_trace_eq {s s1 : State} (h : s1.trace = s.trace) :
    calls_in_range s s1 :=
  ⟨[], by simp [h], by simp⟩

theorem player_check_decoder_startup_calls {env : Env} {s s1 : State} {b : Bool}
    (h : player_check_decoder_startup env s = .ok (s1, b)) : calls_in_range s s1 := by
  obtain ⟨_, hcase⟩ := player_check_decoder_startup_inv h
  rcases hcase with ⟨_, _, rfl⟩ | ⟨_, _, _, rfl⟩ | ⟨_, _, _, _, rfl⟩ | ⟨_, _, _, _, rfl⟩
  · exact calls_in_range_refl _
  · exact ⟨[.notify_wait_pc], rfl, by simp [apply_in_range]⟩
  · exact ⟨[.audio_output_all_open (some s.dc.out_audio_format)], rfl,
      by simp [apply_in_range]⟩
  · refine ⟨_, rfl, ?_⟩
    intro e he
    cases hp : s.player.paused <;> simp [hp] at he
    · rw [he]; rfl
    · rcases he with he | he <;> rw [he] <;> rfl

theorem do_play_after_buffering_calls {env : Env} {s s1 : State} {c : loop_ctl}
    (h : do_play_after_buffering env s = .ok (s1, c)) : calls_in_range s s1 := by
  unfold do_play_after_buffering at h
  split at h
  · split at h
    · cases h
    · rename_i s3 success hc
      cases h
      exact player_check_decoder_startup_calls hc
  · split at h
    · cases h
    · rename_i s3 hq
      exact calls_in_range_of_pass_step
        (pass_step_trans (do_play_queue_handoff_pass_step hq)
          (pass_step_trans (do_play_xfade_decision_pass_step env s3)
            (do_play_output_pass_step h)))

theorem do_play_iteration_calls {env : Env} {s s1 : State} {c : loop_ctl}
    (h : do_play_iteration env s = .ok (s1, c)) : calls_in_range s s1 := by
  unfold do_play_iteration at h
  split at h
  · cases h
  · rename_i s2 hp
    have h2 := calls_in_range_of_pass_step (player_process_command_pass_step hp)
    split at h
    · cases h
      exact calls_in_range_trans h2 ⟨[.audio_output_all_cancel], rfl, by simp [apply_in_range]⟩
    · split at h
      · cases h
        exact calls_in_range_trans h2 ⟨[.notify_wait_pc], rfl, by simp [apply_in_range]⟩
      · have h3 : calls_in_range s2 (if s2.player.buffering = true then
            { s2 with player := { s2.player with buffering := false } } else s2) := by
          split
          · exact calls_in_range_of_trace_eq rfl
          · exact calls_in_range_refl _
        exact calls_in_range_trans h2
          (calls_in_range_trans h3 (do_play_after_buffering_calls h))

theorem do_play_loop_calls (sched : List (Interference × Env)) :
    ∀ s s1 b, do_play_loop sched s = .ok (s1, b) → calls_in_range s s1 := by
  induction sched with
  | nil =>
    intro s s1 b h
    cases h
    exact calls_in_range_refl _
  | cons p rest ih =>
    obtain ⟨i, env⟩ := p
    intro s s1 b h
    have hi : calls_in_range s (interfere i s) :=
      calls_in_range_of_trace_eq (interfere_trace i s)
    unfold do_play_loop at h
    cases hit : do_play_iteration env (interfere i s) with
    | error f => rw [hit] at h; cases h
    | ok r =>
      obtain ⟨s2, c⟩ := r
      rw [hit] at h
      have hq := do_play_iteration_calls hit
      cases c with
      | break_loop =>
        cases h
        exact calls_in_range_trans hi hq
      | continue_loop =>
        exact calls_in_range_trans hi (calls_in_range_trans hq (ih s2 s1 b h))

theorem do_play_init_calls {failed : Bool} {s s1 : State} {b : Bool}
    (h : do_play_init failed s = .ok (s1, b)) : calls_in_range s s1 := by
  unfold do_play_init at h
  simp only at h
  have hstart : ∀ t : State, t.trace = s.trace →
      calls_in_range s (dc_start s.pc.next_song t) := by
    intro t ht
    exact ⟨[.dc_start s.pc.next_song], by simp [dc_start, State.emit, ht],
      by simp [apply_in_range]⟩
  split at h
  · cases h
  · rename_i s2 hw
    have hw2 := calls_in_range_of_pass_step (player_wait_for_decoder_pass_step hw)
    have h2 := calls_in_range_trans (hstart _ rfl) hw2
    split at h
    · cases h
    · rename_i s3 hf
      cases h
      have h3 := calls_in_range_of_pass_step (player_command_finished_pass_step hf)
      refine calls_in_range_trans (calls_in_range_trans h2 ?_) h3
      exact ⟨[.dc_stop, .event_pipe_emit .PIPE_EVENT_PLAYLIST],
        by simp [player_stop_decoder, State.emit], by simp [apply_in_range]⟩
  · rename_i s2 hw
    have hw2 := calls_in_range_of_pass_step (player_wait_for_decoder_pass_step hw)
    have h2 := calls_in_range_trans (hstart _ rfl) hw2
    split at h
    · cases h
    · rename_i s3 hf
      cases h
      have h3 := calls_in_range_of_pass_step (player_command_finished_pass_step hf)
      exact calls_in_range_trans (calls_in_range_trans h2 (calls_in_range_of_trace_eq rfl)) h3

theorem do_play_teardown_calls {s s1 : State}
    (h : do_play_teardown s = .ok s1) : calls_in_range s s1 := by
  unfold do_play_teardown at h
  simp only at h
  split at h
  · cases h
  · rename_i s2 hc
    have h2 : s2.trace = s.trace := by
      split at hc
      · split at hc
        · cases hc
        · cases hc; rfl
      · cases hc; rfl
    cases h
    refine ⟨[.dc_stop, .event_pipe_emit .PIPE_EVENT_PLAYLIST], ?_, by simp [apply_in_range]⟩
    simp only [player_stop_decoder, State.emit]
    split <;> simp [h2]

theorem do_play_calls {failed : Bool} {sched : List (Interference × Env)} {s s1 : State}
    {b : Bool} (h : do_play failed sched s = .ok (s1, b)) : calls_in_range s s1 := by
  unfold do_play at h
  split at h
  · cases h
  · rename_i s2 hi
    cases h
    exact do_play_init_calls hi
  · rename_i s2 hi
    have h2 := do_play_init_calls hi
    split at h
    · cases h
    · rename_i s3 hl
      cases h
      exact calls_in_range_trans h2 (do_play_loop_calls sched _ _ _ hl)
    · rename_i s3 hl
      have h3 := calls_in_range_trans h2 (do_play_loop_calls sched _ _ _ hl)
      split at h
      · cases h
      · rename_i s4 ht
        cases h
        exact calls_in_range_trans h3 (do_play_teardown_calls ht)

theorem play_chunk_crossFadeChunks {env : Env} {song_ptr : Option SongPtr}
    {chunk : music_chunk} {format : audio_format} {sizeToTime : ℚ} {s s1 : State} {b : Bool}
    (h : play_chunk env song_ptr chunk format sizeToTime s = .ok (s1, b)) :
    s1.crossFadeChunks = s.crossFadeChunks := by
  unfold play_chunk at h
  simp only at h
  split at h
  · cases h
  · split at h
    · cases h
    · rename_i s2 heq
      have h2 : s2.crossFadeChunks = s.crossFadeChunks := by
        split at heq
        · cases heq; rfl
        · split at heq
          · cases heq
          · split at heq
            · cases heq; rfl
            · cases heq; rfl
      split at h
      · cases h; exact h2
      · split at h
        · cases h; exact h2
        · split at h
          · cases h; exact h2
          · cases h; exact h2

theorem do_play_refill_crossFadeChunks {env : Env} {s s1 : State}
    (h : do_play_refill env s = .ok s1) : s1.crossFadeChunks = s.crossFadeChunks := by
  unfold do_play_refill at h
  split at h
  · cases h; rfl
  · split at h
    · cases h
    · split at h
      · cases h; rfl
      · cases h; rfl

theorem player_wait_for_decoder_crossFadeChunks {failed : Bool} {s s1 : State} {b : Bool}
    (h : player_wait_for_decoder failed s = .ok (s1, b)) :
    s1.crossFadeChunks = s.crossFadeChunks := by
  unfold player_wait_for_decoder at h
  simp only at h
  split at h
  · split at h
    · cases h; rfl
    · cases h
  · split at h
    · cases h
    · cases h; rfl

theorem do_play_cross_fade_crossFadeChunks_le {env : Env} {s s1 : State}
    {r : Option (Option music_chunk)}
    (h : do_play_cross_fade env s = .ok (s1, r)) :
    s1.crossFadeChunks ≤ s.crossFadeChunks := by
  rcases do_play_cross_fade_inv h with ⟨_, rfl, _⟩ | ⟨_, hle, hcase⟩
  · exact Nat.le_refl _
  · rcases hcase with ⟨_, _, _, rfl⟩ | ⟨_, _, _, rfl⟩ | ⟨oc, qrest, c, rest, _, _, _, rfl⟩ <;>
      exact cross_fade_total_le s hle

theorem do_play_chunk_crossFadeChunks_le {env : Env} {s s1 : State} {c : loop_ctl}
    (h : do_play_chunk env s = .ok (s1, c)) : s1.crossFadeChunks ≤ s.crossFadeChunks := by
  unfold do_play_chunk at h
  split at h
  · cases h
  · rename_i s2 hx
    cases h
    exact do_play_cross_fade_crossFadeChunks_le hx
  · rename_i s2 chunk0 hx
    have h2 := do_play_cross_fade_crossFadeChunks_le hx
    simp only at h
    split at h
    · cases h
    · rename_i s3 chunk hs
      have h3 : s3.crossFadeChunks = s2.crossFadeChunks := by
        split at hs
        · cases hs; rfl
        · split at hs
          · cases hs
          · cases hs; rfl
      split at h
      · cases h
      · rename_i s4 success hp
        have h4 : s4.crossFadeChunks ≤ s.crossFadeChunks := by
          rw [play_chunk_crossFadeChunks hp, h3]; exact h2
        split at h
        · cases h; exact h4
        · split at h
          · cases h
          · rename_i s5 hr
            cases h
            rw [do_play_refill_crossFadeChunks hr]
            exact h4

theorem do_play_output_crossFadeChunks_le {env : Env} {s s1 : State} {c : loop_ctl}
    (h : do_play_output env s = .ok (s1, c)) : s1.crossFadeChunks ≤ s.crossFadeChunks := by
  unfold do_play_output at h
  split at h
  · cases h; exact Nat.le_refl _
  · split at h
    · exact do_play_chunk_crossFadeChunks_le h
    · split at h
      · simp only at h
        split at h
        · cases h
        · rename_i s2 ok hw
          cases h
          have hc := player_wait_for_decoder_crossFadeChunks hw
          exact Nat.le_of_eq hc
      · split at h
        · cases h; exact Nat.le_refl _
        · simp only at h
          split at h
          · cases h
          · cases h; exact Nat.le_refl _

theorem calls_in_range_bounds {s s1 : State} (h : calls_in_range s s1) :
    ∃ evs, s1.trace = s.trace ++ evs ∧
      ∀ pos total, Event.cross_fade_apply pos total ∈ evs → 1 ≤ pos ∧ pos ≤ total := by
  obtain ⟨evs, ht, ha⟩ := h
  refine ⟨evs, ht, fun pos total he => ?_⟩
  simpa [apply_in_range] using ha _ he

/-- What the cross-fade block of `do_play` guarantees in general: the total
does not grow; the call of `cross_fade_apply`, if any, gets the size the
player's pipe had before the shift as position and the new total, with
`1 ≤ position ≤ total`, and position and total agree when the block is entered
with `cross_fading` unset or with a total equal to the size of the pipe;
entering with `cross_fading` unset lowers the total to the size of the pipe;
the underrun wait keeps the pipe.  Every call made by `do_play` is in range,
the output step never raises the total, and the decision leaves it alone once
`xfade` is decided. -/
theorem do_play_cross_fade_bounds (env : Env) (s s1 : State) (r : Option (Option music_chunk))
    (h : do_play_cross_fade env s = .ok (s1, r)) :
    s1.crossFadeChunks ≤ s.crossFadeChunks ∧
    (∃ evs, s1.trace = s.trace ++ evs ∧
      ∀ pos total, Event.cross_fade_apply pos total ∈ evs →
        pos = music_pipe_size s.player.pipe ∧ total = s1.crossFadeChunks ∧
        1 ≤ pos ∧ pos ≤ total ∧
        ((s.cross_fading = false ∨ s.crossFadeChunks = music_pipe_size s.player.pipe) →
          pos = total)) ∧
    (s.player.xfade = .XFADE_ENABLED → (∃ q, s.dc.pipe = .other q) →
      music_pipe_size s.player.pipe ≤ s.crossFadeChunks → s.cross_fading = false →
      s1.crossFadeChunks = music_pipe_size s.player.pipe ∧ s1.cross_fading = true) ∧
    (r = none → s1.player.pipe = s.player.pipe ∧ s1.cross_fading = true ∧
      ((s.cross_fading = false ∨ s.crossFadeChunks = music_pipe_size s.player.pipe) →
        s1.crossFadeChunks = music_pipe_size s1.player.pipe)) ∧
    (∀ failed sched t t1 b, do_play failed sched t = .ok (t1, b) →
      ∃ evs, t1.trace = t.trace ++ evs ∧
        ∀ pos total, Event.cross_fade_apply pos total ∈ evs → 1 ≤ pos ∧ pos ≤ total) ∧
    (∀ env t t1 c, do_play_output env t = .ok (t1, c) →
      t1.crossFadeChunks ≤ t.crossFadeChunks) ∧
    (∀ env t, t.player.xfade ≠ .XFADE_UNKNOWN →
      (do_play_xfade_decision env t).crossFadeChunks = t.crossFadeChunks) := by
  have hfresh : (s.cross_fading = false ∨ s.crossFadeChunks = music_pipe_size s.player.pipe) →
      cross_fade_total s = music_pipe_size s.player.pipe := by
    intro hf
    unfold cross_fade_total
    split
    · rfl
    · rcases hf with hf | hf
      · contradiction
      · exact hf
  refine ⟨do_play_cross_fade_crossFadeChunks_le h, ?_, ?_, ?_,
    fun failed sched t t1 b ht => calls_in_range_bounds (do_play_calls ht),
    fun env t t1 c ht => do_play_output_crossFadeChunks_le ht, ?_⟩
  · rcases do_play_cross_fade_inv h with ⟨_, rfl, _⟩ | ⟨_, hle, hcase⟩
    · exact ⟨[], by simp, fun _ _ he => by cases he⟩
    · rcases hcase with ⟨_, _, _, rfl⟩ | ⟨_, _, _, rfl⟩ | ⟨oc, qrest, c, rest, _, hp, _, rfl⟩
      · exact ⟨_, rfl, fun _ _ he => by simp at he⟩
      · exact ⟨_, rfl, fun _ _ he => by simp at he⟩
      · refine ⟨_, rfl, fun pos total he => ?_⟩
        simp at he
        obtain ⟨rfl, rfl⟩ := he
        refine ⟨rfl, rfl, ?_, size_le_cross_fade_total s hle, fun hf => (hfresh hf).symm⟩
        rw [hp]
        simp [music_pipe_size]
  · intro hx hq hle hcf
    have htot : cross_fade_total s = music_pipe_size s.player.pipe := hfresh (Or.inl hcf)
    rcases do_play_cross_fade_inv h with ⟨_, _, hn⟩ | ⟨_, _, hcase⟩
    · exact absurd ⟨hx, hq, hle⟩ hn
    · rcases hcase with ⟨_, _, _, rfl⟩ | ⟨_, _, _, rfl⟩ | ⟨oc, qrest, c, rest, _, _, _, rfl⟩ <;>
        exact ⟨htot, rfl⟩
  · intro hr
    rcases do_play_cross_fade_inv h with ⟨hr2, _, _⟩ | ⟨_, _, hcase⟩
    · rw [hr] at hr2; cases hr2
    · rcases hcase with ⟨_, _, hr2, _⟩ | ⟨_, _, _, rfl⟩ | ⟨oc, qrest, c, rest, _, _, hr2, _⟩
      · rw [hr] at hr2; cases hr2
      · exact ⟨rfl, rfl, hfresh⟩
      · rw [hr] at hr2; cases hr2
  · intro env t hx
    unfold do_play_xfade_decision
    split
    · rename_i hc
      exact absurd hc.2.1 hx
    · rfl

/-- Applied to the state `fading`: the block mixes one chunk with position 2
and total 2, the total having been lowered from 5. -/
theorem do_play_cross_fade_bounds_fading :
    do_play_cross_fade demo_env fading = .ok (demo_faded.1, demo_faded.2) ∧
    demo_faded.1.crossFadeChunks = 2 ∧
    cross_fade_calls demo_faded.1.trace = [.cross_fade_apply 2 2] :=
  ⟨rfl, by decide, by decide⟩

/-- C19: the run `cancel_requeue_run` of `do_play` (song 1 playing with a
cross-fade of one second; QUEUE song 2, CANCEL, QUEUE song 3) returns no
fault.  After its third pass the first cross-fade step has lowered
`crossFadeChunks` from 43 to the three chunks left in the player's pipe and
set `cross_fading`, without mixing a chunk.  CANCEL leaves `xfade` and
`cross_fading` as they are, so the cross-fade into song 3 is entered without
lowering the total again: the only call of `cross_fade_apply` in the whole
run, the first mixed chunk, has position 2 and total 3. -/
theorem cross_fade_after_cancel :
    (∃ t, do_play false (cancel_requeue_run.take 3) xfade_start = .ok (t, false) ∧
      t.player.xfade = .XFADE_ENABLED ∧ t.crossFadeChunks = 3 ∧ t.cross_fading = true ∧
      music_pipe_size t.player.pipe = 3 ∧ cross_fade_calls t.trace = []) ∧
    (∃ t, do_play false (cancel_requeue_run.take 4) xfade_start = .ok (t, false) ∧
      t.player.xfade = .XFADE_ENABLED ∧ t.crossFadeChunks = 3 ∧ t.cross_fading = true ∧
      music_pipe_size t.player.pipe = 2 ∧ t.dc.pipe = .null ∧ cross_fade_calls t.trace = []) ∧
    do_play false cancel_requeue_run xfade_start = .ok (cancel_requeue_end, false) ∧
    cross_fade_calls cancel_requeue_end.trace = [.cross_fade_apply 2 3] ∧
    cancel_requeue_end.crossFadeChunks = 3 :=
  ⟨⟨_, rfl, by decide, by decide, by decide, by decide, by decide⟩,
   ⟨_, rfl, by decide, by decide, by decide, by decide, by decide, by decide⟩,
   rfl, by decide, by decide⟩

theorem do_play_cross_fade_shift {env : Env} {s s1 : State} {r : Option (Option music_chunk)}
    (h : do_play_cross_fade env s = .ok (s1, r)) :
    (s1 = s ∧ r = some none) ∨ ∃ p evs, s1.trace = s.trace ++ .music_pipe_shift p :: evs := by
  rcases do_play_cross_fade_inv h with ⟨hr, hs, _⟩ | ⟨_, _, hcase⟩
  · exact Or.inl ⟨hs, hr⟩
  · rcases hcase with ⟨_, _, _, rfl⟩ | ⟨_, _, _, rfl⟩ | ⟨oc, qrest, c, rest, _, _, _, rfl⟩ <;>
      exact Or.inr ⟨_, _, rfl⟩

theorem pass_step_grows {s s1 : State} (h : pass_step s s1) :
    ∃ evs, s1.trace = s.trace ++ evs := by
  obtain ⟨evs, ht, _⟩ := h
  exact ⟨evs, ht⟩

theorem do_play_chunk_shift {env : Env} {s s1 : State} {c : loop_ctl}
    (h : do_play_chunk env s = .ok (s1, c)) :
    ∃ p evs, s1.trace = s.trace ++ .music_pipe_shift p :: evs := by
  unfold do_play_chunk at h
  split at h
  · cases h
  · rename_i s2 hx
    cases h
    rcases do_play_cross_fade_shift hx with ⟨_, hr⟩ | hsh
    · cases hr
    · exact hsh
  · rename_i s2 chunk0 hx
    have h2 := do_play_cross_fade_shift hx
    simp only at h
    split at h
    · cases h
    · rename_i s3 chunk hs
      have h3 : ∃ p evs, s3.trace = s.trace ++ .music_pipe_shift p :: evs := by
        split at hs
        · cases hs
          rcases h2 with ⟨_, hr⟩ | hsh
          · cases hr
          · exact hsh
        · split at hs
          · cases hs
          · cases hs
            rcases h2 with ⟨rfl, _⟩ | ⟨p, evs, hsh⟩
            · exact ⟨_, [], rfl⟩
            · exact ⟨p, evs ++ [.music_pipe_shift .player_pipe], by simp [State.emit, hsh]⟩
      obtain ⟨p, evs, h3⟩ := h3
      split at h
      · cases h
      · rename_i s4 success hp
        obtain ⟨e4, h4⟩ := pass_step_grows (play_chunk_pass_step hp)
        split at h
        · cases h
          exact ⟨p, evs ++ e4, by simp [h4, h3]⟩
        · split at h
          · cases h
          · rename_i s5 hr
            cases h
            obtain ⟨e5, h5⟩ := pass_step_grows (do_play_refill_pass_step hr)
            have h5b : s1.trace = s4.trace ++ e5 := h5
            exact ⟨p, evs ++ e4 ++ e5, by simp [h5b, h4, h3]⟩

/-- The five ways through the output step of `do_play`. -/
theorem do_play_output_inv {env : Env} {s s1 : State} {c : loop_ctl}
    (h : do_play_output env s = .ok (s1, c)) :
    (s.player.paused = true ∧ s1 = s.emit .notify_wait_pc ∧ c = .continue_loop) ∨
    (s.player.paused = false ∧ s.player.pipe ≠ [] ∧ do_play_chunk env s = .ok (s1, c)) ∨
    (s.player.paused = false ∧ s.player.pipe = [] ∧ ∃ q ok, s.dc.pipe = .other q ∧
      player_wait_for_decoder env.boundary_has_failed (boundary_handoff s q) = .ok (s1, ok) ∧
      c = if ok then .continue_loop else .break_loop) ∨
    (s.player.paused = false ∧ s.player.pipe = [] ∧ (∀ q, s.dc.pipe ≠ .other q) ∧
      env.end_is_idle = true ∧ s1 = s ∧ c = .break_loop) ∨
    (s.player.paused = false ∧ s.player.pipe = [] ∧ (∀ q, s.dc.pipe ≠ .other q) ∧
      env.end_is_idle = false ∧
      env.audio_format_frame_size s.player.play_audio_format ≠ 0 ∧
      s1 = s.emit (.audio_output_all_play
        (CHUNK_SIZE / env.audio_format_frame_size s.player.play_audio_format
          * env.audio_format_frame_size s.player.play_audio_format)) ∧
      c = if env.play then .continue_loop else .break_loop) := by
  unfold do_play_output at h
  split at h
  · rename_i hp
    cases h
    exact Or.inl ⟨hp, rfl, rfl⟩
  · rename_i hp
    have hp : s.player.paused = false := by simpa using hp
    split at h
    · rename_i hsz
      refine Or.inr (Or.inl ⟨hp, ?_, h⟩)
      intro he
      simp [he, music_pipe_size] at hsz
    · rename_i hsz
      have he : s.player.pipe = [] := by
        cases hl : s.player.pipe with
        | nil => rfl
        | cons a l => simp [hl, music_pipe_size] at hsz
      split at h
      · rename_i q hq
        simp only at h
        split at h
        · cases h
        · rename_i s2 ok hw
          cases h
          exact Or.inr (Or.inr (Or.inl ⟨hp, he, q, ok, hq, hw, rfl⟩))
      · rename_i hnq
        split at h
        · rename_i hidle
          cases h
          exact Or.inr (Or.inr (Or.inr (Or.inl ⟨hp, he, fun q hq => hnq q hq, hidle, rfl, rfl⟩)))
        · rename_i hidle
          have hidle : env.end_is_idle = false := by simpa using hidle
          simp only at h
          split at h
          · cases h
          · rename_i hfs
            cases h
            exact Or.inr (Or.inr (Or.inr (Or.inr
              ⟨hp, he, fun q hq => hnq q hq, hidle, hfs, rfl, rfl⟩)))

theorem not_silence_of_quiet {s s1 : State} (h : quiet_step s s1) : ¬ silence_submitted s s1 := by
  rintro ⟨n, hn⟩
  obtain ⟨evs, ht, hq⟩ := h
  rw [ht] at hn
  have he := List.append_cancel_left hn
  have := hq (.audio_output_all_play n) (by simp [he])
  simp [is_submission] at this

theorem not_silence_of_shift {s s1 : State} {p : pipe_ref} {evs : List Event}
    (h : s1.trace = s.trace ++ .music_pipe_shift p :: evs) : ¬ silence_submitted s s1 := by
  rintro ⟨n, hn⟩
  rw [h] at hn
  have he := List.append_cancel_left hn
  simp at he

/-- C17 as stated fails: with a running decoder and an empty player's pipe the
output step submits no silence when the player is paused (it waits for a
notification) and when the decoder fills the pipe of the next song (it hands
that pipe over and waits for the decoder). -/
theorem silence_iff_counterexample :
    (demo_env.end_is_idle = false ∧ paused_empty.player.pipe = [] ∧
      do_play_output demo_env paused_empty
        = .ok (paused_empty.emit .notify_wait_pc, .continue_loop) ∧
      ¬ silence_submitted paused_empty (paused_empty.emit .notify_wait_pc)) ∧
    (demo_env.end_is_idle = false ∧ song_boundary.player.pipe = [] ∧
      ∃ s1, do_play_output demo_env song_boundary = .ok (s1, .continue_loop) ∧
        s1.trace = song_boundary.trace
          ++ [.dc_command_wait, .event_pipe_emit .PIPE_EVENT_PLAYLIST] ∧
        ¬ silence_submitted song_boundary s1) := by
  refine ⟨⟨rfl, rfl, rfl, ?_⟩, rfl, rfl, _, rfl, rfl, ?_⟩
  · exact not_silence_of_quiet (quiet_step_emit _ _ rfl)
  · exact not_silence_of_quiet ⟨_, rfl, by decide⟩

/-- C17 (amended): in an output step of `do_play` that returns, silence is
submitted if and only if the player is not paused, the player's pipe is empty,
the decoder has no pipe of its own for the next song, and the decoder is not
idle; and such a step does return whenever the frame size of the play format
is not zero.  Otherwise exactly the branch selected by the same tests is
taken and submits no silence: the paused wait, the playing of one chunk (which
starts by shifting a chunk out of a pipe), the song-boundary handoff (which
makes no submission at all), or the break at the end of the playlist (which
makes no call). -/
theorem output_step_silence (env : Env) (s s1 : State) (c : loop_ctl)
    (h : do_play_output env s = .ok (s1, c)) :
    (silence_submitted s s1 ↔
      (s.player.paused = false ∧ s.player.pipe = [] ∧ (∀ q, s.dc.pipe ≠ .other q) ∧
        env.end_is_idle = false)) ∧
    (∀ t : State, t.player.paused = false → t.player.pipe = [] → (∀ q, t.dc.pipe ≠ .other q) →
      env.end_is_idle = false → env.audio_format_frame_size t.player.play_audio_format ≠ 0 →
      ∃ n, n % env.audio_format_frame_size t.player.play_audio_format = 0 ∧
        do_play_output env t = .ok (t.emit (.audio_output_all_play n),
          if env.play then .continue_loop else .break_loop)) ∧
    (s.player.paused = true → s1 = s.emit .notify_wait_pc ∧ c = .continue_loop) ∧
    (s.player.paused = false → s.player.pipe ≠ [] →
      do_play_chunk env s = .ok (s1, c) ∧
      ∃ p evs, s1.trace = s.trace ++ .music_pipe_shift p :: evs) ∧
    (s.player.paused = false → s.player.pipe = [] → ∀ q, s.dc.pipe = .other q →
      (∃ ok, player_wait_for_decoder env.boundary_has_failed (boundary_handoff s q)
          = .ok (s1, ok) ∧ c = if ok then .continue_loop else .break_loop) ∧
      quiet_step s s1) ∧
    (s.player.paused = false → s.player.pipe = [] → (∀ q, s.dc.pipe ≠ .other q) →
      env.end_is_idle = true → s1 = s ∧ c = .break_loop) := by
  refine ⟨?_, ?_, ?_, ?_, ?_, ?_⟩
  · rcases do_play_output_inv h with ⟨hp, rfl, _⟩ | ⟨hp, hne, hc⟩ |
      ⟨hp, he, q, ok, hq, hw, _⟩ | ⟨hp, he, hnq, hidle, rfl, _⟩ | ⟨hp, he, hnq, hidle, _, rfl, _⟩
    · constructor
      · intro hs
        exact absurd hs (not_silence_of_quiet (quiet_step_emit _ _ rfl))
      · rintro ⟨hp2, _⟩
        rw [hp] at hp2; cases hp2
    · constructor
      · intro hs
        obtain ⟨p, evs, ht⟩ := do_play_chunk_shift hc
        exact absurd hs (not_silence_of_shift ht)
      · rintro ⟨_, he, _⟩
        exact absurd he hne
    · constructor
      · intro hs
        have hq2 := player_wait_for_decoder_quiet hw
        have hq3 : quiet_step s s1 := by
          obtain ⟨evs, ht, hev⟩ := hq2
          exact ⟨evs, ht, hev⟩
        exact absurd hs (not_silence_of_quiet hq3)
      · rintro ⟨_, _, hnq, _⟩
        exact absurd hq (hnq q)
    · constructor
      · intro hs
        exact absurd hs (not_silence_of_quiet (quiet_step_refl _))
      · rintro ⟨_, _, _, hi⟩
        rw [hidle] at hi; cases hi
    · exact ⟨fun _ => ⟨hp, he, hnq, hidle⟩, fun _ => ⟨_, rfl⟩⟩
  · intro t hp he hnq hidle hfs
    refine ⟨CHUNK_SIZE / env.audio_format_frame_size t.player.play_audio_format
      * env.audio_format_frame_size t.player.play_audio_format, Nat.mul_mod_left _ _, ?_⟩
    unfold do_play_output
    rw [if_neg (by simp [hp]), if_neg (by simp [he, music_pipe_size])]
    split
    · rename_i q hq
      exact absurd hq (hnq q)
    · rw [if_neg (by simp [hidle]), if_neg hfs]
  · intro hp
    rcases do_play_output_inv h with ⟨_, hs, hc⟩ | ⟨hp2, _⟩ | ⟨hp2, _⟩ | ⟨hp2, _⟩ | ⟨hp2, _⟩
    · exact ⟨hs, hc⟩
    all_goals (rw [hp] at hp2; cases hp2)
  · intro hp hne
    rcases do_play_output_inv h with ⟨hp2, _⟩ | ⟨_, _, hc⟩ | ⟨_, he, _⟩ | ⟨_, he, _⟩ | ⟨_, he, _⟩
    · rw [hp] at hp2; cases hp2
    · exact ⟨hc, do_play_chunk_shift hc⟩
    all_goals exact absurd he hne
  · intro hp he q hq
    rcases do_play_output_inv h with ⟨hp2, _⟩ | ⟨_, hne, _⟩ | ⟨_, _, q2, ok, hq2, hw, hc⟩ |
      ⟨_, _, hnq, _⟩ | ⟨_, _, hnq, _⟩
    · rw [hp] at hp2; cases hp2
    · exact absurd he hne
    · rw [hq] at hq2
      cases hq2
      refine ⟨⟨ok, hw, hc⟩, ?_⟩
      obtain ⟨evs, ht, hev⟩ := player_wait_for_decoder_quiet hw
      exact ⟨evs, ht, hev⟩
    · exact absurd hq (hnq q)
    · exact absurd hq (hnq q)
  · intro hp he hnq hidle
    rcases do_play_output_inv h with ⟨hp2, _⟩ | ⟨_, hne, _⟩ | ⟨_, _, q, _, hq, _⟩ |
      ⟨_, _, _, _, hs, hc⟩ | ⟨_, _, _, hi, _⟩
    · rw [hp] at hp2; cases hp2
    · exact absurd he hne
    · exact absurd hq (hnq q)
    · exact ⟨hs, hc⟩
    · rw [hidle] at hi; cases hi

/-- C17 (amended) applied to the state `pipe_empty` with a running decoder:
4096 bytes of silence are submitted and the loop goes on. -/
theorem output_step_silence_witness :
    do_play_output demo_env pipe_empty
        = .ok (pipe_empty.emit (.audio_output_all_play 4096), .continue_loop) ∧
    ((silence_submitted pipe_empty (pipe_empty.emit (.audio_output_all_play 4096)) ↔
      (pipe_empty.player.paused = false ∧ pipe_empty.player.pipe = [] ∧
        (∀ q, pipe_empty.dc.pipe ≠ .other q) ∧ demo_env.end_is_idle = false)) ∧
    (∀ t : State, t.player.paused = false → t.player.pipe = [] → (∀ q, t.dc.pipe ≠ .other q) →
      demo_env.end_is_idle = false →
      demo_env.audio_format_frame_size t.player.play_audio_format ≠ 0 →
      ∃ n, n % demo_env.audio_format_frame_size t.player.play_audio_format = 0 ∧
        do_play_output demo_env t = .ok (t.emit (.audio_output_all_play n),
          if demo_env.play then .continue_loop else .break_loop)) ∧
    (pipe_empty.player.paused = true →
      pipe_empty.emit (.audio_output_all_play 4096) = pipe_empty.emit .notify_wait_pc ∧
      loop_ctl.continue_loop = .continue_loop) ∧
    (pipe_empty.player.paused = false → pipe_empty.player.pipe ≠ [] →
      do_play_chunk demo_env pipe_empty
        = .ok (pipe_empty.emit (.audio_output_all_play 4096), .continue_loop) ∧
      ∃ p evs, (pipe_empty.emit (.audio_output_all_play 4096)).trace
        = pipe_empty.trace ++ .music_pipe_shift p :: evs) ∧
    (pipe_empty.player.paused = false → pipe_empty.player.pipe = [] →
      ∀ q, pipe_empty.dc.pipe = .other q →
      (∃ ok, player_wait_for_decoder demo_env.boundary_has_failed (boundary_handoff pipe_empty q)
          = .ok (pipe_empty.emit (.audio_output_all_play 4096), ok) ∧
        loop_ctl.continue_loop = if ok then .continue_loop else .break_loop) ∧
      quiet_step pipe_empty (pipe_empty.emit (.audio_output_all_play 4096))) ∧
    (pipe_empty.player.paused = false → pipe_empty.player.pipe = [] →
      (∀ q, pipe_empty.dc.pipe ≠ .other q) →
      demo_env.end_is_idle = true →
      pipe_empty.emit (.audio_output_all_play 4096) = pipe_empty ∧
      loop_ctl.continue_loop = .break_loop)) :=
  ⟨rfl, output_step_silence demo_env pipe_empty _ _ rfl⟩

theorem loop_top_of_with {P : Env → Prop} {s0 s : State} (h : loop_top_with P s0 s) :
    loop_top s0 s := by
  induction h with
  | first i s hi => exact loop_top.first i s hi
  | next i env s s1 _ _ hit ih => exact loop_top.next i env s s1 ih hit

theorem format_assigned_of_pass_step {f : audio_format → ℚ} {s s1 : State}
    (hf : format_assigned f s) (h : pass_step s s1) : format_assigned f s1 := by
  intro hds
  obtain ⟨evs, ht, _, hcase⟩ := h
  rcases hcase with htrue | ⟨⟨h1, h2, h3⟩, hm⟩
  · rw [hds] at htrue; cases htrue
  · obtain ⟨⟨pre, post, hpre, hpost⟩, hstt⟩ := hf (by rw [← h1]; exact hds)
    refine ⟨⟨pre, post ++ evs, ?_, ?_⟩, ?_⟩
    · rw [ht, hpre, h2]; simp
    · intro e he
      rcases List.mem_append.mp he with he | he
      · exact hpost e he
      · exact hm e he
    · rw [h3, h2]; exact hstt

theorem decoder_push_same_format (s : State) (c : music_chunk) :
    same_format s (decoder_push s c) := by
  unfold decoder_push
  split <;> exact ⟨rfl, rfl, rfl⟩

theorem foldl_decoder_push_same_format (l : List music_chunk) (s : State) :
    same_format s (l.foldl decoder_push s) := by
  induction l generalizing s with
  | nil => exact ⟨rfl, rfl, rfl⟩
  | cons c rest ih =>
    obtain ⟨a1, a2, a3⟩ := ih (decoder_push s c)
    obtain ⟨b1, b2, b3⟩ := decoder_push_same_format s c
    exact ⟨a1.trans b1, a2.trans b2, a3.trans b3⟩

theorem interfere_same_format (i : Interference) (s : State) :
    same_format s (interfere i s) := by
  unfold interfere
  exact foldl_decoder_push_same_format _ _

theorem interfere_pass_step (i : Interference) (s : State) : pass_step s (interfere i s) :=
  pass_step_of_eq (interfere_trace i s) (interfere_same_format i s)

theorem do_play_after_buffering_format {f : audio_format → ℚ} {env : Env} {s s1 : State}
    (henv : env.audioFormatSizeToTime = f) (hf : format_assigned f s)
    (h : do_play_after_buffering env s = .ok (s1, .continue_loop)) : format_assigned f s1 := by
  unfold do_play_after_buffering at h
  split at h
  · split at h
    · cases h
    · rename_i s3 success hc
      simp only [Except.ok.injEq, Prod.mk.injEq] at h
      obtain ⟨hs, hsuc⟩ := h
      subst hs
      obtain ⟨hstart, hcase⟩ := player_check_decoder_startup_inv hc
      rcases hcase with ⟨_, hb, _⟩ | ⟨_, _, _, rfl⟩ | ⟨_, _, _, hb, _⟩ | ⟨_, _, _, _, rfl⟩
      · subst hb
        simp at hsuc
      · intro hds
        simp [State.emit] at hds
        rw [hstart] at hds
        cases hds
      · subst hb
        simp at hsuc
      · intro _
        exact ⟨⟨s.trace, _, rfl, by
          intro e he
          split at he
          · simp at he; subst he; rfl
          · cases he⟩, by simp [henv]⟩
  · split at h
    · cases h
    · rename_i s3 hq
      exact format_assigned_of_pass_step hf
        (pass_step_trans (do_play_queue_handoff_pass_step hq)
          (pass_step_trans (do_play_xfade_decision_pass_step env s3)
            (do_play_output_pass_step h)))

theorem buffering_done_pass_step (s : State) : pass_step s (buffering_done s) := by
  unfold buffering_done
  split
  · exact pass_step_of_eq rfl ⟨rfl, rfl, rfl⟩
  · exact pass_step_refl _

theorem do_play_iteration_format {f : audio_format → ℚ} {env : Env} {s s1 : State}
    (henv : env.audioFormatSizeToTime = f) (hf : format_assigned f s)
    (h : do_play_iteration env s = .ok (s1, .continue_loop)) : format_assigned f s1 := by
  unfold do_play_iteration at h
  split at h
  · cases h
  · rename_i s2 hp
    have h2 := format_assigned_of_pass_step hf (player_process_command_pass_step hp)
    split at h
    · cases h
    · split at h
      · cases h
        exact format_assigned_of_pass_step h2
          (pass_step_one .notify_wait_pc rfl rfl rfl ⟨rfl, rfl, rfl⟩)
      · exact do_play_after_buffering_format henv
          (format_assigned_of_pass_step h2 (buffering_done_pass_step s2)) h

theorem do_play_init_decoder_starting {failed : Bool} {s0 s : State}
    (h : do_play_init failed s0 = .ok (s, true)) :
    s.player.decoder_starting = true ∧ quiet_step s0 s := by
  unfold do_play_init at h
  simp only at h
  split at h
  · cases h
  · split at h
    · cases h
    · cases h
  · rename_i s2 hw
    have hq := player_wait_for_decoder_quiet hw
    have hd : s2.player.decoder_starting = true := by
      unfold player_wait_for_decoder at hw
      simp only at hw
      split at hw
      · split at hw
        · cases hw
        · cases hw
      · split at hw
        · cases hw
        · cases hw; rfl
    split at h
    · cases h
    · rename_i s3 hc
      cases h
      have hq3 := player_command_finished_quiet hc
      have hd3 : s.player.decoder_starting = true := by
        unfold player_command_finished at hc
        split at hc
        · cases hc
        · cases hc; exact hd
      refine ⟨hd3, ?_⟩
      obtain ⟨e1, ht1, hq1⟩ := hq
      obtain ⟨e3, ht3, hq3⟩ := hq3
      refine ⟨.dc_start s0.pc.next_song :: e1 ++ e3, ?_, ?_⟩
      · rw [ht3]
        simp only [] at ht1 ⊢
        rw [ht1]
        simp [dc_start, State.emit]
      · intro e he
        simp at he
        rcases he with rfl | he | he
        · rfl
        · exact hq1 e he
        · exact hq3 e he

theorem loop_top_with_format {f : audio_format → ℚ} {s0 s : State}
    (h : loop_top_with (fun env => env.audioFormatSizeToTime = f) s0 s) :
    format_assigned f s := by
  induction h with
  | first i s hi =>
    have hd := (do_play_init_decoder_starting hi).1
    have hf : format_assigned f s := by
      intro hds
      rw [hd] at hds
      cases hds
    exact format_assigned_of_pass_step hf (interfere_pass_step i s)
  | next i env s s1 _ henv hit ih =>
    exact format_assigned_of_pass_step (do_play_iteration_format henv ih hit)
      (interfere_pass_step i s1)

theorem mem_of_mem_takeWhile {p : Event → Bool} {e : Event} :
    ∀ {l : List Event}, e ∈ l.takeWhile p → e ∈ l := by
  intro l
  induction l with
  | nil => intro h; simp at h
  | cons a l ih =>
    intro h
    rw [List.takeWhile_cons] at h
    split at h
    · rcases List.mem_cons.mp h with rfl | h
      · exact List.mem_cons_self _ _
      · exact List.mem_cons_of_mem _ (ih h)
    · simp at h

theorem takeWhile_append_of_stop {p : Event → Bool} :
    ∀ {l : List Event} (l2 : List Event), (∃ e ∈ l, p e = false) →
      (l ++ l2).takeWhile p = l.takeWhile p := by
  intro l
  induction l with
  | nil => intro l2 h; simp at h
  | cons a l ih =>
    intro l2 h
    rw [List.cons_append, List.takeWhile_cons, List.takeWhile_cons]
    cases hp : p a
    · simp
    · simp only [if_true]
      congr 1
      apply ih
      obtain ⟨e, he, hpe⟩ := h
      rcases List.mem_cons.mp he with rfl | he
      · rw [hp] at hpe; cases hpe
      · exact ⟨e, he, hpe⟩

theorem starting_step_of_quiet {s s1 : State} (h : quiet_step s s1)
    (hd : s1.player.decoder_starting = true) : starting_step s s1 := by
  obtain ⟨evs, ht, hq⟩ := h
  exact ⟨evs, ht, hq, Or.inl hd⟩

theorem starting_step_after_quiet {s s1 s2 : State} (h1 : quiet_step s s1)
    (h2 : starting_step s1 s2) : starting_step s s2 := by
  obtain ⟨e1, ht1, hq1⟩ := h1
  obtain ⟨e2, ht2, hq2, hd⟩ := h2
  refine ⟨e1 ++ e2, by rw [ht2, ht1]; simp, ?_, ?_⟩
  · intro e he
    rcases List.mem_append.mp he with he | he
    · exact hq1 e he
    · exact hq2 e he
  · rcases hd with hd | ⟨e, he, ho⟩
    · exact Or.inl hd
    · exact Or.inr ⟨e, List.mem_append.mpr (Or.inr he), ho⟩

theorem pass_step_decoder_starting {s s1 : State} (h : pass_step s s1)
    (hd : s.player.decoder_starting = true) : s1.player.decoder_starting = true := by
  obtain ⟨_, _, _, hcase⟩ := h
  rcases hcase with h1 | ⟨⟨h1, _, _⟩, _⟩
  · exact h1
  · rw [h1]; exact hd

theorem player_check_decoder_startup_starting {env : Env} {s s1 : State} {b : Bool}
    (h : player_check_decoder_startup env s = .ok (s1, b)) : starting_step s s1 := by
  obtain ⟨hstart, hcase⟩ := player_check_decoder_startup_inv h
  rcases hcase with ⟨_, _, rfl⟩ | ⟨_, _, _, rfl⟩ | ⟨_, _, _, _, rfl⟩ | ⟨_, _, _, _, rfl⟩
  · exact ⟨[], by simp, by simp, Or.inl hstart⟩
  · exact ⟨[.notify_wait_pc], rfl, by simp [is_submission], Or.inl hstart⟩
  · exact ⟨_, rfl, by simp [is_submission], Or.inr ⟨_, List.mem_singleton.mpr rfl, rfl⟩⟩
  · refine ⟨_, rfl, ?_, Or.inr ⟨_, List.mem_cons_self _ _, rfl⟩⟩
    intro e he
    rcases List.mem_cons.mp he with rfl | he
    · rfl
    · split at he
      · simp at he; subst he; rfl
      · cases he

/-- A pass in which the decoder is starting once the command has been
dispatched reaches neither the cross-fade decision nor the output step: it
submits nothing. -/
theorem do_play_iteration_starting {env : Env} {s s2 s1 : State} {c : loop_ctl}
    (hp : player_process_command env s = .ok s2) (hd : s2.player.decoder_starting = true)
    (h : do_play_iteration env s = .ok (s1, c)) : starting_step s s1 := by
  have hq := player_process_command_quiet hp
  unfold do_play_iteration at h
  rw [hp] at h
  simp only at h
  split at h
  · cases h
    exact starting_step_after_quiet hq
      ⟨[.audio_output_all_cancel], rfl, by simp [is_submission], Or.inl hd⟩
  · split at h
    · cases h
      exact starting_step_after_quiet hq
        ⟨[.notify_wait_pc], rfl, by simp [is_submission], Or.inl hd⟩
    · have hd3 : (if s2.player.buffering = true then
          { s2 with player := { s2.player with buffering := false } } else s2
          ).player.decoder_starting = true := by
        split
        · exact hd
        · exact hd
      have hq3 : quiet_step s2 (if s2.player.buffering = true then
          { s2 with player := { s2.player with buffering := false } } else s2) := by
        split
        · exact quiet_step_of_trace_eq rfl
        · exact quiet_step_refl _
      unfold do_play_after_buffering at h
      rw [if_pos hd3] at h
      split at h
      · cases h
      · rename_i s4 success hc
        cases h
        exact starting_step_after_quiet hq
          (starting_step_after_quiet hq3 (player_check_decoder_startup_starting hc))

theorem quiet_until_open_step {s0 s s1 : State} (hq : quiet_until_open s0 s)
    (hg : ∃ evs, s1.trace = s.trace ++ evs)
    (hs : s.player.decoder_starting = true → starting_step s s1) :
    quiet_until_open s0 s1 := by
  obtain ⟨evs, ht, hquiet, hds⟩ := hq
  by_cases hopen : ∃ e ∈ evs, (!is_startup_open e) = false
  · obtain ⟨e2, ht2⟩ := hg
    refine ⟨evs ++ e2, by rw [ht2, ht]; simp, ?_, ?_⟩
    · rw [takeWhile_append_of_stop e2 hopen]
      exact hquiet
    · intro hall
      obtain ⟨e, he, ho⟩ := hopen
      have := hall e (List.mem_append.mpr (Or.inl he))
      simp [this] at ho
  · have hall : ∀ e ∈ evs, is_startup_open e = false := by
      intro e he
      cases ho : is_startup_open e
      · rfl
      · exact absurd ⟨e, he, by simp [ho]⟩ hopen
    have hall2 : ∀ e ∈ evs, is_submission e = false := by
      intro e he
      apply hquiet
      rw [List.takeWhile_eq_self_iff.mpr]
      · exact he
      · intro x hx
        simp [hall x hx]
    obtain ⟨e2, ht2, hq2, hd2⟩ := hs (hds hall)
    refine ⟨evs ++ e2, by rw [ht2, ht]; simp, ?_, ?_⟩
    · intro e he
      rcases List.mem_append.mp (mem_of_mem_takeWhile he) with he | he
      · exact hall2 e he
      · exact hq2 e he
    · intro hno
      rcases hd2 with hd2 | ⟨e, he, ho⟩
      · exact hd2
      · rw [hno e (List.mem_append.mpr (Or.inr he))] at ho
        cases ho

theorem do_play_iteration_quiet_until_open {env : Env} {s0 s s1 : State} {c : loop_ctl}
    (hq : quiet_until_open s0 s) (h : do_play_iteration env s = .ok (s1, c)) :
    quiet_until_open s0 s1 := by
  refine quiet_until_open_step hq ?_ ?_
  · obtain ⟨evs, ht, _⟩ := do_play_iteration_calls h
    exact ⟨evs, ht⟩
  · intro hd
    cases hp : player_process_command env s with
    | error f =>
      unfold do_play_iteration at h
      rw [hp] at h
      cases h
    | ok s2 =>
      exact do_play_iteration_starting hp
        (pass_step_decoder_starting (player_process_command_pass_step hp) hd) h

theorem interfere_quiet_until_open {s0 s : State} (i : Interference)
    (hq : quiet_until_open s0 s) : quiet_until_open s0 (interfere i s) := by
  obtain ⟨evs, ht, hquiet, hds⟩ := hq
  refine ⟨evs, by rw [interfere_trace, ht], hquiet, fun hall => ?_⟩
  rw [(interfere_same_format i s).1]
  exact hds hall

theorem loop_top_quiet_until_open {s0 s : State} (h : loop_top s0 s) :
    quiet_until_open s0 s := by
  induction h with
  | first i s hi =>
    obtain ⟨hd, evs, ht, hq⟩ := do_play_init_decoder_starting hi
    exact interfere_quiet_until_open i
      ⟨evs, ht, fun e he => hq e (mem_of_mem_takeWhile he), fun _ => hd⟩
  | next i env s s1 _ hit ih =>
    exact interfere_quiet_until_open i (do_play_iteration_quiet_until_open ih hit)

theorem do_play_queue_handoff_same_format {env : Env} {s s1 : State}
    (h : do_play_queue_handoff env s = .ok s1) : same_format s s1 := by
  unfold do_play_queue_handoff at h
  split at h
  · split at h
    · cases h
    · split at h
      · cases h
      · cases h; exact ⟨rfl, rfl, rfl⟩
  · cases h; exact ⟨rfl, rfl, rfl⟩

theorem do_play_xfade_decision_same_format (env : Env) (s : State) :
    same_format s (do_play_xfade_decision env s) := by
  unfold do_play_xfade_decision
  split
  · simp only
    split <;> exact ⟨rfl, rfl, rfl⟩
  · exact ⟨rfl, rfl, rfl⟩

theorem do_play_teardown_quiet {s s1 : State} (h : do_play_teardown s = .ok s1) :
    s1.pc.error = s.pc.error ∧ quiet_step s s1 := by
  unfold do_play_teardown at h
  simp only at h
  split at h
  · cases h
  · rename_i s2 hc
    have h2 : s2.trace = s.trace ∧ s2.pc.error = s.pc.error := by
      split at hc
      · split at hc
        · cases hc
        · cases hc; exact ⟨rfl, rfl⟩
      · cases hc; exact ⟨rfl, rfl⟩
    cases h
    constructor
    · simp only [player_stop_decoder, State.emit]
      split <;> simp [h2.2]
    · refine ⟨[.dc_stop, .event_pipe_emit .PIPE_EVENT_PLAYLIST], ?_, by simp [is_submission]⟩
      simp only [player_stop_decoder, State.emit]
      split <;> simp [h2.1]

/-- C20, as stated, fails: when the decoder reports the all-zero audio format
at startup, the outputs are opened with it, `player.play_audio_format` is that
format with frame size 0, and chunks are played with it; once the player's
pipe is empty while the decoder runs, the silence branch divides by the frame
size 0. -/
theorem zero_format_counterexample :
    (∃ t, do_play false (zero_format_run.take 2) demo_start = .ok (t, false) ∧
      t.player.decoder_starting = false ∧
      t.player.play_audio_format = audio_format.cleared ∧
      demo_env.audio_format_frame_size t.player.play_audio_format = 0 ∧
      t.trace = [.dc_start (some 1), .dc_command_wait,
        .event_pipe_emit .PIPE_EVENT_PLAYLIST, .notify_signal_main,
        .audio_output_all_open (some audio_format.cleared),
        .music_pipe_shift .player_pipe, .pcm_volume 4096, .audio_output_all_play 4096,
        .notify_signal_dc]) ∧
    (∃ t, do_play false (zero_format_run.take 5) demo_start = .ok (t, false) ∧
      t.player.pipe = [] ∧ t.player.play_audio_format = audio_format.cleared) ∧
    do_play false zero_format_run demo_start = .error .division_by_zero :=
  ⟨⟨_, rfl, rfl, rfl, rfl, rfl⟩, ⟨_, rfl, rfl, rfl⟩, rfl⟩

/-- C20, amended: at every loop-top `s` of `do_play` (the environment computing
`audioFormatSizeToTime` as `f`): unless the decoder is starting, the last
format marker of the trace is the `audio_output_all_open` of
`player.play_audio_format` (no successful `player_wait_for_decoder` came
after it) and `player.size_to_time = f player.play_audio_format`, so the play
format has every property that all formats the outputs were opened with have,
a nonzero frame size for one; as long as no such open was made since the call
of `do_play`, nothing was submitted and the decoder is starting.  With the
decoder starting the body after buffering is the startup check alone and the
pass submits nothing; the cross-fade decision and the output step are reached
with `decoder_starting` false and the format of the loop-top assigned, and
with a nonzero frame size of that format the silence branch makes no fault.  A
successful startup check assigns the format from `dc.out_audio_format`.  When
`audio_output_all_open` fails at startup the pass breaks the loop with
`pc.error = AUDIO` after the open as only call, the code does return this when
`dc.next_song` has a url, and the teardown keeps the error and submits
nothing. -/
theorem format_assigned_before_output (f : audio_format → ℚ) (s0 s : State)
    (h : loop_top_with (fun env => env.audioFormatSizeToTime = f) s0 s) :
    format_assigned f s ∧
    (∀ valid : audio_format → Prop,
      (∀ g, Event.audio_output_all_open (some g) ∈ s.trace → valid g) →
      s.player.decoder_starting = false → valid s.player.play_audio_format) ∧
    (∀ evs, s.trace = s0.trace ++ evs → (∀ e ∈ evs, is_startup_open e = false) →
      s.player.decoder_starting = true ∧ ∀ e ∈ evs, is_submission e = false) ∧
    (∀ env t, t.player.decoder_starting = true →
      do_play_after_buffering env t =
        match player_check_decoder_startup env t with
        | .error e => .error e
        | .ok (t1, success) => .ok (t1, if success then .continue_loop else .break_loop)) ∧
    (∀ env s2 s1 c, player_process_command env s = .ok s2 →
      s2.player.decoder_starting = true → do_play_iteration env s = .ok (s1, c) →
      quiet_step s s1) ∧
    (∀ env s2 t, player_process_command env s = .ok s2 →
      s2.player.decoder_starting = false →
      do_play_queue_handoff env (buffering_done s2) = .ok t →
      t.player.decoder_starting = false ∧ format_assigned f t ∧
      (do_play_xfade_decision env t).player.decoder_starting = false ∧
      format_assigned f (do_play_xfade_decision env t) ∧
      s.player.decoder_starting = false ∧
      (do_play_xfade_decision env t).player.play_audio_format = s.player.play_audio_format ∧
      (do_play_xfade_decision env t).player.size_to_time = s.player.size_to_time ∧
      (env.audio_format_frame_size s.player.play_audio_format ≠ 0 →
        ¬ (s2.pc.command = .STOP ∨ s2.pc.command = .EXIT ∨
          s2.pc.command = player_command.CLOSE_AUDIO) →
        ¬ (s2.player.buffering ∧
          music_pipe_size s2.player.pipe < s2.pc.buffered_before_play ∧
          env.buffering_is_idle = false) →
        (do_play_xfade_decision env t).player.paused = false →
        (do_play_xfade_decision env t).player.pipe = [] →
        (∀ q, (do_play_xfade_decision env t).dc.pipe ≠ .other q) →
        env.end_is_idle = false →
        ∃ n, do_play_iteration env s =
          .ok ((do_play_xfade_decision env t).emit (.audio_output_all_play n),
            if env.play then .continue_loop else .break_loop))) ∧
    (∀ env t t1, player_check_decoder_startup env t = .ok (t1, true) →
      env.startup_is_starting = false →
      t1.player.decoder_starting = false ∧
      t1.player.play_audio_format = t.dc.out_audio_format ∧
      t1.player.size_to_time = env.audioFormatSizeToTime t.dc.out_audio_format) ∧
    (∀ env t t1 c, t.player.decoder_starting = true → env.startup_has_failed = false →
      env.startup_is_starting = false → env.startup_open = false →
      do_play_after_buffering env t = .ok (t1, c) →
      c = .break_loop ∧ t1.pc.error = player_error.AUDIO ∧
      t1.trace = t.trace ++ [.audio_output_all_open (some t.dc.out_audio_format)] ∧
      ∀ u, do_play_teardown t1 = .ok u →
        u.pc.error = player_error.AUDIO ∧ quiet_step t1 u) ∧
    (∀ env t p, t.player.decoder_starting = true → env.startup_has_failed = false →
      env.startup_is_starting = false → env.startup_open = false →
      t.dc.next_song = some p → (t.songs p).url.isSome = true →
      ∃ t1, do_play_after_buffering env t = .ok (t1, .break_loop) ∧
        t1.pc.error = player_error.AUDIO) := by
  have hfmt := loop_top_with_format h
  have hgate : ∀ env t, t.player.decoder_starting = true →
      do_play_after_buffering env t =
        match player_check_decoder_startup env t with
        | .error e => .error e
        | .ok (t1, success) => .ok (t1, if success then .continue_loop else .break_loop) := by
    intro env t ht
    unfold do_play_after_buffering
    rw [if_pos ht]
  refine ⟨hfmt, ?_, ?_, hgate, ?_, ?_, ?_, ?_, ?_⟩
  · intro valid hall hds
    obtain ⟨⟨pre, post, htr, _⟩, _⟩ := hfmt hds
    exact hall _ (by rw [htr]; simp)
  · intro evs ht hall
    obtain ⟨evs2, ht2, hquiet, hds⟩ := loop_top_quiet_until_open (loop_top_of_with h)
    have he : evs2 = evs := List.append_cancel_left (ht2.symm.trans ht)
    subst he
    refine ⟨hds hall, fun e he => ?_⟩
    apply hquiet
    rw [List.takeWhile_eq_self_iff.mpr]
    · exact he
    · intro x hx
      simp [hall x hx]
  · intro env s2 s1 c hp hd hit
    obtain ⟨evs, ht, hq, _⟩ := do_play_iteration_starting hp hd hit
    exact ⟨evs, ht, hq⟩
  · intro env s2 t hp hd hq
    have h2 := format_assigned_of_pass_step hfmt (player_process_command_pass_step hp)
    have h3 := format_assigned_of_pass_step h2 (buffering_done_pass_step s2)
    have hd3 : (buffering_done s2).player.decoder_starting = false := by
      unfold buffering_done
      split
      · exact hd
      · exact hd
    have hsf := do_play_queue_handoff_same_format hq
    have h4 := format_assigned_of_pass_step h3 (do_play_queue_handoff_pass_step hq)
    have hd4 : t.player.decoder_starting = false := hsf.1.trans hd3
    have hs2 : same_format s s2 := by
      obtain ⟨_, _, _, hcase⟩ := player_process_command_pass_step hp
      rcases hcase with htrue | ⟨hsame, _⟩
      · rw [hd] at htrue; cases htrue
      · exact hsame
    have hs3 : same_format s2 (buffering_done s2) := by
      unfold buffering_done
      split
      · exact ⟨rfl, rfl, rfl⟩
      · exact ⟨rfl, rfl, rfl⟩
    have hs5 := do_play_xfade_decision_same_format env t
    have hpaf : (do_play_xfade_decision env t).player.play_audio_format
        = s.player.play_audio_format :=
      hs5.2.1.trans (hsf.2.1.trans (hs3.2.1.trans hs2.2.1))
    have hstt : (do_play_xfade_decision env t).player.size_to_time = s.player.size_to_time :=
      hs5.2.2.trans (hsf.2.2.trans (hs3.2.2.trans hs2.2.2))
    refine ⟨hd4, h4, hs5.1.trans hd4,
      format_assigned_of_pass_step h4 (do_play_xfade_decision_pass_step env t),
      hs2.1.symm.trans hd, hpaf, hstt, ?_⟩
    intro hfs hstop hbuf hpa hpi hnq hidle
    refine ⟨CHUNK_SIZE / env.audio_format_frame_size s.player.play_audio_format
      * env.audio_format_frame_size s.player.play_audio_format, ?_⟩
    have hout : do_play_output env (do_play_xfade_decision env t) =
        .ok ((do_play_xfade_decision env t).emit (.audio_output_all_play
          (CHUNK_SIZE / env.audio_format_frame_size s.player.play_audio_format
            * env.audio_format_frame_size s.player.play_audio_format)),
          if env.play then .continue_loop else .break_loop) := by
      unfold do_play_output
      rw [if_neg (by simp [hpa]), if_neg (by simp [hpi, music_pipe_size])]
      split
      · rename_i q hq2
        exact absurd hq2 (hnq q)
      · rw [if_neg (by simp [hidle]), hpaf, if_neg hfs]
    unfold do_play_iteration
    rw [hp]
    simp only
    rw [if_neg hstop, if_neg hbuf]
    have hab : do_play_after_buffering env (buffering_done s2) =
        do_play_output env (do_play_xfade_decision env t) := by
      unfold do_play_after_buffering
      rw [if_neg (by simp [hd3]), hq]
    exact hab.trans hout
  · intro env t t1 hc hst
    obtain ⟨_, hcase⟩ := player_check_decoder_startup_inv hc
    rcases hcase with ⟨_, hb, _⟩ | ⟨_, hst2, _⟩ | ⟨_, _, _, hb, _⟩ | ⟨_, _, _, _, rfl⟩
    · cases hb
    · rw [hst] at hst2; cases hst2
    · cases hb
    · exact ⟨rfl, rfl, rfl⟩
  · intro env t t1 c hd hfail hst hopen hab
    rw [hgate env t hd] at hab
    split at hab
    · cases hab
    · rename_i t2 success hc
      simp only [Except.ok.injEq, Prod.mk.injEq] at hab
      obtain ⟨hs, hcc⟩ := hab
      subst hs
      obtain ⟨_, hcase⟩ := player_check_decoder_startup_inv hc
      rcases hcase with ⟨hf2, _⟩ | ⟨_, hst2, _⟩ | ⟨_, _, _, hb, rfl⟩ | ⟨_, _, ho2, _⟩
      · rw [hfail] at hf2; cases hf2
      · rw [hst] at hst2; cases hst2
      · subst hb
        refine ⟨by simpa using hcc.symm, rfl, rfl, fun u hu => ?_⟩
        obtain ⟨he, hq⟩ := do_play_teardown_quiet hu
        exact ⟨he, hq⟩
      · rw [hopen] at ho2; cases ho2
  · intro env t p hd hfail hst hopen hn hurl
    rw [hgate env t hd]
    simp [player_check_decoder_startup, hd, hfail, hst, hopen, State.emit, hn,
      dc_next_song_url_ok, song_url_ok, hurl]

/-- C20 (amended) applied to the second loop-top of the start of song 1: the outputs
were opened with the 44100 Hz 16 bit stereo format of the decoder, which is
the play format, and `size_to_time` is the value of `audioFormatSizeToTime`
for it. -/
theorem format_assigned_before_output_witness :
    (loop_top_with (fun env => env.audioFormatSizeToTime = demo_env.audioFormatSizeToTime)
        demo_start demo_opened_top ∧
      demo_opened_top.player.decoder_starting = false ∧
      demo_opened_top.player.play_audio_format = cd_format ∧
      demo_opened_top.player.size_to_time = demo_env.audioFormatSizeToTime cd_format) ∧
    (format_assigned demo_env.audioFormatSizeToTime demo_opened_top ∧
    (∀ valid : audio_format → Prop,
      (∀ g, Event.audio_output_all_open (some g) ∈ demo_opened_top.trace → valid g) →
      demo_opened_top.player.decoder_starting = false →
      valid demo_opened_top.player.play_audio_format) ∧
    (∀ evs, demo_opened_top.trace = demo_start.trace ++ evs →
      (∀ e ∈ evs, is_startup_open e = false) →
      demo_opened_top.player.decoder_starting = true ∧ ∀ e ∈ evs, is_submission e = false) ∧
    (∀ env t, t.player.decoder_starting = true →
      do_play_after_buffering env t =
        match player_check_decoder_startup env t with
        | .error e => .error e
        | .ok (t1, success) => .ok (t1, if success then .continue_loop else .break_loop)) ∧
    (∀ env s2 s1 c, player_process_command env demo_opened_top = .ok s2 →
      s2.player.decoder_starting = true → do_play_iteration env demo_opened_top = .ok (s1, c) →
      quiet_step demo_opened_top s1) ∧
    (∀ env s2 t, player_process_command env demo_opened_top = .ok s2 →
      s2.player.decoder_starting = false →
      do_play_queue_handoff env (buffering_done s2) = .ok t →
      t.player.decoder_starting = false ∧
      format_assigned demo_env.audioFormatSizeToTime t ∧
      (do_play_xfade_decision env t).player.decoder_starting = false ∧
      format_assigned demo_env.audioFormatSizeToTime (do_play_xfade_decision env t) ∧
      demo_opened_top.player.decoder_starting = false ∧
      (do_play_xfade_decision env t).player.play_audio_format
        = demo_opened_top.player.play_audio_format ∧
      (do_play_xfade_decision env t).player.size_to_time
        = demo_opened_top.player.size_to_time ∧
      (env.audio_format_frame_size demo_opened_top.player.play_audio_format ≠ 0 →
        ¬ (s2.pc.command = .STOP ∨ s2.pc.command = .EXIT ∨
          s2.pc.command = player_command.CLOSE_AUDIO) →
        ¬ (s2.player.buffering ∧
          music_pipe_size s2.player.pipe < s2.pc.buffered_before_play ∧
          env.buffering_is_idle = false) →
        (do_play_xfade_decision env t).player.paused = false →
        (do_play_xfade_decision env t).player.pipe = [] →
        (∀ q, (do_play_xfade_decision env t).dc.pipe ≠ .other q) →
        env.end_is_idle = false →
        ∃ n, do_play_iteration env demo_opened_top =
          .ok ((do_play_xfade_decision env t).emit (.audio_output_all_play n),
            if env.play then .continue_loop else .break_loop))) ∧
    (∀ env t t1, player_check_decoder_startup env t = .ok (t1, true) →
      env.startup_is_starting = false →
      t1.player.decoder_starting = false ∧
      t1.player.play_audio_format = t.dc.out_audio_format ∧
      t1.player.size_to_time = env.audioFormatSizeToTime t.dc.out_audio_format) ∧
    (∀ env t t1 c, t.player.decoder_starting = true → env.startup_has_failed = false →
      env.startup_is_starting = false → env.startup_open = false →
      do_play_after_buffering env t = .ok (t1, c) →
      c = .break_loop ∧ t1.pc.error = player_error.AUDIO ∧
      t1.trace = t.trace ++ [.audio_output_all_open (some t.dc.out_audio_format)] ∧
      ∀ u, do_play_teardown t1 = .ok u →
        u.pc.error = player_error.AUDIO ∧ quiet_step t1 u) ∧
    (∀ env t p, t.player.decoder_starting = true → env.startup_has_failed = false →
      env.startup_is_starting = false → env.startup_open = false →
      t.dc.next_song = some p → (t.songs p).url.isSome = true →
      ∃ t1, do_play_after_buffering env t = .ok (t1, .break_loop) ∧
        t1.pc.error = player_error.AUDIO)) :=
  ⟨⟨loop_top_with.next _ demo_env _ demo_opened
      (loop_top_with.first
        (between .NONE none (some 1) [full_chunk, full_chunk, full_chunk, full_chunk])
        demo_started rfl) rfl rfl,
      by decide, by decide, rfl⟩,
    format_assigned_before_output demo_env.audioFormatSizeToTime demo_start demo_opened_top
      (loop_top_with.next _ demo_env _ demo_opened
        (loop_top_with.first
          (between .NONE none (some 1) [full_chunk, full_chunk, full_chunk, full_chunk])
          demo_started rfl) rfl rfl)⟩

/-! ### Chunk conservation -/

theorem slots_nil : slots [] = 0 := rfl

theorem slots_cons (c : music_chunk) (l : List music_chunk) :
    slots (c :: l) = {c.slot} + slots l := by
  simp [slots, Multiset.singleton_add]

theorem slots_append (a b : List music_chunk) : slots (a ++ b) = slots a + slots b := by
  simp [slots]

theorem music_pipe_clear_num_chunks (p : List music_chunk) (b : music_buffer) :
    (music_pipe_clear p b).num_chunks = b.num_chunks := by
  unfold music_pipe_clear
  induction p generalizing b with
  | nil => rfl
  | cons c rest ih =>
    rw [List.foldl_cons, ih]
    rfl

theorem music_pipe_clear_slots (p : List music_chunk) (b : music_buffer) :
    slots (music_pipe_clear p b).free = slots p + slots b.free := by
  unfold music_pipe_clear
  induction p generalizing b with
  | nil => simp [slots_nil]
  | cons c rest ih =>
    rw [List.foldl_cons, ih]
    simp only [music_buffer_return, slots_cons]
    abel

theorem same_chunks_refl (s : State) : same_chunks s s := ⟨rfl, rfl⟩

theorem same_chunks_trans {s s1 s2 : State} (h1 : same_chunks s s1) (h2 : same_chunks s1 s2) :
    same_chunks s s2 :=
  ⟨h2.1.trans h1.1, h2.2.trans h1.2⟩

theorem same_chunks_of_frame {s s1 : State} (hb : s1.player.buffer = s.player.buffer)
    (hp : s1.player.pipe = s.player.pipe) (hd : s1.dc.pipe = s.dc.pipe) : same_chunks s s1 := by
  unfold same_chunks chunk_slots
  rw [hb, hp, hd]
  exact ⟨rfl, rfl⟩

theorem conserved_of_same_chunks {s s1 : State} (hc : conserved s) (h : same_chunks s s1) :
    conserved s1 := by
  unfold conserved
  rw [h.1, h.2]
  exact hc

theorem same_chunks_ite (s a b : State) (c : Prop) [Decidable c]
    (ha : same_chunks s a) (hb : same_chunks s b) : same_chunks s (if c then a else b) := by
  split
  · exact ha
  · exact hb

theorem player_dc_stop_same_chunks (s : State) : same_chunks s (player_dc_stop s) := by
  unfold player_dc_stop same_chunks chunk_slots
  simp only [State.emit]
  split
  · rename_i hd
    simp [hd]
  · rename_i hd
    simp [hd, dc_pipe_chunks, music_pipe_clear_num_chunks, music_pipe_clear_slots, slots_nil]
    abel
  · rename_i q hd
    simp [hd, dc_pipe_chunks, music_pipe_clear_num_chunks, music_pipe_clear_slots, slots_nil]
    abel

theorem player_command_finished_same_chunks {s s1 : State}
    (h : player_command_finished s = .ok s1) : same_chunks s s1 := by
  unfold player_command_finished at h
  split at h
  · cases h
  · cases h; exact same_chunks_of_frame rfl rfl rfl

theorem player_wait_for_decoder_same_chunks {failed : Bool} {s s1 : State} {b : Bool}
    (h : player_wait_for_decoder failed s = .ok (s1, b)) : same_chunks s s1 := by
  unfold player_wait_for_decoder at h
  simp only at h
  split at h
  · split at h
    · cases h; exact same_chunks_of_frame rfl rfl rfl
    · cases h
  · split at h
    · cases h
    · cases h; exact same_chunks_of_frame rfl rfl rfl

theorem seek_restart_same_chunks (s t : State)
    (hb : t.player.buffer = music_pipe_clear (player_dc_stop s).player.pipe
      (player_dc_stop s).player.buffer)
    (hp : t.player.pipe = []) (hd : t.dc.pipe = .player_pipe) : same_chunks s t := by
  have h1 := player_dc_stop_same_chunks s
  have h2 := player_dc_stop_dc_pipe s
  refine same_chunks_trans h1 ?_
  unfold same_chunks chunk_slots
  rw [hb, hp, hd, h2]
  simp [dc_pipe_chunks, music_pipe_clear_num_chunks, music_pipe_clear_slots, slots_nil]
  abel

theorem player_seek_decoder_same_chunks {env : Env} {s s1 : State} {b : Bool}
    (h : player_seek_decoder env s = .ok (s1, b)) : same_chunks s s1 := by
  unfold player_seek_decoder at h
  simp only at h
  have hrestart : ∀ s2 b2,
      player_wait_for_decoder env.seek_has_failed
        (dc_start_async (player_dc_stop s).pc.next_song
          { player_dc_stop s with
            player := { (player_dc_stop s).player with
              buffer := music_pipe_clear (player_dc_stop s).player.pipe
                (player_dc_stop s).player.buffer, pipe := [] }
            dc := { (player_dc_stop s).dc with pipe := .player_pipe } }) = .ok (s2, b2) →
      same_chunks s s2 := by
    intro s2 b2 hw
    have h1 := player_wait_for_decoder_same_chunks hw
    refine same_chunks_trans ?_ h1
    exact seek_restart_same_chunks s _ rfl rfl rfl
  split at h
  · cases h
  · rename_i s2 heq
    cases h
    split at heq
    · exact hrestart _ _ heq
    · cases heq
  · rename_i s2 heq
    have h2 : same_chunks s s2 := by
      split at heq
      · exact hrestart _ _ heq
      · cases heq; exact same_chunks_of_frame rfl rfl rfl
    split at h
    · cases h
    · rename_i s3 hfin
      cases h
      have h3 := player_command_finished_same_chunks hfin
      refine same_chunks_trans (same_chunks_trans h2 ?_) h3
      split
      · exact same_chunks_of_frame rfl rfl rfl
      · exact same_chunks_of_frame rfl rfl rfl

theorem player_process_command_same_chunks {env : Env} {s s1 : State}
    (h : player_process_command env s = .ok s1) : same_chunks s s1 := by
  unfold player_process_command at h
  split at h
  · cases h; exact same_chunks_refl _
  · cases h; exact same_chunks_refl _
  · cases h; exact same_chunks_refl _
  · cases h; exact same_chunks_refl _
  · cases h; exact same_chunks_refl _
  · -- QUEUE
    split at h
    · cases h
    · split at h
      · cases h
      · split at h
        · cases h
        · have h1 := player_command_finished_same_chunks h
          refine same_chunks_trans ?_ h1
          exact same_chunks_of_frame rfl rfl rfl
  · -- PAUSE
    simp only at h
    split at h
    · have h1 := player_command_finished_same_chunks h
      refine same_chunks_trans ?_ h1
      exact same_chunks_of_frame rfl rfl rfl
    · split at h
      · have h1 := player_command_finished_same_chunks h
        refine same_chunks_trans ?_ h1
        exact same_chunks_of_frame rfl rfl rfl
      · split at h
        · have h1 := player_command_finished_same_chunks h
          refine same_chunks_trans ?_ h1
          exact same_chunks_of_frame rfl rfl rfl
        · cases h
  · -- SEEK
    split at h
    · cases h
    · rename_i s2 heq
      cases h
      have h1 := player_seek_decoder_same_chunks heq
      exact same_chunks_trans h1 (same_chunks_of_frame rfl rfl rfl)
    · rename_i s2 heq
      cases h
      exact player_seek_decoder_same_chunks heq
  · -- CANCEL
    split at h
    · cases h; exact same_chunks_of_frame rfl rfl rfl
    · have h1 := player_command_finished_same_chunks h
      refine same_chunks_trans ?_ h1
      refine @same_chunks_trans _ (if s.dc.pipe ≠ .null ∧ s.dc.pipe ≠ .player_pipe then
          (player_dc_stop s).emit .dc_stop else s) _ ?_ (same_chunks_of_frame rfl rfl rfl)
      refine same_chunks_ite _ _ _ _ ?_ (same_chunks_refl _)
      exact same_chunks_trans (player_dc_stop_same_chunks s) (same_chunks_of_frame rfl rfl rfl)

theorem do_play_queue_handoff_same_chunks {env : Env} {s s1 : State}
    (h : do_play_queue_handoff env s = .ok s1) : same_chunks s s1 := by
  unfold do_play_queue_handoff at h
  split at h
  · split at h
    · cases h
    · split at h
      · cases h
      · rename_i hpipe
        cases h
        unfold same_chunks chunk_slots
        refine ⟨rfl, ?_⟩
        cases hd : s.dc.pipe with
        | null => simp [dc_start_async, State.emit, dc_pipe_chunks]
        | player_pipe => simp [dc_start_async, State.emit, dc_pipe_chunks]
        | other q => simp [hd] at hpipe
  · cases h; exact same_chunks_refl _

theorem do_play_xfade_decision_same_chunks (env : Env) (s : State) :
    same_chunks s (do_play_xfade_decision env s) := by
  unfold do_play_xfade_decision
  split
  · simp only
    split <;> exact same_chunks_of_frame rfl rfl rfl
  · exact same_chunks_refl _

theorem player_check_decoder_startup_same_chunks {env : Env} {s s1 : State} {b : Bool}
    (h : player_check_decoder_startup env s = .ok (s1, b)) : same_chunks s s1 := by
  obtain ⟨_, hcase⟩ := player_check_decoder_startup_inv h
  rcases hcase with ⟨_, _, rfl⟩ | ⟨_, _, _, rfl⟩ | ⟨_, _, _, _, rfl⟩ | ⟨_, _, _, _, rfl⟩ <;>
    exact same_chunks_of_frame rfl rfl rfl

theorem play_chunk_same_chunks {env : Env} {song_ptr : Option SongPtr} {chunk : music_chunk}
    {format : audio_format} {sizeToTime : ℚ} {s s1 : State} {b : Bool}
    (h : play_chunk env song_ptr chunk format sizeToTime s = .ok (s1, b)) :
    same_chunks s s1 := by
  unfold play_chunk at h
  simp only at h
  split at h
  · cases h
  · split at h
    · cases h
    · rename_i s2 heq
      have h2 : same_chunks s s2 := by
        split at heq
        · cases heq; exact same_chunks_of_frame rfl rfl rfl
        · split at heq
          · cases heq
          · split at heq
            · cases heq; exact same_chunks_of_frame rfl rfl rfl
            · cases heq; exact same_chunks_of_frame rfl rfl rfl
      split at h
      · cases h; exact h2
      · split at h
        · cases h; exact same_chunks_trans h2 (same_chunks_of_frame rfl rfl rfl)
        · split at h
          · cases h; exact same_chunks_trans h2 (same_chunks_of_frame rfl rfl rfl)
          · cases h; exact same_chunks_trans h2 (same_chunks_of_frame rfl rfl rfl)

theorem do_play_refill_same_chunks {env : Env} {s s1 : State}
    (h : do_play_refill env s = .ok s1) : same_chunks s s1 := by
  unfold do_play_refill at h
  split at h
  · cases h; exact same_chunks_refl _
  · split at h
    · cases h
    · split at h
      · cases h; exact same_chunks_of_frame rfl rfl rfl
      · cases h; exact same_chunks_refl _

/-- The chunks after the cross-fade block: either all are where they were, or
the block holds the mixed chunk `c` of the player's pipe in its hands, the
chunk of the next song being back in the buffer. -/
theorem do_play_cross_fade_chunks {env : Env} {s s1 : State} {r : Option (Option music_chunk)}
    (h : do_play_cross_fade env s = .ok (s1, r)) :
    ((r = none ∨ r = some none) ∧ same_chunks s s1) ∨
    (∃ c, r = some (some c) ∧
      s1.player.buffer.num_chunks = s.player.buffer.num_chunks ∧
      chunk_slots s1 + {c.slot} = chunk_slots s) := by
  rcases do_play_cross_fade_inv h with ⟨hr, rfl, _⟩ | ⟨_, _, hcase⟩
  · exact Or.inl ⟨Or.inr hr, same_chunks_refl _⟩
  · rcases hcase with ⟨_, _, hr, rfl⟩ | ⟨_, _, hr, rfl⟩ | ⟨oc, qrest, c, rest, hd, hp, hr, rfl⟩
    · exact Or.inl ⟨Or.inr hr, same_chunks_of_frame rfl rfl rfl⟩
    · exact Or.inl ⟨Or.inl hr, same_chunks_of_frame rfl rfl rfl⟩
    · refine Or.inr ⟨_, hr, rfl, ?_⟩
      unfold chunk_slots
      simp only [hd, hp, dc_pipe_chunks, music_buffer_return, slots_cons]
      abel

theorem do_play_chunk_same_chunks {env : Env} {s s1 : State} {c : loop_ctl}
    (h : do_play_chunk env s = .ok (s1, c)) : same_chunks s s1 := by
  unfold do_play_chunk at h
  split at h
  · cases h
  · rename_i s2 hx
    cases h
    rcases do_play_cross_fade_chunks hx with ⟨_, hs⟩ | ⟨c, hr, _⟩
    · exact hs
    · cases hr
  · rename_i s2 chunk0 hx
    have h2 := do_play_cross_fade_chunks hx
    simp only at h
    split at h
    · cases h
    · rename_i s3 chunk hs
      have h3 : s3.player.buffer.num_chunks = s.player.buffer.num_chunks ∧
          chunk_slots s3 + {chunk.slot} = chunk_slots s := by
        split at hs
        · rename_i c0
          cases hs
          rcases h2 with ⟨hr, _⟩ | ⟨c, hr, hn, hc⟩
          · rcases hr with hr | hr <;> cases hr
          · cases hr
            exact ⟨hn, hc⟩
        · split at hs
          · cases hs
          · rename_i c0 rest hsh
            cases hs
            rcases h2 with ⟨_, hn, hc⟩ | ⟨c, hr, _⟩
            · refine ⟨hn, ?_⟩
              rw [← hc]
              unfold chunk_slots
              have hp : s2.player.pipe = chunk :: rest := by
                simp only [State.emit] at hsh
                cases hl : s2.player.pipe with
                | nil => rw [hl] at hsh; simp [music_pipe_shift] at hsh
                | cons a l =>
                  rw [hl] at hsh
                  simp [music_pipe_shift] at hsh
                  rw [hsh.1, hsh.2]
              simp only [State.emit, hp, slots_cons]
              abel
            · cases hr
      split at h
      · cases h
      · rename_i s4 success hp
        have h4 := play_chunk_same_chunks hp
        have h5 : same_chunks s { s4 with player := { s4.player with
            buffer := music_buffer_return s4.player.buffer chunk } } := by
          refine ⟨h4.1.trans h3.1, ?_⟩
          rw [← h3.2, ← h4.2]
          unfold chunk_slots
          simp only [music_buffer_return, slots_cons]
          abel
        split at h
        · cases h; exact h5
        · split at h
          · cases h
          · rename_i s5 hr
            cases h
            have h6 := do_play_refill_same_chunks hr
            exact same_chunks_trans h5 h6

theorem do_play_output_same_chunks {env : Env} {s s1 : State} {c : loop_ctl}
    (h : do_play_output env s = .ok (s1, c)) : same_chunks s s1 := by
  rcases do_play_output_inv h with ⟨_, rfl, _⟩ | ⟨_, _, hc⟩ | ⟨_, he, q, ok, hq, hw, _⟩ |
    ⟨_, _, _, _, rfl, _⟩ | ⟨_, _, _, _, _, rfl, _⟩
  · exact same_chunks_of_frame rfl rfl rfl
  · exact do_play_chunk_same_chunks hc
  · have h1 := player_wait_for_decoder_same_chunks hw
    refine same_chunks_trans ?_ h1
    unfold same_chunks chunk_slots boundary_handoff
    simp [he, hq, dc_pipe_chunks, slots_nil]
  · exact same_chunks_refl _
  · exact same_chunks_of_frame rfl rfl rfl

theorem do_play_after_buffering_same_chunks {env : Env} {s s1 : State} {c : loop_ctl}
    (h : do_play_after_buffering env s = .ok (s1, c)) : same_chunks s s1 := by
  unfold do_play_after_buffering at h
  split at h
  · split at h
    · cases h
    · rename_i s3 success hc
      cases h
      exact player_check_decoder_startup_same_chunks hc
  · split at h
    · cases h
    · rename_i s3 hq
      exact same_chunks_trans (do_play_queue_handoff_same_chunks hq)
        (same_chunks_trans (do_play_xfade_decision_same_chunks env s3)
          (do_play_output_same_chunks h))

theorem do_play_iteration_same_chunks {env : Env} {s s1 : State} {c : loop_ctl}
    (h : do_play_iteration env s = .ok (s1, c)) : same_chunks s s1 := by
  unfold do_play_iteration at h
  split at h
  · cases h
  · rename_i s2 hp
    have h2 := player_process_command_same_chunks hp
    split at h
    · cases h
      exact same_chunks_trans h2 (same_chunks_of_frame rfl rfl rfl)
    · split at h
      · cases h
        exact same_chunks_trans h2 (same_chunks_of_frame rfl rfl rfl)
      · have h3 : same_chunks s2 (if s2.player.buffering = true then
            { s2 with player := { s2.player with buffering := false } } else s2) := by
          split
          · exact same_chunks_of_frame rfl rfl rfl
          · exact same_chunks_refl _
        exact same_chunks_trans h2
          (same_chunks_trans h3 (do_play_after_buffering_same_chunks h))

theorem decoder_push_same_chunks (s : State) (c : music_chunk) :
    same_chunks s (decoder_push s c) := by
  unfold decoder_push
  split
  · rename_i f rest hf hd
    unfold same_chunks chunk_slots
    simp only [hf, hd, dc_pipe_chunks, slots_cons, slots_append, slots_nil]
    refine ⟨trivial, ?_⟩
    abel
  · rename_i f rest q hf hd
    unfold same_chunks chunk_slots
    simp only [hf, hd, dc_pipe_chunks, slots_cons, slots_append, slots_nil]
    refine ⟨trivial, ?_⟩
    abel
  · exact same_chunks_refl _

theorem foldl_decoder_push_same_chunks (l : List music_chunk) (s : State) :
    same_chunks s (l.foldl decoder_push s) := by
  induction l generalizing s with
  | nil => exact same_chunks_refl _
  | cons c rest ih =>
    exact same_chunks_trans (decoder_push_same_chunks s c) (ih (decoder_push s c))

theorem interfere_same_chunks (i : Interference) (s : State) :
    same_chunks s (interfere i s) := by
  unfold interfere
  refine same_chunks_trans ?_ (foldl_decoder_push_same_chunks _ _)
  exact same_chunks_of_frame rfl rfl rfl

theorem music_buffer_new_slots (n : Nat) : slots (music_buffer_new n).free = Multiset.range n := by
  unfold slots music_buffer_new
  simp only [List.map_map]
  have : ((fun c : music_chunk => c.slot) ∘
      fun i => (⟨i, 0, 0, 0, none, audio_format.cleared⟩ : music_chunk)) = id := rfl
  rw [this, List.map_id]
  rfl

theorem do_play_init_conserved {failed : Bool} {s0 s : State} {b : Bool}
    (h : do_play_init failed s0 = .ok (s, b)) : conserved s := by
  unfold do_play_init at h
  simp only at h
  have hnew : ∀ t : State, t.player.buffer = music_buffer_new s0.pc.buffer_chunks →
      t.player.pipe = [] → t.dc.pipe = .player_pipe → conserved t := by
    intro t hb hp hd
    unfold conserved chunk_slots
    rw [hb, hp, hd, music_buffer_new_slots]
    simp [dc_pipe_chunks, slots_nil, music_buffer_new]
  split at h
  · cases h
  · rename_i s2 hw
    have h2 := conserved_of_same_chunks (hnew _ rfl rfl rfl)
      (player_wait_for_decoder_same_chunks hw)
    split at h
    · cases h
    · rename_i s3 hc
      cases h
      refine conserved_of_same_chunks h2 (same_chunks_trans ?_
        (player_command_finished_same_chunks hc))
      exact same_chunks_of_frame rfl rfl rfl
  · rename_i s2 hw
    have h2 := conserved_of_same_chunks (hnew _ rfl rfl rfl)
      (player_wait_for_decoder_same_chunks hw)
    split at h
    · cases h
    · rename_i s3 hc
      cases h
      refine conserved_of_same_chunks h2 (same_chunks_trans ?_
        (player_command_finished_same_chunks hc))
      exact same_chunks_of_frame rfl rfl rfl

theorem loop_top_conserved {s0 s : State} (h : loop_top s0 s) : conserved s := by
  induction h with
  | first i s hi =>
    exact conserved_of_same_chunks (do_play_init_conserved hi) (interfere_same_chunks i s)
  | next i env s s1 _ hit ih =>
    exact conserved_of_same_chunks
      (conserved_of_same_chunks ih (do_play_iteration_same_chunks hit))
      (interfere_same_chunks i s1)

theorem do_play_teardown_chunks {s u : State} (h : do_play_teardown s = .ok u) :
    same_chunks s u ∧ u.player.pipe = [] ∧ dc_pipe_chunks u.dc.pipe = [] := by
  unfold do_play_teardown at h
  simp only at h
  split at h
  · cases h
  · rename_i s2 hc
    have h2 : same_chunks s s2 := by
      split at hc
      · split at hc
        · cases hc
        · cases hc; exact same_chunks_of_frame rfl rfl rfl
      · cases hc; exact same_chunks_refl _
    cases h
    have h3 : same_chunks s2 (player_stop_decoder s2) := same_chunks_of_frame rfl rfl rfl
    have hpipe : (player_stop_decoder s2).dc.pipe = s2.dc.pipe := rfl
    cases hd : s2.dc.pipe with
    | null =>
      rw [hpipe, hd]
      refine ⟨same_chunks_trans h2 (same_chunks_trans h3 ?_), rfl, ?_⟩
      · unfold same_chunks chunk_slots
        simp [player_stop_decoder, State.emit, hd, dc_pipe_chunks, slots_nil,
          music_pipe_clear_num_chunks, music_pipe_clear_slots]
        abel
      · simp [player_stop_decoder, State.emit, hd, dc_pipe_chunks]
    | player_pipe =>
      rw [hpipe, hd]
      refine ⟨same_chunks_trans h2 (same_chunks_trans h3 ?_), rfl, ?_⟩
      · unfold same_chunks chunk_slots
        simp [player_stop_decoder, State.emit, hd, dc_pipe_chunks, slots_nil,
          music_pipe_clear_num_chunks, music_pipe_clear_slots]
        abel
      · simp [player_stop_decoder, State.emit, hd, dc_pipe_chunks]
    | other q =>
      rw [hpipe, hd]
      refine ⟨same_chunks_trans h2 (same_chunks_trans h3 ?_), rfl, ?_⟩
      · unfold same_chunks chunk_slots
        simp [player_stop_decoder, State.emit, hd, dc_pipe_chunks, slots_nil,
          music_pipe_clear_num_chunks, music_pipe_clear_slots]
        abel
      · simp [dc_pipe_chunks]

theorem chunk_slots_eq_coe (s : State) :
    chunk_slots s = Multiset.ofList
      ((s.player.buffer.free ++ s.player.pipe ++ dc_pipe_chunks s.dc.pipe).map
        fun c => c.slot) := by
  unfold chunk_slots slots
  simp

theorem conserved_count {s : State} (h : conserved s) :
    s.player.buffer.free.length + music_pipe_size s.player.pipe
      + music_pipe_size (dc_pipe_chunks s.dc.pipe) = s.player.buffer.num_chunks := by
  have hc := congrArg Multiset.card h
  rw [chunk_slots_eq_coe] at hc
  simpa [music_pipe_size, Nat.add_assoc] using hc

theorem conserved_nodup {s : State} (h : conserved s) :
    ((s.player.buffer.free ++ s.player.pipe ++ dc_pipe_chunks s.dc.pipe).map
      fun c => c.slot).Nodup := by
  have hn : (chunk_slots s).Nodup := by
    rw [h]
    exact Multiset.nodup_range _
  rw [chunk_slots_eq_coe] at hn
  exact Multiset.coe_nodup.mp hn

/-- C11: chunk conservation.  At every loop-top of `do_play` the free chunks of
the buffer, the chunks of the player's pipe and the chunks of the decoder's
pipe (counted only when it is a pipe of its own) are together exactly the `N`
chunks of the buffer, each once: the number of chunks outside the buffer is
`|player.pipe| + |dc.pipe|`, and no chunk is in two places.  Every pass
through the loop body (ending in `continue` or `break`), the command dispatch
with its SEEK and CANCEL handlers, the playing of a chunk with its cross-fade
step, the output step with the song boundary, and the decoder and the main
thread acting in between preserve this; the teardown after the loop returns
unless its assertion fails, and leaves both pipes empty and all `N` chunks in
the buffer. -/
theorem chunk_conservation (s0 s : State) (h : loop_top s0 s) :
    conserved s ∧
    (s.player.buffer.num_chunks - s.player.buffer.free.length
      = music_pipe_size s.player.pipe + music_pipe_size (dc_pipe_chunks s.dc.pipe)) ∧
    ((s.player.buffer.free ++ s.player.pipe ++ dc_pipe_chunks s.dc.pipe).map
      fun c => c.slot).Nodup ∧
    (∀ a ∈ s.player.pipe, ∀ b ∈ dc_pipe_chunks s.dc.pipe, a.slot ≠ b.slot) ∧
    (∀ env t t1 c, conserved t → do_play_iteration env t = .ok (t1, c) → conserved t1) ∧
    (∀ env t t1, conserved t → player_process_command env t = .ok t1 → conserved t1) ∧
    (∀ env t t1 b, conserved t → player_seek_decoder env t = .ok (t1, b) → conserved t1) ∧
    (∀ env t t1 c, conserved t → do_play_chunk env t = .ok (t1, c) → conserved t1) ∧
    (∀ env t t1 c, conserved t → do_play_output env t = .ok (t1, c) → conserved t1) ∧
    (∀ i t, conserved t → conserved (interfere i t)) ∧
    (∀ t, (t.player.queued = true → t.pc.next_song ≠ none) →
      ∃ u, do_play_teardown t = .ok u) ∧
    (∀ t u, conserved t → do_play_teardown t = .ok u →
      u.player.pipe = [] ∧ dc_pipe_chunks u.dc.pipe = [] ∧
      u.player.buffer.num_chunks = t.player.buffer.num_chunks ∧
      slots u.player.buffer.free = Multiset.range t.player.buffer.num_chunks ∧
      u.player.buffer.free.length = t.player.buffer.num_chunks) := by
  have hc := loop_top_conserved h
  have hcount := conserved_count hc
  have hnodup := conserved_nodup hc
  refine ⟨hc, by omega, hnodup, ?_,
    fun env t t1 c ht hit => conserved_of_same_chunks ht (do_play_iteration_same_chunks hit),
    fun env t t1 ht hp => conserved_of_same_chunks ht (player_process_command_same_chunks hp),
    fun env t t1 b ht hp => conserved_of_same_chunks ht (player_seek_decoder_same_chunks hp),
    fun env t t1 c ht hp => conserved_of_same_chunks ht (do_play_chunk_same_chunks hp),
    fun env t t1 c ht hp => conserved_of_same_chunks ht (do_play_output_same_chunks hp),
    fun i t ht => conserved_of_same_chunks ht (interfere_same_chunks i t), ?_, ?_⟩
  · intro a ha b hb hab
    rw [List.map_append, List.map_append, List.append_assoc] at hnodup
    have h2 := (List.nodup_append.mp hnodup).2.1
    have h3 := (List.nodup_append.mp h2).2.2
    exact h3 (List.mem_map.mpr ⟨a, ha, rfl⟩) (List.mem_map.mpr ⟨b, hb, hab.symm⟩)
  · intro t ht
    unfold do_play_teardown
    by_cases hq : t.player.queued = true
    · have hn := ht hq
      simp [hq, hn]
    · simp [hq]
  · intro t u ht hu
    obtain ⟨hsame, hp, hd⟩ := do_play_teardown_chunks hu
    have hcu := conserved_of_same_chunks ht hsame
    have hfree : slots u.player.buffer.free = Multiset.range t.player.buffer.num_chunks := by
      have := hcu
      unfold conserved chunk_slots at this
      rw [hp, hd, hsame.1] at this
      simpa [slots_nil] using this
    refine ⟨hp, hd, hsame.1, hfree, ?_⟩
    have hcard := conserved_count hcu
    rw [hp, hd, hsame.1] at hcard
    simpa [music_pipe_size] using hcard

/-- C11 applied to the second loop-top of the start of song 1: four of the 64
chunks are in the player's pipe, which is also the decoder's, and 60 are free. -/
theorem chunk_conservation_witness :
    (loop_top demo_start demo_opened_top ∧
      demo_opened_top.player.buffer.num_chunks = 64 ∧
      demo_opened_top.player.buffer.free.length = 60 ∧
      music_pipe_size demo_opened_top.player.pipe = 4) ∧
    (conserved demo_opened_top ∧
    (demo_opened_top.player.buffer.num_chunks - demo_opened_top.player.buffer.free.length
      = music_pipe_size demo_opened_top.player.pipe
        + music_pipe_size (dc_pipe_chunks demo_opened_top.dc.pipe)) ∧
    ((demo_opened_top.player.buffer.free ++ demo_opened_top.player.pipe
      ++ dc_pipe_chunks demo_opened_top.dc.pipe).map fun c => c.slot).Nodup ∧
    (∀ a ∈ demo_opened_top.player.pipe, ∀ b ∈ dc_pipe_chunks demo_opened_top.dc.pipe,
      a.slot ≠ b.slot) ∧
    (∀ env t t1 c, conserved t → do_play_iteration env t = .ok (t1, c) → conserved t1) ∧
    (∀ env t t1, conserved t → player_process_command env t = .ok t1 → conserved t1) ∧
    (∀ env t t1 b, conserved t → player_seek_decoder env t = .ok (t1, b) → conserved t1) ∧
    (∀ env t t1 c, conserved t → do_play_chunk env t = .ok (t1, c) → conserved t1) ∧
    (∀ env t t1 c, conserved t → do_play_output env t = .ok (t1, c) → conserved t1) ∧
    (∀ i t, conserved t → conserved (interfere i t)) ∧
    (∀ t, (t.player.queued = true → t.pc.next_song ≠ none) →
      ∃ u, do_play_teardown t = .ok u) ∧
    (∀ t u, conserved t → do_play_teardown t = .ok u →
      u.player.pipe = [] ∧ dc_pipe_chunks u.dc.pipe = [] ∧
      u.player.buffer.num_chunks = t.player.buffer.num_chunks ∧
      slots u.player.buffer.free = Multiset.range t.player.buffer.num_chunks ∧
      u.player.buffer.free.length = t.player.buffer.num_chunks)) :=
  ⟨⟨loop_top.next _ demo_env _ demo_opened
      (loop_top.first
        (between .NONE none (some 1) [full_chunk, full_chunk, full_chunk, full_chunk])
        demo_started rfl) rfl,
      by decide, by decide, by decide⟩,
    chunk_conservation demo_start demo_opened_top
      (loop_top.next _ demo_env _ demo_opened
        (loop_top.first
          (between .NONE none (some 1) [full_chunk, full_chunk, full_chunk, full_chunk])
          demo_started rfl) rfl)⟩

/-! ### The refill rule -/

end PlayerThread
